import Mathlib

/-!
# fileTransfer chaincode: record store and composite index

A shallow embedding of `file_transfer_chaincode_private.go`.  The chaincode
talks to three collaborators that live outside the repository:

* `encoding/json` (`json.Marshal`, `json.Unmarshal`), modelled in the
  namespace `FileTransfer.json` for the struct types the chaincode declares:
  the encoder writes the fields in declaration order with the escapes of
  `json.Marshal`; the decoder checks the whole text, matches keys to fields
  exactly and then ignoring case, leaves a field alone on `null` and on an
  unknown key, and fails on a value of the wrong kind;
* the Fabric `shim` stub (`GetTransient`, `GetPrivateData`, `PutPrivateData`,
  `DelPrivateData`, `CreateCompositeKey`, `GetPrivateDataQueryResult`),
  modelled by `ChaincodeStub` together with a log of the calls issued;
* `shim.Success` / `shim.Error`, the two response constructors.

Every operation maps a stub and its arguments to the response and the stub
after the call: the state holds the writes issued so far, whether or not the
operation ends in an error.

Go `string` and `[]byte` are both modelled by `String` (a sequence of Unicode
scalar values); a Go `nil` byte slice is `none`.
-/

namespace FileTransfer

/-- Go `[]byte`. -/
abbrev Bytes := String

/-- Equality of Go results `(value, err)` is decidable. -/
instance instDecidableEqExcept {ε α : Type} [DecidableEq ε] [DecidableEq α] :
    DecidableEq (Except ε α)
  | Except.ok a, Except.ok b =>
    if h : a = b then isTrue (by rw [h]) else isFalse (fun h1 => h (Except.ok.inj h1))
  | Except.error a, Except.error b =>
    if h : a = b then isTrue (by rw [h]) else isFalse (fun h1 => h (Except.error.inj h1))
  | Except.ok _, Except.error _ => isFalse (fun h => Except.noConfusion h)
  | Except.error _, Except.ok _ => isFalse (fun h => Except.noConfusion h)

/-! ## The struct types of the chaincode -/

/-- The public record (`type fileTransfer struct`).  The tag of the last field
is written without quotes in the source, so `encoding/json` does not see it
and uses the Go field name `HasBeenAccessed` as the JSON key. -/
structure fileTransfer where
  ObjectType : String
  Name : String
  Description : String
  Originator : String
  Recipient : String
  Authorization : String
  HasBeenAccessed : Bool
deriving DecidableEq, Repr

/-- The private detail (`type fileTransferPrivateDetails struct`). -/
structure fileTransferPrivateDetails where
  ObjectType : String
  Name : String
  Address : String
  EncryptionKey : String
deriving DecidableEq, Repr

/-- The transient input of `initFileTransfer`. -/
structure transferTransientInput where
  Name : String
  Description : String
  Originator : String
  Recipient : String
  Authorization : String
  Address : String
  EncryptionKey : String
deriving DecidableEq, Repr

/-- The transient input of `delete`. -/
structure transferDeleteTransientInput where
  Name : String
deriving DecidableEq, Repr

/-- The transient input of `accessFile`. -/
structure fileAccessTransientInput where
  Name : String
  HasBeenAccessed : Bool
deriving DecidableEq, Repr

/-! ## `encoding/json` -/

namespace json

/-- String escaping of the encoder (`json.Marshal` escapes HTML characters). -/
def escapeChar (c : Char) : List Char :=
  if c = '"' then ['\\', '"']
  else if c = '\\' then ['\\', '\\']
  else if c = '\n' then ['\\', 'n']
  else if c = '\r' then ['\\', 'r']
  else if c = '\t' then ['\\', 't']
  else if c.toNat < 32 ∨ c = '<' ∨ c = '>' ∨ c = '&' then
    ['\\', 'u', '0', '0', Nat.digitChar (c.toNat / 16), Nat.digitChar (c.toNat % 16)]
  else if c.toNat = 0x2028 then ['\\', 'u', '2', '0', '2', '8']
  else if c.toNat = 0x2029 then ['\\', 'u', '2', '0', '2', '9']
  else [c]

/-- The body of a JSON string literal for `s`. -/
def escape : List Char → List Char
  | [] => []
  | c :: cs => escapeChar c ++ escape cs

/-- A JSON string literal. -/
def quote (s : String) : String := ⟨'"' :: (escape s.data ++ ['"'])⟩

/-- A JSON boolean literal. -/
def boolLit (b : Bool) : String := if b then "true" else "false"

/-- Encoding of a `fileTransfer` by `json.Marshal`: the fields in declaration
order under their JSON keys. -/
def MarshalTransfer (t : fileTransfer) : Bytes :=
  "\x7b\"docType\":" ++ quote t.ObjectType ++
  ",\"name\":" ++ quote t.Name ++
  ",\"description\":" ++ quote t.Description ++
  ",\"originator\":" ++ quote t.Originator ++
  ",\"recipient\":" ++ quote t.Recipient ++
  ",\"authorization\":" ++ quote t.Authorization ++
  ",\"HasBeenAccessed\":" ++ boolLit t.HasBeenAccessed ++ "\x7d"

/-- Encoding of a `fileTransferPrivateDetails` by `json.Marshal`. -/
def MarshalPrivateDetails (t : fileTransferPrivateDetails) : Bytes :=
  "\x7b\"docType\":" ++ quote t.ObjectType ++
  ",\"name\":" ++ quote t.Name ++
  ",\"address\":" ++ quote t.Address ++
  ",\"encryptionKey\":" ++ quote t.EncryptionKey ++ "\x7d"

/-- JSON white space. -/
def isWs (c : Char) : Bool := c = ' ' || c = '\t' || c = '\n' || c = '\r'

/-- Skip JSON white space. -/
def skipWs : List Char → List Char
  | [] => []
  | c :: cs => if isWs c then skipWs cs else c :: cs

/-- Value of a hexadecimal digit. -/
def hexVal (c : Char) : Option Nat :=
  if 48 ≤ c.toNat ∧ c.toNat ≤ 57 then some (c.toNat - 48)
  else if 97 ≤ c.toNat ∧ c.toNat ≤ 102 then some (c.toNat - 87)
  else if 65 ≤ c.toNat ∧ c.toNat ≤ 70 then some (c.toNat - 55)
  else none

/-- Value of four hexadecimal digits. -/
def hex4 (a b c d : Char) : Option Nat :=
  match hexVal a, hexVal b, hexVal c, hexVal d with
  | some a, some b, some c, some d => some (((a * 16 + b) * 16 + c) * 16 + d)
  | _, _, _, _ => none

/-- The character of a one-letter escape. -/
def unescape (e : Char) : Option Char :=
  if e = '"' then some '"'
  else if e = '\\' then some '\\'
  else if e = '/' then some '/'
  else if e = 'b' then some (Char.ofNat 8)
  else if e = 'f' then some (Char.ofNat 12)
  else if e = 'n' then some '\n'
  else if e = 'r' then some '\r'
  else if e = 't' then some '\t'
  else none

/-- One unit of a scanned string literal: a character, or the code unit of a
`\uXXXX` escape (which may be half of a surrogate pair). -/
inductive CodeUnit where
  | chr (c : Char)
  | esc (n : Nat)
deriving DecidableEq, Repr

/-- Scan a string literal after its opening quote: its units and the text
after the closing quote.  Raw control characters and unknown escapes are
errors. -/
def scanUnits : List Char → Option (List CodeUnit × List Char)
  | [] => none
  | c :: cs =>
    if c = '"' then some ([], cs)
    else if c = '\\' then
      match cs with
      | [] => none
      | e :: cs1 =>
        if e = 'u' then
          match cs1 with
          | a :: b :: c :: d :: cs2 =>
            match hex4 a b c d with
            | none => none
            | some n => (scanUnits cs2).map fun r => (CodeUnit.esc n :: r.1, r.2)
          | _ => none
        else
          match unescape e with
          | none => none
          | some d => (scanUnits cs1).map fun r => (CodeUnit.chr d :: r.1, r.2)
    else if c.toNat < 32 then none
    else (scanUnits cs).map fun r => (CodeUnit.chr c :: r.1, r.2)

/-- The character of a `\uXXXX` escape that is not the high half of a pair:
U+FFFD for a surrogate. -/
def unitChar (n : Nat) : Char :=
  if 0xD800 ≤ n ∧ n ≤ 0xDFFF then Char.ofNat 0xFFFD else Char.ofNat n

/-- Decode the units of a string literal, `pending` being a high surrogate
just read: a high surrogate directly followed by a low one is one character,
any other surrogate is U+FFFD. -/
def combine : Option Nat → List CodeUnit → List Char
  | none, [] => []
  | some _, [] => [Char.ofNat 0xFFFD]
  | none, CodeUnit.chr c :: us => c :: combine none us
  | some _, CodeUnit.chr c :: us => Char.ofNat 0xFFFD :: c :: combine none us
  | none, CodeUnit.esc n :: us =>
    if 0xD800 ≤ n ∧ n ≤ 0xDBFF then combine (some n) us
    else unitChar n :: combine none us
  | some h, CodeUnit.esc m :: us =>
    if 0xDC00 ≤ m ∧ m ≤ 0xDFFF then
      Char.ofNat (0x10000 + (h - 0xD800) * 0x400 + (m - 0xDC00)) :: combine none us
    else if 0xD800 ≤ m ∧ m ≤ 0xDBFF then Char.ofNat 0xFFFD :: combine (some m) us
    else Char.ofNat 0xFFFD :: unitChar m :: combine none us

/-- Scan and decode a string literal after its opening quote. -/
def scanString (cs : List Char) : Option (String × List Char) :=
  (scanUnits cs).map fun r => (⟨combine none r.1⟩, r.2)

/-- Drop a run of decimal digits. -/
def dropDigits : List Char → List Char
  | [] => []
  | c :: cs => if c.isDigit then dropDigits cs else c :: cs

/-- The integer part of a number: `0`, or a non-zero digit and more digits. -/
def scanInt : List Char → Option (List Char)
  | [] => none
  | c :: cs =>
    if c = '0' then some cs
    else if c.isDigit then some (dropDigits cs)
    else none

/-- The optional fraction of a number. -/
def scanFrac : List Char → Option (List Char)
  | [] => some []
  | c :: cs =>
    if c = '.' then
      match cs with
      | [] => none
      | d :: cs1 => if d.isDigit then some (dropDigits cs1) else none
    else some (c :: cs)

/-- The digits of an exponent, after the optional sign. -/
def scanExpDigits : List Char → Option (List Char)
  | [] => none
  | d :: cs => if d.isDigit then some (dropDigits cs) else none

/-- The optional exponent of a number. -/
def scanExp : List Char → Option (List Char)
  | [] => some []
  | c :: cs =>
    if c = 'e' ∨ c = 'E' then
      match cs with
      | [] => none
      | s :: cs1 => if s = '+' ∨ s = '-' then scanExpDigits cs1 else scanExpDigits (s :: cs1)
    else some (c :: cs)

/-- Scan a JSON number. -/
def scanNumber (cs : List Char) : Option (List Char) :=
  let body := match cs with
    | [] => none
    | c :: cs1 => if c = '-' then scanInt cs1 else scanInt (c :: cs1)
  (body.bind scanFrac).bind scanExp

/-- Scan one of the literals `true`, `false`, `null`. -/
def scanLiteral : List Char → Option (Option Bool × List Char)
  | 't' :: 'r' :: 'u' :: 'e' :: cs => some (some true, cs)
  | 'f' :: 'a' :: 'l' :: 's' :: 'e' :: cs => some (some false, cs)
  | 'n' :: 'u' :: 'l' :: 'l' :: cs => some (none, cs)
  | _ => none

mutual

/-- Check one JSON value of any kind and return the text after it. -/
def skipValue : Nat → List Char → Option (List Char)
  | 0, _ => none
  | fuel + 1, cs =>
    match cs with
    | [] => none
    | c :: cs1 =>
      if c = '"' then (scanUnits cs1).map fun r => r.2
      else if c = '{' then
        match skipWs cs1 with
        | [] => none
        | d :: cs2 => if d = '}' then some cs2 else skipMembers fuel (d :: cs2)
      else if c = '[' then
        match skipWs cs1 with
        | [] => none
        | d :: cs2 => if d = ']' then some cs2 else skipElements fuel (d :: cs2)
      else
        match scanLiteral (c :: cs1) with
        | some r => some r.2
        | none => scanNumber (c :: cs1)

/-- Check the members of an object up to its closing brace. -/
def skipMembers : Nat → List Char → Option (List Char)
  | 0, _ => none
  | fuel + 1, cs =>
    match cs with
    | [] => none
    | c :: cs1 =>
      if c = '"' then
        match scanUnits cs1 with
        | none => none
        | some r =>
          match skipWs r.2 with
          | [] => none
          | d :: cs2 =>
            if d = ':' then
              match skipValue fuel (skipWs cs2) with
              | none => none
              | some cs3 =>
                match skipWs cs3 with
                | [] => none
                | e :: cs4 =>
                  if e = ',' then skipMembers fuel (skipWs cs4)
                  else if e = '}' then some cs4
                  else none
            else none
      else none

/-- Check the elements of an array up to its closing bracket. -/
def skipElements : Nat → List Char → Option (List Char)
  | 0, _ => none
  | fuel + 1, cs =>
    match skipValue fuel cs with
    | none => none
    | some cs1 =>
      match skipWs cs1 with
      | [] => none
      | e :: cs2 =>
        if e = ',' then skipElements fuel (skipWs cs2)
        else if e = ']' then some cs2
        else none

end

/-- What the decoder sees of the value of a top-level member: a string, a
boolean, `null`, or a value of another kind (number, array, object). -/
inductive Value where
  | str (s : String)
  | bool (b : Bool)
  | null
  | other
deriving DecidableEq, Repr

/-- Parse the value of a top-level member. -/
def parseValue (fuel : Nat) (cs : List Char) : Option (Value × List Char) :=
  match cs with
  | [] => none
  | c :: cs1 =>
    if c = '"' then (scanString cs1).map fun r => (Value.str r.1, r.2)
    else
      match scanLiteral (c :: cs1) with
      | some (some b, rest) => some (Value.bool b, rest)
      | some (none, rest) => some (Value.null, rest)
      | none => (skipValue fuel (c :: cs1)).map fun rest => (Value.other, rest)

/-- Parse the members of the top-level object up to its closing brace. -/
def parseMembers : Nat → List Char → Option (List (String × Value) × List Char)
  | 0, _ => none
  | fuel + 1, cs =>
    match cs with
    | [] => none
    | c :: cs1 =>
      if c = '"' then
        match scanString cs1 with
        | none => none
        | some (key, rest) =>
          match skipWs rest with
          | [] => none
          | d :: cs2 =>
            if d = ':' then
              match parseValue fuel (skipWs cs2) with
              | none => none
              | some (v, cs3) =>
                match skipWs cs3 with
                | [] => none
                | e :: cs4 =>
                  if e = ',' then
                    (parseMembers fuel (skipWs cs4)).map fun r => ((key, v) :: r.1, r.2)
                  else if e = '}' then some ([(key, v)], cs4)
                  else none
            else none
      else none

/-- A checked JSON text, as far as decoding into a struct looks at it: an
object with its members in order, `null`, or a value of another kind. -/
inductive Document where
  | object (members : List (String × Value))
  | null
  | other
deriving DecidableEq, Repr

/-- Check a whole JSON text (one value between optional white space). -/
def parseDocument (data : Bytes) : Option Document :=
  match skipWs data.data with
  | [] => none
  | c :: cs =>
    if c = '{' then
      match skipWs cs with
      | [] => none
      | d :: cs1 =>
        if d = '}' then (if skipWs cs1 = [] then some (Document.object []) else none)
        else
          match parseMembers (cs.length + 1) (d :: cs1) with
          | none => none
          | some (ms, rest) => if skipWs rest = [] then some (Document.object ms) else none
    else
      match scanLiteral (c :: cs) with
      | some (none, rest) => if skipWs rest = [] then some Document.null else none
      | _ =>
        match skipValue (cs.length + 2) (c :: cs) with
        | none => none
        | some rest => if skipWs rest = [] then some Document.other else none

/-- Case folding of a key character as the decoder matches field names: ASCII
letters ignore case, and U+017F and U+212A fold to `s` and `k`. -/
def foldChar (c : Char) : Char :=
  if 65 ≤ c.toNat ∧ c.toNat ≤ 90 then Char.ofNat (c.toNat + 32)
  else if c.toNat = 0x17F then 's'
  else if c.toNat = 0x212A then 'k'
  else c

/-- Case-insensitive match of a key against a field name. -/
def equalFold (a b : String) : Bool := a.data.map foldChar = b.data.map foldChar

/-- The field a key is decoded into: the one with exactly that JSON name,
else the first whose name matches ignoring case. -/
def findField (fields : List String) (key : String) : Option String :=
  if fields.contains key then some key else fields.find? fun f => equalFold f key

/-- The two ways `json.Unmarshal` fails. -/
inductive UnmarshalError where
  | SyntaxError
  | UnmarshalTypeError
deriving DecidableEq, Repr

/-- The text of `err.Error()`; the library's message carries positions and
type names which are not modelled. -/
def UnmarshalError.Error : UnmarshalError → String
  | SyntaxError => "invalid character looking for beginning of value"
  | UnmarshalTypeError => "json: cannot unmarshal value into Go struct field"

/-- Decode the members of an object into a struct: `set` stores one value in
the named field and is `none` on a kind mismatch.  After a mismatch the
decoder goes on but returns the error at the end, so the result is `none`. -/
def decodeMembers {α : Type} (fields : List String) (set : α → String → Value → Option α) :
    List (String × Value) → α → Option α
  | [], r => some r
  | (key, v) :: ms, r =>
    match findField fields key with
    | none => decodeMembers fields set ms r
    | some f =>
      match v with
      | Value.null => decodeMembers fields set ms r
      | v =>
        match set r f v with
        | none => none
        | some r1 => decodeMembers fields set ms r1

/-- The decoder `json.Unmarshal(data, &v)` for a struct `v` that starts at
`zero`: a syntax error if the text is not JSON, a type error if the text is
not an object (or `null`) or a member has the wrong kind for its field. -/
def Unmarshal {α : Type} (fields : List String) (set : α → String → Value → Option α)
    (zero : α) (data : Bytes) : Except UnmarshalError α :=
  match parseDocument data with
  | none => Except.error UnmarshalError.SyntaxError
  | some Document.null => Except.ok zero
  | some Document.other => Except.error UnmarshalError.UnmarshalTypeError
  | some (Document.object ms) =>
    match decodeMembers fields set ms zero with
    | none => Except.error UnmarshalError.UnmarshalTypeError
    | some r => Except.ok r

/-- Store a string in a field, `none` for any other kind of value. -/
def setString {α : Type} (put : String → α) : Value → Option α
  | Value.str s => some (put s)
  | _ => none

/-- Store a boolean in a field, `none` for any other kind of value. -/
def setBool {α : Type} (put : Bool → α) : Value → Option α
  | Value.bool b => some (put b)
  | _ => none

/-- Field assignment for `fileTransfer`. -/
def setTransfer (t : fileTransfer) (f : String) (v : Value) : Option fileTransfer :=
  if f = "docType" then setString (fun s => { t with ObjectType := s }) v
  else if f = "name" then setString (fun s => { t with Name := s }) v
  else if f = "description" then setString (fun s => { t with Description := s }) v
  else if f = "originator" then setString (fun s => { t with Originator := s }) v
  else if f = "recipient" then setString (fun s => { t with Recipient := s }) v
  else if f = "authorization" then setString (fun s => { t with Authorization := s }) v
  else setBool (fun b => { t with HasBeenAccessed := b }) v

/-- Decoding of stored bytes into a `fileTransfer`. -/
def UnmarshalTransfer (data : Bytes) : Except UnmarshalError fileTransfer :=
  Unmarshal
    ["docType", "name", "description", "originator", "recipient", "authorization",
      "HasBeenAccessed"]
    setTransfer ⟨"", "", "", "", "", "", false⟩ data

/-- Field assignment for `transferTransientInput`. -/
def setTransferInput (t : transferTransientInput) (f : String) (v : Value) :
    Option transferTransientInput :=
  if f = "name" then setString (fun s => { t with Name := s }) v
  else if f = "description" then setString (fun s => { t with Description := s }) v
  else if f = "originator" then setString (fun s => { t with Originator := s }) v
  else if f = "recipient" then setString (fun s => { t with Recipient := s }) v
  else if f = "authorization" then setString (fun s => { t with Authorization := s }) v
  else if f = "address" then setString (fun s => { t with Address := s }) v
  else setString (fun s => { t with EncryptionKey := s }) v

/-- Decoding of the transient input of `initFileTransfer`. -/
def UnmarshalTransferInput (data : Bytes) : Except UnmarshalError transferTransientInput :=
  Unmarshal
    ["name", "description", "originator", "recipient", "authorization", "address",
      "encryptionKey"]
    setTransferInput ⟨"", "", "", "", "", "", ""⟩ data

/-- Decoding of the transient input of `delete`. -/
def UnmarshalDeleteInput (data : Bytes) : Except UnmarshalError transferDeleteTransientInput :=
  Unmarshal ["name"] (fun _ _ v => setString (fun s => ⟨s⟩) v) ⟨""⟩ data

/-- Field assignment for `fileAccessTransientInput`. -/
def setAccessInput (t : fileAccessTransientInput) (f : String) (v : Value) :
    Option fileAccessTransientInput :=
  if f = "name" then setString (fun s => { t with Name := s }) v
  else setBool (fun b => { t with HasBeenAccessed := b }) v

/-- Decoding of the transient input of `accessFile`. -/
def UnmarshalAccessInput (data : Bytes) : Except UnmarshalError fileAccessTransientInput :=
  Unmarshal ["name", "hasBeenAccessed"] setAccessInput ⟨"", false⟩ data

end json

/-! ## `unicode`, `strings` and `fmt` -/

namespace unicode

/-- The runes that lower-casing changes outside ASCII, as the case ranges of
package `unicode` give them (the simple lower-case mappings of Unicode
14.0.0): first rune, last rune, stride, and the lower case of the first rune;
the lower case of a rune of the range is as far from it as for the first. -/
def lowerRanges : List (Nat × Nat × Nat × Nat) :=
  [(0xC0, 0xD6, 1, 0xE0), (0xD8, 0xDE, 1, 0xF8), (0x100, 0x12E, 2, 0x101),
    (0x130, 0x130, 1, 0x69), (0x132, 0x136, 2, 0x133), (0x139, 0x147, 2, 0x13A),
    (0x14A, 0x176, 2, 0x14B), (0x178, 0x178, 1, 0xFF), (0x179, 0x17D, 2, 0x17A),
    (0x181, 0x181, 1, 0x253), (0x182, 0x184, 2, 0x183), (0x186, 0x186, 1, 0x254),
    (0x187, 0x187, 1, 0x188), (0x189, 0x18A, 1, 0x256), (0x18B, 0x18B, 1, 0x18C),
    (0x18E, 0x18E, 1, 0x1DD), (0x18F, 0x18F, 1, 0x259), (0x190, 0x190, 1, 0x25B),
    (0x191, 0x191, 1, 0x192), (0x193, 0x193, 1, 0x260), (0x194, 0x194, 1, 0x263),
    (0x196, 0x196, 1, 0x269), (0x197, 0x197, 1, 0x268), (0x198, 0x198, 1, 0x199),
    (0x19C, 0x19C, 1, 0x26F), (0x19D, 0x19D, 1, 0x272), (0x19F, 0x19F, 1, 0x275),
    (0x1A0, 0x1A4, 2, 0x1A1), (0x1A6, 0x1A6, 1, 0x280), (0x1A7, 0x1A7, 1, 0x1A8),
    (0x1A9, 0x1A9, 1, 0x283), (0x1AC, 0x1AC, 1, 0x1AD), (0x1AE, 0x1AE, 1, 0x288),
    (0x1AF, 0x1AF, 1, 0x1B0), (0x1B1, 0x1B2, 1, 0x28A), (0x1B3, 0x1B5, 2, 0x1B4),
    (0x1B7, 0x1B7, 1, 0x292), (0x1B8, 0x1B8, 1, 0x1B9), (0x1BC, 0x1BC, 1, 0x1BD),
    (0x1C4, 0x1C4, 1, 0x1C6), (0x1C5, 0x1C5, 1, 0x1C6), (0x1C7, 0x1C7, 1, 0x1C9),
    (0x1C8, 0x1C8, 1, 0x1C9), (0x1CA, 0x1CA, 1, 0x1CC), (0x1CB, 0x1DB, 2, 0x1CC),
    (0x1DE, 0x1EE, 2, 0x1DF), (0x1F1, 0x1F1, 1, 0x1F3), (0x1F2, 0x1F4, 2, 0x1F3),
    (0x1F6, 0x1F6, 1, 0x195), (0x1F7, 0x1F7, 1, 0x1BF), (0x1F8, 0x21E, 2, 0x1F9),
    (0x220, 0x220, 1, 0x19E), (0x222, 0x232, 2, 0x223), (0x23A, 0x23A, 1, 0x2C65),
    (0x23B, 0x23B, 1, 0x23C), (0x23D, 0x23D, 1, 0x19A), (0x23E, 0x23E, 1, 0x2C66),
    (0x241, 0x241, 1, 0x242), (0x243, 0x243, 1, 0x180), (0x244, 0x244, 1, 0x289),
    (0x245, 0x245, 1, 0x28C), (0x246, 0x24E, 2, 0x247), (0x370, 0x372, 2, 0x371),
    (0x376, 0x376, 1, 0x377), (0x37F, 0x37F, 1, 0x3F3), (0x386, 0x386, 1, 0x3AC),
    (0x388, 0x38A, 1, 0x3AD), (0x38C, 0x38C, 1, 0x3CC), (0x38E, 0x38F, 1, 0x3CD),
    (0x391, 0x3A1, 1, 0x3B1), (0x3A3, 0x3AB, 1, 0x3C3), (0x3CF, 0x3CF, 1, 0x3D7),
    (0x3D8, 0x3EE, 2, 0x3D9), (0x3F4, 0x3F4, 1, 0x3B8), (0x3F7, 0x3F7, 1, 0x3F8),
    (0x3F9, 0x3F9, 1, 0x3F2), (0x3FA, 0x3FA, 1, 0x3FB), (0x3FD, 0x3FF, 1, 0x37B),
    (0x400, 0x40F, 1, 0x450), (0x410, 0x42F, 1, 0x430), (0x460, 0x480, 2, 0x461),
    (0x48A, 0x4BE, 2, 0x48B), (0x4C0, 0x4C0, 1, 0x4CF), (0x4C1, 0x4CD, 2, 0x4C2),
    (0x4D0, 0x52E, 2, 0x4D1), (0x531, 0x556, 1, 0x561), (0x10A0, 0x10C5, 1, 0x2D00),
    (0x10C7, 0x10C7, 1, 0x2D27), (0x10CD, 0x10CD, 1, 0x2D2D), (0x13A0, 0x13EF, 1, 0xAB70),
    (0x13F0, 0x13F5, 1, 0x13F8), (0x1C90, 0x1CBA, 1, 0x10D0), (0x1CBD, 0x1CBF, 1, 0x10FD),
    (0x1E00, 0x1E94, 2, 0x1E01), (0x1E9E, 0x1E9E, 1, 0xDF), (0x1EA0, 0x1EFE, 2, 0x1EA1),
    (0x1F08, 0x1F0F, 1, 0x1F00), (0x1F18, 0x1F1D, 1, 0x1F10), (0x1F28, 0x1F2F, 1, 0x1F20),
    (0x1F38, 0x1F3F, 1, 0x1F30), (0x1F48, 0x1F4D, 1, 0x1F40), (0x1F59, 0x1F5F, 2, 0x1F51),
    (0x1F68, 0x1F6F, 1, 0x1F60), (0x1F88, 0x1F8F, 1, 0x1F80), (0x1F98, 0x1F9F, 1, 0x1F90),
    (0x1FA8, 0x1FAF, 1, 0x1FA0), (0x1FB8, 0x1FB9, 1, 0x1FB0), (0x1FBA, 0x1FBB, 1, 0x1F70),
    (0x1FBC, 0x1FBC, 1, 0x1FB3), (0x1FC8, 0x1FCB, 1, 0x1F72), (0x1FCC, 0x1FCC, 1, 0x1FC3),
    (0x1FD8, 0x1FD9, 1, 0x1FD0), (0x1FDA, 0x1FDB, 1, 0x1F76), (0x1FE8, 0x1FE9, 1, 0x1FE0),
    (0x1FEA, 0x1FEB, 1, 0x1F7A), (0x1FEC, 0x1FEC, 1, 0x1FE5), (0x1FF8, 0x1FF9, 1, 0x1F78),
    (0x1FFA, 0x1FFB, 1, 0x1F7C), (0x1FFC, 0x1FFC, 1, 0x1FF3), (0x2126, 0x2126, 1, 0x3C9),
    (0x212A, 0x212A, 1, 0x6B), (0x212B, 0x212B, 1, 0xE5), (0x2132, 0x2132, 1, 0x214E),
    (0x2160, 0x216F, 1, 0x2170), (0x2183, 0x2183, 1, 0x2184), (0x24B6, 0x24CF, 1, 0x24D0),
    (0x2C00, 0x2C2F, 1, 0x2C30), (0x2C60, 0x2C60, 1, 0x2C61), (0x2C62, 0x2C62, 1, 0x26B),
    (0x2C63, 0x2C63, 1, 0x1D7D), (0x2C64, 0x2C64, 1, 0x27D), (0x2C67, 0x2C6B, 2, 0x2C68),
    (0x2C6D, 0x2C6D, 1, 0x251), (0x2C6E, 0x2C6E, 1, 0x271), (0x2C6F, 0x2C6F, 1, 0x250),
    (0x2C70, 0x2C70, 1, 0x252), (0x2C72, 0x2C72, 1, 0x2C73), (0x2C75, 0x2C75, 1, 0x2C76),
    (0x2C7E, 0x2C7F, 1, 0x23F), (0x2C80, 0x2CE2, 2, 0x2C81), (0x2CEB, 0x2CED, 2, 0x2CEC),
    (0x2CF2, 0x2CF2, 1, 0x2CF3), (0xA640, 0xA66C, 2, 0xA641), (0xA680, 0xA69A, 2, 0xA681),
    (0xA722, 0xA72E, 2, 0xA723), (0xA732, 0xA76E, 2, 0xA733), (0xA779, 0xA77B, 2, 0xA77A),
    (0xA77D, 0xA77D, 1, 0x1D79), (0xA77E, 0xA786, 2, 0xA77F), (0xA78B, 0xA78B, 1, 0xA78C),
    (0xA78D, 0xA78D, 1, 0x265), (0xA790, 0xA792, 2, 0xA791), (0xA796, 0xA7A8, 2, 0xA797),
    (0xA7AA, 0xA7AA, 1, 0x266), (0xA7AB, 0xA7AB, 1, 0x25C), (0xA7AC, 0xA7AC, 1, 0x261),
    (0xA7AD, 0xA7AD, 1, 0x26C), (0xA7AE, 0xA7AE, 1, 0x26A), (0xA7B0, 0xA7B0, 1, 0x29E),
    (0xA7B1, 0xA7B1, 1, 0x287), (0xA7B2, 0xA7B2, 1, 0x29D), (0xA7B3, 0xA7B3, 1, 0xAB53),
    (0xA7B4, 0xA7C2, 2, 0xA7B5), (0xA7C4, 0xA7C4, 1, 0xA794), (0xA7C5, 0xA7C5, 1, 0x282),
    (0xA7C6, 0xA7C6, 1, 0x1D8E), (0xA7C7, 0xA7C9, 2, 0xA7C8), (0xA7D0, 0xA7D0, 1, 0xA7D1),
    (0xA7D6, 0xA7D8, 2, 0xA7D7), (0xA7F5, 0xA7F5, 1, 0xA7F6), (0xFF21, 0xFF3A, 1, 0xFF41),
    (0x10400, 0x10427, 1, 0x10428), (0x104B0, 0x104D3, 1, 0x104D8),
    (0x10570, 0x1057A, 1, 0x10597), (0x1057C, 0x1058A, 1, 0x105A3),
    (0x1058C, 0x10592, 1, 0x105B3), (0x10594, 0x10595, 1, 0x105BB),
    (0x10C80, 0x10CB2, 1, 0x10CC0), (0x118A0, 0x118BF, 1, 0x118C0),
    (0x16E40, 0x16E5F, 1, 0x16E60), (0x1E900, 0x1E921, 1, 0x1E922)]

/-- The lower case of a rune (`unicode.ToLower`): the ASCII capitals by the
offset of 32, any other rune by its case range, if it has one. -/
def ToLower (r : Char) : Char :=
  if r.toNat < 128 then
    if 65 ≤ r.toNat ∧ r.toNat ≤ 90 then Char.ofNat (r.toNat + 32) else r
  else
    match lowerRanges.find? fun e =>
        decide (e.1 ≤ r.toNat ∧ r.toNat ≤ e.2.1 ∧ (r.toNat - e.1) % e.2.2.1 = 0) with
    | some e => Char.ofNat (e.2.2.2 + (r.toNat - e.1))
    | none => r

end unicode

namespace strings

/-- Lower-casing of `strings.ToLower`: every rune is mapped by
`unicode.ToLower`. -/
def ToLower (s : String) : String := ⟨s.data.map unicode.ToLower⟩

end strings

/-! ## The Fabric shim -/

/-- The response of an invocation (`pb.Response`). -/
structure Response where
  Status : Nat
  Message : String
  Payload : Option Bytes
deriving DecidableEq, Repr

namespace shim

/-- Status of `shim.Success`. -/
def OK : Nat := 200

/-- Status of `shim.Error`. -/
def ERROR : Nat := 500

/-- `shim.Success(payload)`. -/
def Success (payload : Option Bytes) : Response := ⟨OK, "", payload⟩

/-- `shim.Error(msg)`. -/
def Error (msg : String) : Response := ⟨ERROR, msg, none⟩

/-- One element of a query result (`queryresult.KV`). -/
structure KV where
  Key : String
  Value : Bytes
deriving DecidableEq, Repr

/-- A call issued to the ledger through the stub. -/
inductive Call where
  | GetTransient
  | GetPrivateData (collection key : String)
  | PutPrivateData (collection key : String) (value : Bytes)
  | DelPrivateData (collection key : String)
  | GetPrivateDataQueryResult (collection query : String)
deriving DecidableEq, Repr

/-- The private data collections: collection name, then key. -/
abbrev State := String → String → Option Bytes

/-- The state with nothing stored. -/
def State.empty : State := fun _ _ => none

/-- The state with `key` of `collection` set to `value` (`none` removes it). -/
def State.set (st : State) (collection key : String) (value : Option Bytes) : State :=
  fun c k => if c = collection ∧ k = key then value else st c k

/-- The stub handed to the chaincode for one invocation: the request (function
name, arguments, transient map), the behaviour of the peer (which calls fail,
and with which message; what a rich query returns for the content of a
collection), the state of the private data collections, and the calls issued
so far. -/
structure ChaincodeStub where
  function : String
  args : List String
  transient : List (String × Bytes)
  transientErr : Option String
  getErr : String → String → Option String
  putErr : String → String → Option String
  delErr : String → String → Option String
  richQuery : (String → Option Bytes) → String → Except String (List (Except String KV))
  state : State
  log : List Call

namespace ChaincodeStub

/-- Append a call to the log. -/
def issue (stub : ChaincodeStub) (c : Call) : ChaincodeStub :=
  { stub with log := stub.log ++ [c] }

/-- `stub.GetTransient()`. -/
def GetTransient (stub : ChaincodeStub) :
    Except String (List (String × Bytes)) × ChaincodeStub :=
  match stub.transientErr with
  | some err => (Except.error err, stub.issue Call.GetTransient)
  | none => (Except.ok stub.transient, stub.issue Call.GetTransient)

/-- `stub.GetPrivateData(collection, key)`: `none` is the nil slice of an
absent key. -/
def GetPrivateData (stub : ChaincodeStub) (collection key : String) :
    Except String (Option Bytes) × ChaincodeStub :=
  if collection = "" then
    (Except.error "collection must not be an empty string",
      stub.issue (Call.GetPrivateData collection key))
  else
    match stub.getErr collection key with
    | some err => (Except.error err, stub.issue (Call.GetPrivateData collection key))
    | none =>
      (Except.ok (stub.state collection key), stub.issue (Call.GetPrivateData collection key))

/-- `stub.PutPrivateData(collection, key, value)`: the error, if any. -/
def PutPrivateData (stub : ChaincodeStub) (collection key : String) (value : Bytes) :
    Option String × ChaincodeStub :=
  if collection = "" then
    (some "collection must not be an empty string",
      stub.issue (Call.PutPrivateData collection key value))
  else if key = "" then
    (some "key must not be an empty string",
      stub.issue (Call.PutPrivateData collection key value))
  else
    match stub.putErr collection key with
    | some err => (some err, stub.issue (Call.PutPrivateData collection key value))
    | none =>
      (none,
        { stub with
          state := stub.state.set collection key (some value)
          log := stub.log ++ [Call.PutPrivateData collection key value] })

/-- `stub.DelPrivateData(collection, key)`: the error, if any. -/
def DelPrivateData (stub : ChaincodeStub) (collection key : String) :
    Option String × ChaincodeStub :=
  if collection = "" then
    (some "collection must not be an empty string",
      stub.issue (Call.DelPrivateData collection key))
  else
    match stub.delErr collection key with
    | some err => (some err, stub.issue (Call.DelPrivateData collection key))
    | none =>
      (none,
        { stub with
          state := stub.state.set collection key none
          log := stub.log ++ [Call.DelPrivateData collection key] })

/-- `stub.GetPrivateDataQueryResult(collection, query)`: the iterator is the
list of what its `Next` returns until `HasNext` is false. -/
def GetPrivateDataQueryResult (stub : ChaincodeStub) (collection query : String) :
    Except String (List (Except String KV)) × ChaincodeStub :=
  if collection = "" then
    (Except.error "collection must not be an empty string",
      stub.issue (Call.GetPrivateDataQueryResult collection query))
  else
    (stub.richQuery (stub.state collection) query,
      stub.issue (Call.GetPrivateDataQueryResult collection query))

end ChaincodeStub

/-- The check the Fabric shim (`core/chaincode/shim`, imported by the
chaincode) makes on the object type and on every attribute of a composite key
(`validateCompositeKeyAttribute`): the string must be valid UTF-8, which a
`String` always is, and hold neither U+0000 nor U+10FFFF.  The error, if any;
its text stands for the shim's message, which also gives the position. -/
def validateCompositeKeyAttribute (str : String) : Option String :=
  if str.data.any (fun c => c.toNat = 0 || c.toNat = 0x10FFFF) then
    some "input contain unicode U+0000 or U+10FFFF, which are not allowed in the input attribute of a composite key"
  else none

/-- The loop of `CreateCompositeKey` over the attributes. -/
def appendAttributes : List String → String → Except String String
  | [], ck => Except.ok ck
  | att :: rest, ck =>
    match validateCompositeKeyAttribute att with
    | some err => Except.error err
    | none => appendAttributes rest (ck ++ att ++ "\x00")

/-- The shim's `stub.CreateCompositeKey(objectType, attributes)`: after the
check of the object type, the composite key namespace U+0000, the object type
and every checked attribute, each followed by U+0000. -/
def CreateCompositeKey (objectType : String) (attributes : List String) :
    Except String String :=
  match validateCompositeKeyAttribute objectType with
  | some err => Except.error err
  | none => appendAttributes attributes ("\x00" ++ objectType ++ "\x00")

end shim

open shim

/-! ## The chaincode -/

/-- `Init`. -/
def Init (stub : ChaincodeStub) : Response × ChaincodeStub :=
  (shim.Success none, stub)

/-- `initFileTransfer`: create a new file transfer, store into chaincode state. -/
def initFileTransfer (stub : ChaincodeStub) (args : List String) : Response × ChaincodeStub :=
  if args.length ≠ 0 then
    (shim.Error "Incorrect number of arguments. Private transfer data must be passed in transient map.", stub)
  else
  match stub.GetTransient with
  | (Except.error err, stub) => (shim.Error ("Error getting transient: " ++ err), stub)
  | (Except.ok transMap, stub) =>
  match transMap.lookup "fileTransfer" with
  | none => (shim.Error "fileTransfer must be a key in the transient map", stub)
  | some payload =>
  if payload.length = 0 then
    (shim.Error "fileTransfer value in the transient map must be a non-empty JSON string", stub)
  else
  match json.UnmarshalTransferInput payload with
  | Except.error _ => (shim.Error ("Failed to decode JSON of: " ++ payload), stub)
  | Except.ok transferInput =>
  if transferInput.Name.length = 0 then
    (shim.Error "name field must be a non-empty string", stub)
  else if transferInput.Description.length = 0 then
    (shim.Error "description field must be a non-empty string", stub)
  else if transferInput.Originator.length = 0 then
    (shim.Error "originator field must be a non-empty string", stub)
  else if transferInput.Recipient.length = 0 then
    (shim.Error "recipient field must be a non-empty string", stub)
  else if transferInput.Authorization.length = 0 then
    (shim.Error "authorization field must be a non-empty string", stub)
  else if transferInput.Address.length = 0 then
    (shim.Error "address field must be a non-empty string", stub)
  else if transferInput.EncryptionKey.length = 0 then
    (shim.Error "encryptionKey field must be a non-empty string", stub)
  else
  -- ==== Check if transfer already exists ====
  match stub.GetPrivateData "collectionFileTransfer" transferInput.Name with
  | (Except.error err, stub) => (shim.Error ("Failed to get transfer: " ++ err), stub)
  | (Except.ok (some _), stub) =>
    (shim.Error ("This transfer already exists: " ++ transferInput.Name), stub)
  | (Except.ok none, stub) =>
  -- ==== Create transfer object, marshal to JSON, and save to state ====
  let transfer : fileTransfer :=
    { ObjectType := "fileTransfer"
      Name := transferInput.Name
      Description := transferInput.Description
      Originator := transferInput.Originator
      Recipient := transferInput.Recipient
      Authorization := transferInput.Authorization
      HasBeenAccessed := false }
  let transferJSONasBytes := json.MarshalTransfer transfer
  match stub.PutPrivateData "collectionFileTransfer" transferInput.Name transferJSONasBytes with
  | (some err, stub) => (shim.Error err, stub)
  | (none, stub) =>
  -- ==== Create transfer private details object, marshal to JSON, and save to state ====
  let transferPrivateDetails : fileTransferPrivateDetails :=
    { ObjectType := "fileTransferPrivateDetails"
      Name := transferInput.Name
      Address := transferInput.Address
      EncryptionKey := transferInput.EncryptionKey }
  let transferPrivateDetailsBytes := json.MarshalPrivateDetails transferPrivateDetails
  match stub.PutPrivateData "collectionFileTransferPrivateDetails" transferInput.Name
      transferPrivateDetailsBytes with
  | (some err, stub) => (shim.Error err, stub)
  | (none, stub) =>
  -- ==== Index the transfer to enable Authorization range queries ====
  let indexName := "authorization~name"
  match CreateCompositeKey indexName [transfer.Authorization, transfer.Name] with
  | Except.error err => (shim.Error err, stub)
  | Except.ok authorizationNameIndexKey =>
  -- Save index entry to state; the error of this call is not looked at.
  let value : Bytes := "\x00"
  let stub := (stub.PutPrivateData "collectionFileTransfer" authorizationNameIndexKey value).2
  (shim.Success none, stub)

/-- `readFileTransfer`: read a transfer from chaincode state. -/
def readFileTransfer (stub : ChaincodeStub) (args : List String) : Response × ChaincodeStub :=
  match args with
  | [name] =>
    match stub.GetPrivateData "collectionFileTransfer" name with
    | (Except.error _, stub) =>
      (shim.Error ("\x7b\"Error\":\"Failed to get state for " ++ name ++ "\"\x7d"), stub)
    | (Except.ok none, stub) =>
      (shim.Error ("\x7b\"Error\":\"Transfer does not exist: " ++ name ++ "\"\x7d"), stub)
    | (Except.ok (some valAsbytes), stub) => (shim.Success (some valAsbytes), stub)
  | _ =>
    (shim.Error "Incorrect number of arguments. Expecting name of the transfer to query", stub)

/-- `readFileTransferPrivateDetails`: read a transfer private details from
chaincode state. -/
def readFileTransferPrivateDetails (stub : ChaincodeStub) (args : List String) :
    Response × ChaincodeStub :=
  match args with
  | [name] =>
    match stub.GetPrivateData "collectionFileTransferPrivateDetails" name with
    | (Except.error err, stub) =>
      (shim.Error ("\x7b\"Error\":\"Failed to get private details for " ++ name ++ ": " ++ err
        ++ "\"\x7d"), stub)
    | (Except.ok none, stub) =>
      (shim.Error ("\x7b\"Error\":\"Marble private details does not exist: " ++ name ++ "\"\x7d"),
        stub)
    | (Except.ok (some valAsbytes), stub) => (shim.Success (some valAsbytes), stub)
  | _ =>
    (shim.Error "Incorrect number of arguments. Expecting name of the transfer to query", stub)

/-- `delete`: remove a transfer key/value pair from state. -/
def delete (stub : ChaincodeStub) (args : List String) : Response × ChaincodeStub :=
  if args.length ≠ 0 then
    (shim.Error "Incorrect number of arguments. Private transfer name must be passed in transient map.", stub)
  else
  match stub.GetTransient with
  | (Except.error err, stub) => (shim.Error ("Error getting transient: " ++ err), stub)
  | (Except.ok transMap, stub) =>
  match transMap.lookup "transfer_delete" with
  | none => (shim.Error "transfer_delete must be a key in the transient map", stub)
  | some payload =>
  if payload.length = 0 then
    (shim.Error "transfer_delete value in the transient map must be a non-empty JSON string",
      stub)
  else
  match json.UnmarshalDeleteInput payload with
  | Except.error _ => (shim.Error ("Failed to decode JSON of: " ++ payload), stub)
  | Except.ok transferDeleteInput =>
  if transferDeleteInput.Name.length = 0 then
    (shim.Error "name field must be a non-empty string", stub)
  else
  -- to maintain the authorization~name index, read the transfer first and get its authorization
  match stub.GetPrivateData "collectionFileTransfer" transferDeleteInput.Name with
  | (Except.error _, stub) =>
    (shim.Error ("Failed to get state for " ++ transferDeleteInput.Name), stub)
  | (Except.ok none, stub) =>
    (shim.Error ("Transfer does not exist: " ++ transferDeleteInput.Name), stub)
  | (Except.ok (some valAsbytes), stub) =>
  match json.UnmarshalTransfer valAsbytes with
  | Except.error _ => (shim.Error ("Failed to decode JSON of: " ++ valAsbytes), stub)
  | Except.ok transferToDelete =>
  -- delete the transfer from state
  match stub.DelPrivateData "collectionFileTransfer" transferDeleteInput.Name with
  | (some err, stub) => (shim.Error ("Failed to delete state:" ++ err), stub)
  | (none, stub) =>
  -- Also delete the transfer from the authorization~name index
  let indexName := "authorization~name"
  match CreateCompositeKey indexName [transferToDelete.Authorization, transferToDelete.Name] with
  | Except.error err => (shim.Error err, stub)
  | Except.ok authorizationNameIndexKey =>
  match stub.DelPrivateData "collectionFileTransfer" authorizationNameIndexKey with
  | (some err, stub) => (shim.Error ("Failed to delete state:" ++ err), stub)
  | (none, stub) =>
  -- Finally, delete private details of transfer
  match stub.DelPrivateData "collectionFileTransferPrivateDetails" transferDeleteInput.Name with
  | (some err, stub) => (shim.Error err, stub)
  | (none, stub) => (shim.Success none, stub)

/-- `accessFile`: record that a file has been accessed by the recipient by
setting the `HasBeenAccessed` flag. -/
def accessFile (stub : ChaincodeStub) (args : List String) : Response × ChaincodeStub :=
  if args.length ≠ 0 then
    (shim.Error "Incorrect number of arguments. Private transfer data must be passed in transient map.", stub)
  else
  match stub.GetTransient with
  | (Except.error err, stub) => (shim.Error ("Error getting transient: " ++ err), stub)
  | (Except.ok transMap, stub) =>
  match transMap.lookup "transfer_flag" with
  | none => (shim.Error "transfer_flag must be a key in the transient map", stub)
  | some payload =>
  if payload.length = 0 then
    (shim.Error "transfer_flag value in the transient map must be a non-empty JSON string",
      stub)
  else
  match json.UnmarshalAccessInput payload with
  | Except.error _ => (shim.Error ("Failed to decode JSON of: " ++ payload), stub)
  | Except.ok accessTransferInput =>
  if accessTransferInput.Name.length = 0 then
    (shim.Error "name field must be a non-empty string", stub)
  else
  match stub.GetPrivateData "collectionFileTransfer" accessTransferInput.Name with
  | (Except.error err, stub) => (shim.Error ("Failed to get transfer:" ++ err), stub)
  | (Except.ok none, stub) =>
    (shim.Error ("Transfer does not exist: " ++ accessTransferInput.Name), stub)
  | (Except.ok (some transferAsBytes), stub) =>
  match json.UnmarshalTransfer transferAsBytes with
  | Except.error err => (shim.Error err.Error, stub)
  | Except.ok accessToTransfer =>
  let accessToTransfer : fileTransfer :=
    if accessToTransfer.HasBeenAccessed = true then
      -- The file has already been accessed.
      accessToTransfer
    else
      -- mark the file as having been accessed
      { accessToTransfer with HasBeenAccessed := true }
  let transferJSONasBytes := json.MarshalTransfer accessToTransfer
  match stub.PutPrivateData "collectionFileTransfer" accessToTransfer.Name
      transferJSONasBytes with
  | (some err, stub) => (shim.Error err, stub)
  | (none, stub) => (shim.Success none, stub)

/-- One element of the JSON array built by `getQueryResultForQueryString`. -/
def writeElement (buffer : String) (queryResponse : KV) : String :=
  buffer ++ "\x7b\"Key\":" ++ "\"" ++ queryResponse.Key ++ "\"" ++ ", \"Record\":"
    ++ queryResponse.Value ++ "\x7d"

/-- The loop of `getQueryResultForQueryString` over the iterator, with the
buffer and the flag `bArrayMemberAlreadyWritten`. -/
def queryLoop : List (Except String KV) → String → Bool → Except String String
  | [], buffer, _ => Except.ok buffer
  | Except.error err :: _, _, _ => Except.error err
  | Except.ok queryResponse :: resultsIterator, buffer, bArrayMemberAlreadyWritten =>
    -- Add a comma before array members, suppress it for the first array member
    let buffer := if bArrayMemberAlreadyWritten = true then buffer ++ "," else buffer
    queryLoop resultsIterator (writeElement buffer queryResponse) true

/-- `getQueryResultForQueryString`: executes the passed in query string; the
result set is returned as the bytes of a JSON array.  The deferred
`resultsIterator.Close()` has no effect on the result or the state. -/
def getQueryResultForQueryString (stub : ChaincodeStub) (queryString : String) :
    Except String Bytes × ChaincodeStub :=
  match stub.GetPrivateDataQueryResult "collectionFileTransfer" queryString with
  | (Except.error err, stub) => (Except.error err, stub)
  | (Except.ok resultsIterator, stub) =>
    match queryLoop resultsIterator "[" false with
    | Except.error err => (Except.error err, stub)
    | Except.ok buffer => (Except.ok (buffer ++ "]"), stub)

/-- `queryFileTransferByOwner`: the parameterized rich query. -/
def queryFileTransferByOwner (stub : ChaincodeStub) (args : List String) :
    Response × ChaincodeStub :=
  match args with
  | [] => (shim.Error "Incorrect number of arguments. Expecting 1", stub)
  | arg0 :: _ =>
    let owner := strings.ToLower arg0
    let queryString :=
      "\x7b\"selector\":\x7b\"docType\":\"transfer\",\"originator\":\"" ++ owner ++ "\"\x7d\x7d"
    match getQueryResultForQueryString stub queryString with
    | (Except.error err, stub) => (shim.Error err, stub)
    | (Except.ok queryResults, stub) => (shim.Success (some queryResults), stub)

/-- `queryTransfers`: the ad hoc rich query. -/
def queryTransfers (stub : ChaincodeStub) (args : List String) : Response × ChaincodeStub :=
  match args with
  | [] => (shim.Error "Incorrect number of arguments. Expecting 1", stub)
  | queryString :: _ =>
    match getQueryResultForQueryString stub queryString with
    | (Except.error err, stub) => (shim.Error err, stub)
    | (Except.ok queryResults, stub) => (shim.Success (some queryResults), stub)

/-- `Invoke`: the entry point for invocations. -/
def Invoke (stub : ChaincodeStub) : Response × ChaincodeStub :=
  let function := stub.function
  let args := stub.args
  if function = "initFileTransfer" then initFileTransfer stub args
  else if function = "readFileTransfer" then readFileTransfer stub args
  else if function = "readFileTransferPrivateDetails" then
    readFileTransferPrivateDetails stub args
  else if function = "delete" then delete stub args
  else if function = "queryFileTransferByOwner" then queryFileTransferByOwner stub args
  else if function = "queryTransfers" then queryTransfers stub args
  else if function = "accessFile" then accessFile stub args
  else (shim.Error "Received unknown function invocation", stub)

/-! ## Auxiliary definitions for the proofs -/

namespace json

/-- The unit the decoder reads back from the escaped form of a character. -/
def unitOf (c : Char) : CodeUnit :=
  if c = '"' ∨ c = '\\' ∨ c = '\n' ∨ c = '\r' ∨ c = '\t' then CodeUnit.chr c
  else if c.toNat < 32 ∨ c = '<' ∨ c = '>' ∨ c = '&' ∨ c.toNat = 0x2028 ∨ c.toNat = 0x2029 then
    CodeUnit.esc c.toNat
  else CodeUnit.chr c

/-- The text of an object member with a string value, before `tail`. -/
def memberText (k v : String) (tail : List Char) : List Char :=
  '"' :: (escape k.data ++ '"' :: ':' :: '"' :: (escape v.data ++ '"' :: tail))

/-- The members of an encoded `fileTransfer`, after the opening brace. -/
def transferText (t : fileTransfer) : List Char :=
  memberText "docType" t.ObjectType (',' :: memberText "name" t.Name
    (',' :: memberText "description" t.Description
    (',' :: memberText "originator" t.Originator
    (',' :: memberText "recipient" t.Recipient
    (',' :: memberText "authorization" t.Authorization
    (',' :: '"' :: (escape "HasBeenAccessed".data ++ '"' :: ':' ::
      ((boolLit t.HasBeenAccessed).data ++ '}' :: []))))))))

end json

namespace shim

/-- The key `CreateCompositeKey` builds for the index `authorization~name`. -/
def indexKey (a n : String) : String :=
  "\x00" ++ "authorization~name" ++ "\x00" ++ a ++ "\x00" ++ n ++ "\x00"

/-- No call to the peer fails. -/
def ChaincodeStub.faultFree (stub : ChaincodeStub) : Prop :=
  stub.transientErr = none ∧ (∀ c k, stub.getErr c k = none) ∧
    (∀ c k, stub.putErr c k = none) ∧ (∀ c k, stub.delErr c k = none)

end shim

/-- The record `initFileTransfer` builds from its input. -/
def newTransfer (input : transferTransientInput) : fileTransfer :=
  { ObjectType := "fileTransfer"
    Name := input.Name
    Description := input.Description
    Originator := input.Originator
    Recipient := input.Recipient
    Authorization := input.Authorization
    HasBeenAccessed := false }

/-- The private detail `initFileTransfer` builds from its input. -/
def newPrivateDetails (input : transferTransientInput) : fileTransferPrivateDetails :=
  { ObjectType := "fileTransferPrivateDetails"
    Name := input.Name
    Address := input.Address
    EncryptionKey := input.EncryptionKey }

/-- All seven fields of a create input are non-empty. -/
def transferTransientInput.complete (input : transferTransientInput) : Prop :=
  input.Name ≠ "" ∧ input.Description ≠ "" ∧ input.Originator ≠ "" ∧ input.Recipient ≠ "" ∧
    input.Authorization ≠ "" ∧ input.Address ≠ "" ∧ input.EncryptionKey ≠ ""

/-- The seven fields of a create input are non-empty: a decidable property. -/
instance transferTransientInput.decidableComplete (input : transferTransientInput) :
    Decidable input.complete := by
  unfold transferTransientInput.complete
  exact inferInstance

/-! ### Concrete requests -/

/-- A stub for one invocation on the state `st`: no call fails and rich
queries find nothing. -/
def stubOn (st : State) (function : String) (args : List String)
    (transient : List (String × Bytes)) : ChaincodeStub :=
  { function := function
    args := args
    transient := transient
    transientErr := none
    getErr := fun _ _ => none
    putErr := fun _ _ => none
    delErr := fun _ _ => none
    richQuery := fun _ _ => Except.ok []
    state := st
    log := [] }

/-- The create payload of the sample in the header of the source file. -/
def samplePayload : Bytes :=
  "\x7b\"name\":\"transfer1\",\"description\":\"first transfer\",\"originator\":\"alice\",\"recipient\":\"bob\",\"authorization\":\"auth1\",\"address\":\"file-is-here\",\"encryptionKey\":\"secret\"\x7d"

/-- The decoded sample payload. -/
def sampleInput : transferTransientInput :=
  ⟨"transfer1", "first transfer", "alice", "bob", "auth1", "file-is-here", "secret"⟩

/-- The sample create request on the empty state. -/
def sampleCreate : ChaincodeStub :=
  stubOn State.empty "initFileTransfer" [] [("fileTransfer", samplePayload)]

/-- The state after the sample create: the record, the private detail and
the index entry. -/
def sampleState : State :=
  ((State.empty.set "collectionFileTransfer" "transfer1"
    (some "\x7b\"docType\":\"fileTransfer\",\"name\":\"transfer1\",\"description\":\"first transfer\",\"originator\":\"alice\",\"recipient\":\"bob\",\"authorization\":\"auth1\",\"HasBeenAccessed\":false\x7d")).set
    "collectionFileTransferPrivateDetails" "transfer1"
    (some "\x7b\"docType\":\"fileTransferPrivateDetails\",\"name\":\"transfer1\",\"address\":\"file-is-here\",\"encryptionKey\":\"secret\"\x7d")).set
    "collectionFileTransfer" "\x00authorization~name\x00auth1\x00transfer1\x00" (some "\x00")

/-- A create payload whose name ends in U+0000, written as a JSON escape. -/
def nulPayload : Bytes :=
  "\x7b\"name\":\"t\\u0000\",\"description\":\"d\",\"originator\":\"alice\",\"recipient\":\"bob\",\"authorization\":\"a1\",\"address\":\"x\",\"encryptionKey\":\"k\"\x7d"

/-- The decoded payload with U+0000 in the name. -/
def nulInput : transferTransientInput := ⟨"t\x00", "d", "alice", "bob", "a1", "x", "k"⟩

/-- The create request with U+0000 in the name, on the empty state. -/
def nulCreate : ChaincodeStub :=
  stubOn State.empty "initFileTransfer" [] [("fileTransfer", nulPayload)]

/-- The first empty field of a create input, in the order of the checks. -/
def firstEmptyField (input : transferTransientInput) : Option String :=
  if input.Name = "" then some "name"
  else if input.Description = "" then some "description"
  else if input.Originator = "" then some "originator"
  else if input.Recipient = "" then some "recipient"
  else if input.Authorization = "" then some "authorization"
  else if input.Address = "" then some "address"
  else if input.EncryptionKey = "" then some "encryptionKey"
  else none

/-- The JSON names of the fields of a create input. -/
def inputFields : List String :=
  ["name", "description", "originator", "recipient", "authorization", "address",
    "encryptionKey"]

/-- The field of a create input with the given JSON name. -/
def transferTransientInput.get (input : transferTransientInput) (f : String) : String :=
  if f = "name" then input.Name
  else if f = "description" then input.Description
  else if f = "originator" then input.Originator
  else if f = "recipient" then input.Recipient
  else if f = "authorization" then input.Authorization
  else if f = "address" then input.Address
  else input.EncryptionKey

/-- A create payload without the member `description`. -/
def omittedPayload : Bytes :=
  "\x7b\"name\":\"transfer1\",\"originator\":\"alice\",\"recipient\":\"bob\",\"authorization\":\"auth1\",\"address\":\"file-is-here\",\"encryptionKey\":\"secret\"\x7d"

/-- The create payload with an empty `description` in second place. -/
def emptyPayload : Bytes :=
  "\x7b\"name\":\"transfer1\",\"description\":\"\",\"originator\":\"alice\",\"recipient\":\"bob\",\"authorization\":\"auth1\",\"address\":\"file-is-here\",\"encryptionKey\":\"secret\"\x7d"

/-- The input both payloads decode to. -/
def omittedInput : transferTransientInput :=
  ⟨"transfer1", "", "alice", "bob", "auth1", "file-is-here", "secret"⟩

/-- The create request without a description, on the empty state. -/
def omittedCreate : ChaincodeStub :=
  stubOn State.empty "initFileTransfer" [] [("fileTransfer", omittedPayload)]

/-- The sample create request repeated on the state after the sample create. -/
def sampleCreateAgain : ChaincodeStub :=
  stubOn sampleState "initFileTransfer" [] [("fileTransfer", samplePayload)]

/-- A delete request for `transfer1` on the state `st`. -/
def sampleDeleteOn (st : State) : ChaincodeStub :=
  stubOn st "delete" [] [("transfer_delete", "\x7b\"name\":\"transfer1\"\x7d")]

/-- An access request for `transfer1` on the state `st`. -/
def sampleAccessOn (st : State) : ChaincodeStub :=
  stubOn st "accessFile" [] [("transfer_flag", "\x7b\"name\":\"transfer1\"\x7d")]

/-- What an operation may leave under a key of `collectionFileTransfer` that
it wrote: nothing, the index sentinel, or the encoding of a record that has
been accessed. -/
def Accessed (v : Option Bytes) : Prop :=
  v = none ∨ v = some "\x00" ∨
    ∃ t : fileTransfer, v = some (json.MarshalTransfer t) ∧ t.HasBeenAccessed = true

/-- Every key of `collectionFileTransfer` holds in `st1` what it held in `st`,
or an `Accessed` value, or it held nothing in `st`. -/
def KeepsAccessed (st st1 : State) : Prop :=
  ∀ n, st1 "collectionFileTransfer" n = st "collectionFileTransfer" n ∨
    Accessed (st1 "collectionFileTransfer" n) ∨ st "collectionFileTransfer" n = none

/-- The state after the sample create and an access of `transfer1`. -/
def accessedState : State :=
  sampleState.set "collectionFileTransfer" "transfer1"
    (some "\x7b\"docType\":\"fileTransfer\",\"name\":\"transfer1\",\"description\":\"first transfer\",\"originator\":\"alice\",\"recipient\":\"bob\",\"authorization\":\"auth1\",\"HasBeenAccessed\":true\x7d")

/-- One element of the result array as the specification writes it: the key
as a JSON string and the stored bytes as they are. -/
def referenceElement (kv : KV) : String :=
  "\x7b\"Key\":\"" ++ kv.Key ++ "\", \"Record\":" ++ kv.Value ++ "\x7d"

/-- The result array as the specification writes it: an opening bracket, the
elements in order joined by commas, a closing bracket. -/
def referenceArray (kvs : List KV) : String :=
  "[" ++ String.intercalate "," (kvs.map referenceElement) ++ "]"

/-- Two stored records as a rich query returns them. -/
def sampleResults : List KV :=
  [⟨"t1", "\x7b\"name\":\"t1\"\x7d"⟩, ⟨"t2", "\x7b\"name\":\"t2\",\"note\":\"a \\\"b\\\"\"\x7d"⟩]

/-- A query request whose rich query returns `sampleResults`. -/
def sampleQuery : ChaincodeStub :=
  { stubOn State.empty "queryTransfers" ["\x7b\"selector\":\x7b\x7d\x7d"] [] with
    richQuery := fun _ _ => Except.ok (sampleResults.map Except.ok) }

/-- The bytes under `n` in `collectionFileTransfer` decode to the record `t`:
a record is stored under `n`. -/
def recordAt (st : State) (n : String) (t : fileTransfer) : Prop :=
  ∃ b, st "collectionFileTransfer" n = some b ∧ json.UnmarshalTransfer b = Except.ok t

/-- The states reached from the empty state by invocations that return
success, on a peer none of whose calls fails. -/
inductive Reachable : State → Prop where
  | empty : Reachable State.empty
  | step (stub : ChaincodeStub) :
      Reachable stub.state → stub.faultFree → (Invoke stub).1.Status = shim.OK →
      Reachable (Invoke stub).2.state

/-- The invariant of the reachable states.  Every entry of
`collectionFileTransfer` is either the encoding of a record stored under its
own name, with a private detail under that name and its index entry present,
or the sentinel under the index key of a stored record; every private detail
has a record. -/
def Consistent (st : State) : Prop :=
  (∀ k b, st "collectionFileTransfer" k = some b →
    (∃ t, b = json.MarshalTransfer t ∧ t.Name = k ∧
      validateCompositeKeyAttribute t.Name = none ∧
      validateCompositeKeyAttribute t.Authorization = none ∧
      (∃ d, st "collectionFileTransferPrivateDetails" k = some d) ∧
      st "collectionFileTransfer" (indexKey t.Authorization t.Name) = some "\x00") ∨
    (b = "\x00" ∧ ∃ t, validateCompositeKeyAttribute t.Name = none ∧
      validateCompositeKeyAttribute t.Authorization = none ∧
      k = indexKey t.Authorization t.Name ∧
      st "collectionFileTransfer" t.Name = some (json.MarshalTransfer t))) ∧
  (∀ k d, st "collectionFileTransferPrivateDetails" k = some d →
    ∃ t, st "collectionFileTransfer" k = some (json.MarshalTransfer t))

/-- The query string `queryFileTransferByOwner` builds for its first argument. -/
def ownerQuery (arg0 : String) : String :=
  "\x7b\"selector\":\x7b\"docType\":\"transfer\",\"originator\":\"" ++ strings.ToLower arg0 ++ "\"\x7d\x7d"

/-- A query request for the owner `alice` whose rich query finds nothing. -/
def emptyOwnerQuery : ChaincodeStub :=
  stubOn State.empty "queryFileTransferByOwner" ["alice"] []

/-- A query request whose iterator fails after one element. -/
def failingQuery : ChaincodeStub :=
  { stubOn State.empty "queryTransfers" ["\x7b\"selector\":\x7b\x7d\x7d"] [] with
    richQuery := fun _ _ =>
      Except.ok [Except.ok ⟨"t1", "\x7b\"name\":\"t1\"\x7d"⟩, Except.error "iterator closed",
        Except.ok ⟨"t2", "\x7b\"name\":\"t2\"\x7d"⟩] }

/-- The seven function names `Invoke` dispatches on. -/
def dispatched : List String :=
  ["initFileTransfer", "readFileTransfer", "readFileTransferPrivateDetails", "delete",
    "queryFileTransferByOwner", "queryTransfers", "accessFile"]

/-- An invocation of the unknown function `zz`. -/
def unknownInvoke : ChaincodeStub := stubOn State.empty "zz" [] []

/-- The sample create request on a peer whose write of the index entry
fails. -/
def indexFaultCreate : ChaincodeStub :=
  { sampleCreate with
    putErr := fun c k =>
      if c = "collectionFileTransfer" ∧ k = "\x00authorization~name\x00auth1\x00transfer1\x00" then
        some "put failed"
      else none }

/-- A create payload with an empty `originator` and an empty `address`. -/
def twoEmptyPayload : Bytes :=
  "\x7b\"name\":\"transfer1\",\"description\":\"d\",\"originator\":\"\",\"recipient\":\"bob\",\"authorization\":\"auth1\",\"address\":\"\",\"encryptionKey\":\"secret\"\x7d"

/-- The decoded payload with two empty fields. -/
def twoEmptyInput : transferTransientInput :=
  ⟨"transfer1", "d", "", "bob", "auth1", "", "secret"⟩

/-- The create request with two empty fields, on the empty state. -/
def twoEmptyCreate : ChaincodeStub :=
  stubOn State.empty "initFileTransfer" [] [("fileTransfer", twoEmptyPayload)]

/-- A delete request for `transfer1` on `sampleState`, on a peer whose delete
of the index entry fails. -/
def indexFaultDelete : ChaincodeStub :=
  { sampleDeleteOn sampleState with
    delErr := fun c k =>
      if c = "collectionFileTransfer" ∧ k = "\x00authorization~name\x00auth1\x00transfer1\x00" then
        some "del failed"
      else none }

/-- The three operations that take their input from the transient map, each
with its transient key and with the name its decoder finds in a payload
(`none` when the payload does not decode). -/
def transientOps :
    List ((ChaincodeStub → List String → Response × ChaincodeStub) × String ×
      (Bytes → Option String)) :=
  [(initFileTransfer, "fileTransfer", fun payload =>
      match json.UnmarshalTransferInput payload with
      | Except.ok input => some input.Name
      | Except.error _ => none),
    (delete, "transfer_delete", fun payload =>
      match json.UnmarshalDeleteInput payload with
      | Except.ok input => some input.Name
      | Except.error _ => none),
    (accessFile, "transfer_flag", fun payload =>
      match json.UnmarshalAccessInput payload with
      | Except.ok input => some input.Name
      | Except.error _ => none)]

/-- A request whose transient map lacks the key of `delete`. -/
def missingKeyDelete : ChaincodeStub :=
  stubOn sampleState "delete" [] [("transfer_flag", "\x7b\"name\":\"transfer1\"\x7d")]

/-- Whether a call reads from the collection `c`: a get or a rich query on
it. -/
def Call.readsFrom (c : String) : Call → Bool
  | Call.GetPrivateData collection _ => decide (collection = c)
  | Call.GetPrivateDataQueryResult collection _ => decide (collection = c)
  | _ => false

/-- The state `sampleState` with other private details under `transfer1`. -/
def otherDetailsState : State :=
  sampleState.set "collectionFileTransferPrivateDetails" "transfer1" (some "other details")

/-- Whether a call writes to the store: a put or a delete, attempted or
done. -/
def Call.isWrite : Call → Bool
  | Call.PutPrivateData _ _ _ => true
  | Call.DelPrivateData _ _ => true
  | _ => false

/-- The sample create request with its payload also passed as an argument. -/
def visibleCreate : ChaincodeStub :=
  stubOn State.empty "initFileTransfer" [samplePayload] [("fileTransfer", samplePayload)]

/-- An access request for `transfer1` on the state `st` whose transient value
is `payload`. -/
def accessWith (st : State) (payload : Bytes) : ChaincodeStub :=
  stubOn st "accessFile" [] [("transfer_flag", payload)]

/-- The string a query gives to a field of its selector, as the query executor
reads a Mango query of the form `{"selector":{...}}`: the member of that name
in the selector object, when its value is a string. -/
def selectorValue (query field : String) : Option String :=
  if query.data.take 12 = "\x7b\"selector\":".data ∧ query.data.getLast? = some '\x7d' then
    match json.parseDocument ⟨(query.data.drop 12).dropLast⟩ with
    | some (json.Document.object members) =>
      match members.lookup field with
      | some (json.Value.str s) => some s
      | _ => none
    | _ => none
  else none

/-- Whether a stored record satisfies the selector of a query that asks for
equality on `docType` and on `originator`. -/
def satisfiesSelector (query : String) (t : fileTransfer) : Bool :=
  selectorValue query "docType" = some t.ObjectType &&
    selectorValue query "originator" = some t.Originator

/-- A query by owner for `alice` on the state after the sample create. -/
def sampleOwnerQuery : ChaincodeStub :=
  stubOn sampleState "queryFileTransferByOwner" ["alice"] []

/-- The states reached from the empty state by invocations of any kind:
whatever the function, the arguments, the transient map and the failing
calls, and whether the invocation returns success or an error (the writes an
invocation made before it failed are kept). -/
inductive ReachableByInvocations : State → Prop where
  | empty : ReachableByInvocations State.empty
  | step (stub : ChaincodeStub) :
      ReachableByInvocations stub.state → ReachableByInvocations (Invoke stub).2.state

/-- Every entry of `collectionFileTransfer` is the sentinel under an index key
or the encoding of a record whose name is the key; every entry of
`collectionFileTransferPrivateDetails` is the encoding of a detail whose name
is the key. -/
def Named (st : State) : Prop :=
  (∀ k b, st "collectionFileTransfer" k = some b →
    (b = "\x00" ∧ ∃ a n, CreateCompositeKey "authorization~name" [a, n] = Except.ok k) ∨
    ∃ t, b = json.MarshalTransfer t ∧ t.Name = k) ∧
  (∀ k d, st "collectionFileTransferPrivateDetails" k = some d →
    ∃ det, d = json.MarshalPrivateDetails det ∧ det.Name = k)

/-- A create payload cut off before its closing brace: it is not JSON. -/
def brokenPayload : Bytes :=
  "\x7b\"name\":\"transfer1\",\"encryptionKey\":\"secret\""

/-- A create request with the cut-off payload, on the empty state. -/
def brokenCreate : ChaincodeStub :=
  stubOn State.empty "initFileTransfer" [] [("fileTransfer", brokenPayload)]

/-- A create request with another payload that is not JSON. -/
def otherBrokenCreate : ChaincodeStub :=
  stubOn State.empty "initFileTransfer" [] [("fileTransfer", "secret")]

/-- A delete request on `sampleState` whose name is the key of the index entry
of (`auth1`, `transfer1`). -/
def indexKeyDelete : ChaincodeStub :=
  stubOn sampleState "delete" []
    [("transfer_delete",
      "\x7b\"name\":\"\\u0000authorization~name\\u0000auth1\\u0000transfer1\\u0000\"\x7d")]

/-- A delete request with an empty name, on the empty state. -/
def emptyNameDelete : ChaincodeStub :=
  stubOn State.empty "delete" [] [("transfer_delete", "\x7b\"name\":\"\"\x7d")]

/-! ## Lemmas on the JSON codec -/

namespace json

theorem hex4_low : ∀ n, n < 64 →
    hex4 '0' '0' (Nat.digitChar (n / 16)) (Nat.digitChar (n % 16)) = some n := by
  decide

theorem char_eq_of_toNat {c d : Char} (h : c.toNat = d.toNat) : c = d := by
  apply Char.ext
  apply UInt32.ext
  exact h

theorem scanUnits_cons (c : Char) (cs : List Char) :
    scanUnits (c :: cs) =
      if c = '"' then some ([], cs)
      else if c = '\\' then
        match cs with
        | [] => none
        | e :: cs1 =>
          if e = 'u' then
            match cs1 with
            | a :: b :: c :: d :: cs2 =>
              match hex4 a b c d with
              | none => none
              | some n => (scanUnits cs2).map fun r => (CodeUnit.esc n :: r.1, r.2)
            | _ => none
          else
            match unescape e with
            | none => none
            | some d => (scanUnits cs1).map fun r => (CodeUnit.chr d :: r.1, r.2)
      else if c.toNat < 32 then none
      else (scanUnits cs).map fun r => (CodeUnit.chr c :: r.1, r.2) := by
  exact scanUnits.eq_def (c :: cs)

theorem scanUnits_escapeChar (c : Char) (tail : List Char) :
    scanUnits (escapeChar c ++ tail) =
      (scanUnits tail).map fun r => (unitOf c :: r.1, r.2) := by
  by_cases h1 : c = '"'
  · subst h1; simp [escapeChar, scanUnits_cons, unitOf, unescape]
  by_cases h2 : c = '\\'
  · subst h2; simp [escapeChar, scanUnits_cons, unitOf, unescape]
  by_cases h3 : c = '\n'
  · subst h3; simp [escapeChar, scanUnits_cons, unitOf, unescape]
  by_cases h4 : c = '\r'
  · subst h4; simp [escapeChar, scanUnits_cons, unitOf, unescape]
  by_cases h5 : c = '\t'
  · subst h5; simp [escapeChar, scanUnits_cons, unitOf, unescape]
  by_cases h6 : c.toNat < 32 ∨ c = '<' ∨ c = '>' ∨ c = '&'
  · have hlt : c.toNat < 64 := by
      rcases h6 with h | h | h | h
      · omega
      · subst h; decide
      · subst h; decide
      · subst h; decide
    have hu : unitOf c = CodeUnit.esc c.toNat := by
      simp only [unitOf, h1, h2, h3, h4, h5, or_self, if_false]
      rw [if_pos]
      rcases h6 with h | h | h | h <;> simp [h]
    simp [escapeChar, h1, h2, h3, h4, h5, h6, scanUnits_cons, hex4_low _ hlt, hu]
  have h6a : ¬ c.toNat < 32 := fun h => h6 (Or.inl h)
  have h6b : ¬ c = '<' := fun h => h6 (Or.inr (Or.inl h))
  have h6c : ¬ c = '>' := fun h => h6 (Or.inr (Or.inr (Or.inl h)))
  have h6d : ¬ c = '&' := fun h => h6 (Or.inr (Or.inr (Or.inr h)))
  by_cases h7 : c.toNat = 0x2028
  · have hu : unitOf c = CodeUnit.esc 0x2028 := by
      simp [unitOf, h1, h2, h3, h4, h5, h6b, h6c, h6d, h7]
    have hh : hex4 '2' '0' '2' '8' = some 0x2028 := by decide
    simp [escapeChar, h1, h2, h3, h4, h5, h6b, h6c, h6d, h7, scanUnits_cons, hh, hu]
  by_cases h8 : c.toNat = 0x2029
  · have hu : unitOf c = CodeUnit.esc 0x2029 := by
      simp [unitOf, h1, h2, h3, h4, h5, h6b, h6c, h6d, h8]
    have hh : hex4 '2' '0' '2' '9' = some 0x2029 := by decide
    simp [escapeChar, h1, h2, h3, h4, h5, h6b, h6c, h6d, h7, h8, scanUnits_cons, hh, hu]
  have hu : unitOf c = CodeUnit.chr c := by
    simp [unitOf, h1, h2, h3, h4, h5, h6a, h6b, h6c, h6d, h7, h8]
  simp [escapeChar, h1, h2, h3, h4, h5, h6a, h6b, h6c, h6d, h7, h8, scanUnits_cons, hu]

theorem combine_unitOf (c : Char) (us : List CodeUnit) :
    combine none (unitOf c :: us) = c :: combine none us := by
  unfold unitOf
  split
  · rw [combine]
  · split
    · rename_i h
      have hn : ¬ (0xD800 ≤ c.toNat ∧ c.toNat ≤ 0xDFFF) := by
        rcases h with h | h | h | h | h | h
        · omega
        · subst h; decide
        · subst h; decide
        · subst h; decide
        · omega
        · omega
      have hn2 : ¬ (0xD800 ≤ c.toNat ∧ c.toNat ≤ 0xDBFF) := by omega
      rw [combine, if_neg hn2, unitChar, if_neg hn]
      rw [Char.ofNat_toNat]
    · rw [combine]

theorem scanUnits_escape (s tail : List Char) :
    scanUnits (escape s ++ '"' :: tail) = some (s.map unitOf, tail) := by
  induction s with
  | nil => simp [escape, scanUnits_cons]
  | cons c cs ih => simp [escape, List.append_assoc, scanUnits_escapeChar, ih]

theorem combine_map_unitOf (s : List Char) : combine none (s.map unitOf) = s := by
  induction s with
  | nil => simp [combine]
  | cons c cs ih => simp [combine_unitOf, ih]

theorem scanString_escape (s : String) (tail : List Char) :
    scanString (escape s.data ++ '"' :: tail) = some (s, tail) := by
  simp [scanString, scanUnits_escape, combine_map_unitOf]

theorem skipWs_cons_of_not_ws {c : Char} (cs : List Char) (h : isWs c = false) :
    skipWs (c :: cs) = c :: cs := by
  simp [skipWs, h]

theorem parseMembers_string (f : Nat) (k v : String) (tail : List Char) :
    parseMembers (f + 1) (memberText k v (',' :: tail)) =
      (parseMembers f (skipWs tail)).map fun r => ((k, Value.str v) :: r.1, r.2) := by
  simp [parseMembers, memberText, scanString_escape, skipWs, isWs, parseValue]

theorem skipWs_memberText (k v : String) (tail : List Char) :
    skipWs (memberText k v tail) = memberText k v tail := by
  simp [memberText, skipWs, isWs]

theorem parseMembers_last_bool (f : Nat) (k : String) (b : Bool) (tail : List Char) :
    parseMembers (f + 1)
        ('"' :: (escape k.data ++ '"' :: ':' :: ((boolLit b).data ++ '}' :: tail))) =
      some ([(k, Value.bool b)], tail) := by
  cases b <;>
    simp [parseMembers, scanString_escape, skipWs, isWs, parseValue, boolLit, scanLiteral]

theorem MarshalTransfer_data (t : fileTransfer) :
    (MarshalTransfer t).data = '{' :: transferText t := by
  simp only [MarshalTransfer, String.data_append, quote, memberText, transferText,
    List.append_assoc, List.cons_append, List.nil_append]
  rfl

theorem parseMembers_transferText (f : Nat) (t : fileTransfer) :
    parseMembers (f + 7) (transferText t) = some
      ([("docType", Value.str t.ObjectType), ("name", Value.str t.Name),
        ("description", Value.str t.Description), ("originator", Value.str t.Originator),
        ("recipient", Value.str t.Recipient), ("authorization", Value.str t.Authorization),
        ("HasBeenAccessed", Value.bool t.HasBeenAccessed)], []) := by
  unfold transferText
  rw [show f + 7 = (f + 6) + 1 from rfl, parseMembers_string, skipWs_memberText,
    show f + 6 = (f + 5) + 1 from rfl, parseMembers_string, skipWs_memberText,
    show f + 5 = (f + 4) + 1 from rfl, parseMembers_string, skipWs_memberText,
    show f + 4 = (f + 3) + 1 from rfl, parseMembers_string, skipWs_memberText,
    show f + 3 = (f + 2) + 1 from rfl, parseMembers_string, skipWs_memberText,
    show f + 2 = (f + 1) + 1 from rfl, parseMembers_string,
    skipWs_cons_of_not_ws _ (by decide), parseMembers_last_bool]
  rfl

theorem transferText_length (t : fileTransfer) : 7 ≤ (transferText t).length := by
  simp only [transferText, memberText, List.length_cons, List.length_append]
  omega

theorem parseDocument_object (data : Bytes) (rest : List Char)
    (h : data.data = '{' :: '"' :: rest) :
    parseDocument data =
      (parseMembers (rest.length + 1 + 1) ('"' :: rest)).bind fun r =>
        if skipWs r.2 = [] then some (Document.object r.1) else none := by
  unfold parseDocument
  rw [h]
  cases h2 : parseMembers (rest.length + 1 + 1) ('"' :: rest) <;> simp [skipWs, isWs, h2]

theorem parseDocument_MarshalTransfer (t : fileTransfer) :
    parseDocument (MarshalTransfer t) = some (Document.object
      [("docType", Value.str t.ObjectType), ("name", Value.str t.Name),
        ("description", Value.str t.Description), ("originator", Value.str t.Originator),
        ("recipient", Value.str t.Recipient), ("authorization", Value.str t.Authorization),
        ("HasBeenAccessed", Value.bool t.HasBeenAccessed)]) := by
  have e : '"' :: (transferText t).tail = transferText t := rfl
  have hd : (MarshalTransfer t).data = '{' :: '"' :: (transferText t).tail := by
    rw [MarshalTransfer_data, e]
  rw [parseDocument_object _ _ hd, e]
  have hl := transferText_length t
  obtain ⟨f, hf⟩ : ∃ f, (transferText t).tail.length + 1 + 1 = f + 7 := by
    refine ⟨(transferText t).tail.length + 2 - 7, ?_⟩
    rw [List.length_tail]
    omega
  rw [hf, parseMembers_transferText]
  simp [skipWs]

theorem UnmarshalTransfer_MarshalTransfer (t : fileTransfer) :
    UnmarshalTransfer (MarshalTransfer t) = Except.ok t := by
  unfold UnmarshalTransfer Unmarshal
  rw [parseDocument_MarshalTransfer]
  rfl

end json

/-! ## Lemmas on composite keys and on the operations -/

namespace shim

theorem validate_eq_none_iff (s : String) :
    validateCompositeKeyAttribute s = none ↔
      ∀ c ∈ s.data, c.toNat ≠ 0 ∧ c.toNat ≠ 0x10FFFF := by
  unfold validateCompositeKeyAttribute
  constructor
  · intro h c hc
    by_contra hcon
    have : s.data.any (fun c => c.toNat = 0 || c.toNat = 0x10FFFF) = true := by
      rw [List.any_eq_true]
      refine ⟨c, hc, ?_⟩
      simp only [Bool.or_eq_true, decide_eq_true_eq]
      by_contra h2
      exact hcon ⟨fun h3 => h2 (Or.inl h3), fun h3 => h2 (Or.inr h3)⟩
    rw [if_pos this] at h
    exact Option.noConfusion h
  · intro h
    rw [if_neg]
    intro hany
    rw [List.any_eq_true] at hany
    obtain ⟨c, hc, hp⟩ := hany
    simp only [Bool.or_eq_true, decide_eq_true_eq] at hp
    rcases hp with hp | hp
    · exact (h c hc).1 hp
    · exact (h c hc).2 hp

theorem nul_not_mem_of_valid {s : String} (h : validateCompositeKeyAttribute s = none) :
    Char.ofNat 0 ∉ s.data := by
  intro hm
  exact ((validate_eq_none_iff s).1 h _ hm).1 (by decide)

theorem CreateCompositeKey_index_ok {a n : String}
    (ha : validateCompositeKeyAttribute a = none)
    (hn : validateCompositeKeyAttribute n = none) :
    CreateCompositeKey "authorization~name" [a, n] = Except.ok (indexKey a n) := by
  have h0 : validateCompositeKeyAttribute "authorization~name" = none := by decide
  simp only [CreateCompositeKey, h0, appendAttributes, ha, hn, indexKey]

theorem CreateCompositeKey_index_inv {a n k : String}
    (h : CreateCompositeKey "authorization~name" [a, n] = Except.ok k) :
    validateCompositeKeyAttribute a = none ∧ validateCompositeKeyAttribute n = none ∧
      k = indexKey a n := by
  have h0 : validateCompositeKeyAttribute "authorization~name" = none := by decide
  simp only [CreateCompositeKey, h0, appendAttributes] at h
  cases ha : validateCompositeKeyAttribute a with
  | some e => simp [ha] at h
  | none =>
    cases hn : validateCompositeKeyAttribute n with
    | some e => simp [ha, hn] at h
    | none =>
      simp only [ha, hn, Except.ok.injEq] at h
      exact ⟨rfl, rfl, h.symm⟩

theorem indexKey_data (a n : String) :
    (indexKey a n).data =
      Char.ofNat 0 :: ("authorization~name".data ++
        (Char.ofNat 0 :: (a.data ++ (Char.ofNat 0 :: (n.data ++ [Char.ofNat 0]))))) := by
  simp only [indexKey, String.data_append, List.append_assoc]
  rfl

theorem indexKey_ne_of_valid (a n : String) {m : String}
    (hm : validateCompositeKeyAttribute m = none) : indexKey a n ≠ m := by
  intro h
  apply nul_not_mem_of_valid hm
  rw [← h, indexKey_data]
  exact List.mem_cons_self _ _

theorem append_cons_inj {α : Type} {x : α} :
    ∀ {l1 l2 r1 r2 : List α}, x ∉ l1 → x ∉ l2 → l1 ++ x :: r1 = l2 ++ x :: r2 →
      l1 = l2 ∧ r1 = r2
  | [], [], _, _, _, _, h => by
    simp only [List.nil_append, List.cons.injEq, true_and] at h
    exact ⟨rfl, h⟩
  | [], b :: l2, _, _, _, h2, h => by
    simp only [List.nil_append, List.cons_append, List.cons.injEq] at h
    exact absurd (h.1 ▸ List.mem_cons_self _ _) h2
  | b :: l1, [], _, _, h1, _, h => by
    simp only [List.nil_append, List.cons_append, List.cons.injEq] at h
    exact absurd (h.1 ▸ List.mem_cons_self _ _) h1
  | b :: l1, c :: l2, _, _, h1, h2, h => by
    simp only [List.cons_append, List.cons.injEq] at h
    have ih := append_cons_inj (fun hm => h1 (List.mem_cons_of_mem _ hm))
      (fun hm => h2 (List.mem_cons_of_mem _ hm)) h.2
    exact ⟨by rw [h.1, ih.1], ih.2⟩

theorem indexKey_inj {a n a1 n1 : String}
    (ha : validateCompositeKeyAttribute a = none)
    (ha1 : validateCompositeKeyAttribute a1 = none)
    (h : indexKey a n = indexKey a1 n1) : a = a1 ∧ n = n1 := by
  have hd := congrArg String.data h
  rw [indexKey_data, indexKey_data] at hd
  simp only [List.cons.injEq, true_and, List.append_cancel_left_eq] at hd
  have h1 := append_cons_inj (nul_not_mem_of_valid ha) (nul_not_mem_of_valid ha1) hd
  have h2 : n.data = n1.data := by
    have := h1.2
    exact List.append_cancel_right this
  exact ⟨String.ext h1.1, String.ext h2⟩

theorem indexKey_ne_empty (a n : String) : indexKey a n ≠ "" := by
  intro h
  have hd := congrArg String.data h
  rw [indexKey_data] at hd
  exact List.noConfusion hd

end shim

open shim

theorem length_eq_zero_iff (s : String) : s.length = 0 ↔ s = "" := by
  constructor
  · intro h
    apply String.ext
    exact List.length_eq_zero.1 h
  · intro h
    rw [h]
    rfl

theorem payload_ne_empty_of_input {payload : Bytes} {input : transferTransientInput}
    (h : json.UnmarshalTransferInput payload = Except.ok input) : payload.length ≠ 0 := by
  intro h0
  rw [(length_eq_zero_iff payload).1 h0,
    show json.UnmarshalTransferInput "" = Except.error json.UnmarshalError.SyntaxError
      from by decide] at h
  exact Except.noConfusion h

theorem initFileTransfer_ok (stub : ChaincodeStub) (payload : Bytes)
    (input : transferTransientInput)
    (hf : stub.faultFree)
    (hp : stub.transient.lookup "fileTransfer" = some payload)
    (hd : json.UnmarshalTransferInput payload = Except.ok input)
    (hc : input.complete)
    (hA : validateCompositeKeyAttribute input.Authorization = none)
    (hN : validateCompositeKeyAttribute input.Name = none)
    (habs : stub.state "collectionFileTransfer" input.Name = none) :
    initFileTransfer stub [] =
      (shim.Success none,
        { stub with
          state := ((stub.state.set "collectionFileTransfer" input.Name
              (some (json.MarshalTransfer (newTransfer input)))).set
              "collectionFileTransferPrivateDetails" input.Name
              (some (json.MarshalPrivateDetails (newPrivateDetails input)))).set
              "collectionFileTransfer" (indexKey input.Authorization input.Name)
              (some "\x00")
          log := stub.log ++
            [Call.GetTransient,
              Call.GetPrivateData "collectionFileTransfer" input.Name,
              Call.PutPrivateData "collectionFileTransfer" input.Name
                (json.MarshalTransfer (newTransfer input)),
              Call.PutPrivateData "collectionFileTransferPrivateDetails" input.Name
                (json.MarshalPrivateDetails (newPrivateDetails input)),
              Call.PutPrivateData "collectionFileTransfer"
                (indexKey input.Authorization input.Name) "\x00"] }) := by
  obtain ⟨hf1, hf2, hf3, hf4⟩ := hf
  obtain ⟨c1, c2, c3, c4, c5, c6, c7⟩ := hc
  have hpl := payload_ne_empty_of_input hd
  have l1 := mt (length_eq_zero_iff _).1 c1
  have l2 := mt (length_eq_zero_iff _).1 c2
  have l3 := mt (length_eq_zero_iff _).1 c3
  have l4 := mt (length_eq_zero_iff _).1 c4
  have l5 := mt (length_eq_zero_iff _).1 c5
  have l6 := mt (length_eq_zero_iff _).1 c6
  have l7 := mt (length_eq_zero_iff _).1 c7
  have hk := indexKey_ne_empty input.Authorization input.Name
  simp [initFileTransfer, ChaincodeStub.GetTransient, ChaincodeStub.GetPrivateData,
    ChaincodeStub.PutPrivateData, ChaincodeStub.issue, hf1, hf2, hf3, hp, hd, hpl,
    l1, l2, l3, l4, l5, l6, l7, c1, habs, CreateCompositeKey_index_ok hA hN, hk,
    newTransfer, newPrivateDetails]

theorem stubOn_faultFree (st : State) (function : String) (args : List String)
    (transient : List (String × Bytes)) : (stubOn st function args transient).faultFree :=
  ⟨rfl, fun _ _ => rfl, fun _ _ => rfl, fun _ _ => rfl⟩

theorem initFileTransfer_exists (stub : ChaincodeStub) (payload : Bytes)
    (input : transferTransientInput) (b : Bytes)
    (hf : stub.faultFree)
    (hp : stub.transient.lookup "fileTransfer" = some payload)
    (hd : json.UnmarshalTransferInput payload = Except.ok input)
    (hc : input.complete)
    (hex : stub.state "collectionFileTransfer" input.Name = some b) :
    initFileTransfer stub [] =
      (shim.Error ("This transfer already exists: " ++ input.Name),
        { stub with
          log := stub.log ++
            [Call.GetTransient, Call.GetPrivateData "collectionFileTransfer" input.Name] }) := by
  obtain ⟨hf1, hf2, hf3, hf4⟩ := hf
  obtain ⟨c1, c2, c3, c4, c5, c6, c7⟩ := hc
  have hpl := payload_ne_empty_of_input hd
  have l1 := mt (length_eq_zero_iff _).1 c1
  have l2 := mt (length_eq_zero_iff _).1 c2
  have l3 := mt (length_eq_zero_iff _).1 c3
  have l4 := mt (length_eq_zero_iff _).1 c4
  have l5 := mt (length_eq_zero_iff _).1 c5
  have l6 := mt (length_eq_zero_iff _).1 c6
  have l7 := mt (length_eq_zero_iff _).1 c7
  simp [initFileTransfer, ChaincodeStub.GetTransient, ChaincodeStub.GetPrivateData,
    ChaincodeStub.issue, hf1, hf2, hp, hd, hpl, l1, l2, l3, l4, l5, l6, l7, hex]

theorem firstEmptyField_of_not_complete {input : transferTransientInput}
    (h : ¬ input.complete) : ∃ f, firstEmptyField input = some f := by
  unfold transferTransientInput.complete at h
  unfold firstEmptyField
  by_cases c1 : input.Name = ""
  · exact ⟨_, if_pos c1⟩
  by_cases c2 : input.Description = ""
  · exact ⟨"description", by simp [c1, c2]⟩
  by_cases c3 : input.Originator = ""
  · exact ⟨"originator", by simp [c1, c2, c3]⟩
  by_cases c4 : input.Recipient = ""
  · exact ⟨"recipient", by simp [c1, c2, c3, c4]⟩
  by_cases c5 : input.Authorization = ""
  · exact ⟨"authorization", by simp [c1, c2, c3, c4, c5]⟩
  by_cases c6 : input.Address = ""
  · exact ⟨"address", by simp [c1, c2, c3, c4, c5, c6]⟩
  by_cases c7 : input.EncryptionKey = ""
  · exact ⟨"encryptionKey", by simp [c1, c2, c3, c4, c5, c6, c7]⟩
  exact absurd ⟨c1, c2, c3, c4, c5, c6, c7⟩ h

theorem initFileTransfer_invalid (stub : ChaincodeStub) (payload : Bytes)
    (input : transferTransientInput) (f : String)
    (ht : stub.transientErr = none)
    (hp : stub.transient.lookup "fileTransfer" = some payload)
    (hd : json.UnmarshalTransferInput payload = Except.ok input)
    (hfe : firstEmptyField input = some f) :
    initFileTransfer stub [] =
      (shim.Error (f ++ " field must be a non-empty string"),
        { stub with log := stub.log ++ [Call.GetTransient] }) := by
  have hpl := payload_ne_empty_of_input hd
  unfold firstEmptyField at hfe
  by_cases c1 : input.Name = ""
  · simp only [c1, if_true, Option.some.injEq] at hfe
    subst hfe
    simp [initFileTransfer, ChaincodeStub.GetTransient, ChaincodeStub.issue, ht, hp, hd, hpl,
      c1]
  have l1 := mt (length_eq_zero_iff _).1 c1
  by_cases c2 : input.Description = ""
  · simp only [c1, c2, if_true, if_false, Option.some.injEq] at hfe
    subst hfe
    simp [initFileTransfer, ChaincodeStub.GetTransient, ChaincodeStub.issue, ht, hp, hd, hpl,
      l1, c2]
  have l2 := mt (length_eq_zero_iff _).1 c2
  by_cases c3 : input.Originator = ""
  · simp only [c1, c2, c3, if_true, if_false, Option.some.injEq] at hfe
    subst hfe
    simp [initFileTransfer, ChaincodeStub.GetTransient, ChaincodeStub.issue, ht, hp, hd, hpl,
      l1, l2, c3]
  have l3 := mt (length_eq_zero_iff _).1 c3
  by_cases c4 : input.Recipient = ""
  · simp only [c1, c2, c3, c4, if_true, if_false, Option.some.injEq] at hfe
    subst hfe
    simp [initFileTransfer, ChaincodeStub.GetTransient, ChaincodeStub.issue, ht, hp, hd, hpl,
      l1, l2, l3, c4]
  have l4 := mt (length_eq_zero_iff _).1 c4
  by_cases c5 : input.Authorization = ""
  · simp only [c1, c2, c3, c4, c5, if_true, if_false, Option.some.injEq] at hfe
    subst hfe
    simp [initFileTransfer, ChaincodeStub.GetTransient, ChaincodeStub.issue, ht, hp, hd, hpl,
      l1, l2, l3, l4, c5]
  have l5 := mt (length_eq_zero_iff _).1 c5
  by_cases c6 : input.Address = ""
  · simp only [c1, c2, c3, c4, c5, c6, if_true, if_false, Option.some.injEq] at hfe
    subst hfe
    simp [initFileTransfer, ChaincodeStub.GetTransient, ChaincodeStub.issue, ht, hp, hd, hpl,
      l1, l2, l3, l4, l5, c6]
  have l6 := mt (length_eq_zero_iff _).1 c6
  by_cases c7 : input.EncryptionKey = ""
  · simp only [c1, c2, c3, c4, c5, c6, c7, if_true, if_false, Option.some.injEq] at hfe
    subst hfe
    simp [initFileTransfer, ChaincodeStub.GetTransient, ChaincodeStub.issue, ht, hp, hd, hpl,
      l1, l2, l3, l4, l5, l6, c7]
  simp [c1, c2, c3, c4, c5, c6, c7] at hfe

namespace json

theorem findField_mem {fields : List String} {key g : String}
    (h : findField fields key = some g) : g ∈ fields := by
  unfold findField at h
  split at h
  · rename_i hc
    simp only [Option.some.injEq] at h
    subst h
    simpa using hc
  · exact List.mem_of_find?_eq_some h

theorem findField_self {fields : List String} {f : String} (h : f ∈ fields) :
    findField fields f = some f := by
  unfold findField
  rw [if_pos]
  simpa using h

theorem decodeMembers_append {α : Type} (fields : List String)
    (set : α → String → Value → Option α) (ms1 ms2 : List (String × Value)) (r : α) :
    decodeMembers fields set (ms1 ++ ms2) r =
      (decodeMembers fields set ms1 r).bind (decodeMembers fields set ms2) := by
  induction ms1 generalizing r with
  | nil => simp [decodeMembers]
  | cons m ms ih =>
    obtain ⟨key, v⟩ := m
    simp only [List.cons_append, decodeMembers]
    cases findField fields key with
    | none => simpa using ih r
    | some g =>
      cases v with
      | null => simpa using ih r
      | str s =>
        simp only
        cases set r g (Value.str s) with
        | none => simp
        | some r1 => simpa using ih r1
      | bool b =>
        simp only
        cases set r g (Value.bool b) with
        | none => simp
        | some r1 => simpa using ih r1
      | other =>
        simp only
        cases set r g Value.other with
        | none => simp
        | some r1 => simpa using ih r1

end json

theorem setTransferInput_get {r r1 : transferTransientInput} {g f : String} {v : json.Value}
    (hg : g ∈ inputFields) (hf : f ∈ inputFields) (hne : f ≠ g)
    (h : json.setTransferInput r g v = some r1) : r1.get f = r.get f := by
  cases v with
  | str s =>
    simp only [inputFields, List.mem_cons, List.mem_singleton, List.not_mem_nil, or_false]
      at hg hf
    rcases hg with rfl | rfl | rfl | rfl | rfl | rfl | rfl <;>
      simp only [json.setTransferInput, json.setString, Option.some.injEq] at h <;>
      simp +decide only [if_true, if_false] at h <;>
      have h := (Option.some.inj h).symm <;>
      subst h <;>
      rcases hf with rfl | rfl | rfl | rfl | rfl | rfl | rfl <;>
      first
        | exact absurd rfl hne
        | rfl
  | bool b => simp [json.setTransferInput, json.setString] at h
  | null => simp [json.setTransferInput, json.setString] at h
  | other => simp [json.setTransferInput, json.setString] at h

theorem decodeMembers_get {f : String} (hf : f ∈ inputFields) :
    ∀ (ms : List (String × json.Value)) (r r1 : transferTransientInput),
      (∀ m ∈ ms, json.findField inputFields m.1 ≠ some f) →
      json.decodeMembers inputFields json.setTransferInput ms r = some r1 →
      r1.get f = r.get f
  | [], r, r1, _, h => by
    simp only [json.decodeMembers, Option.some.injEq] at h
    rw [h]
  | (key, v) :: ms, r, r1, hno, h => by
    have hno1 : ∀ m ∈ ms, json.findField inputFields m.1 ≠ some f :=
      fun m hm => hno m (List.mem_cons_of_mem _ hm)
    have hk : json.findField inputFields key ≠ some f := hno (key, v) (List.mem_cons_self _ _)
    simp only [json.decodeMembers] at h
    cases hg : json.findField inputFields key with
    | none =>
      rw [hg] at h
      exact decodeMembers_get hf ms r r1 hno1 h
    | some g =>
      rw [hg] at h
      have hgm := json.findField_mem hg
      have hne : f ≠ g := fun e => hk (by rw [hg, e])
      cases v with
      | null => exact decodeMembers_get hf ms r r1 hno1 h
      | str s =>
        simp only at h
        cases hs : json.setTransferInput r g (json.Value.str s) with
        | none => simp [hs] at h
        | some r2 =>
          rw [hs] at h
          rw [decodeMembers_get hf ms r2 r1 hno1 h, setTransferInput_get hgm hf hne hs]
      | bool b =>
        simp only at h
        cases hs : json.setTransferInput r g (json.Value.bool b) with
        | none => simp [hs] at h
        | some r2 =>
          rw [hs] at h
          rw [decodeMembers_get hf ms r2 r1 hno1 h, setTransferInput_get hgm hf hne hs]
      | other =>
        simp only at h
        cases hs : json.setTransferInput r g json.Value.other with
        | none => simp [hs] at h
        | some r2 =>
          rw [hs] at h
          rw [decodeMembers_get hf ms r2 r1 hno1 h, setTransferInput_get hgm hf hne hs]

theorem setTransferInput_empty {r : transferTransientInput} {f : String}
    (hf : f ∈ inputFields) (h : r.get f = "") :
    json.setTransferInput r f (json.Value.str "") = some r := by
  simp only [inputFields, List.mem_cons, List.mem_singleton, List.not_mem_nil, or_false] at hf
  rcases hf with rfl | rfl | rfl | rfl | rfl | rfl | rfl <;>
    simp +decide only [transferTransientInput.get, if_true, if_false] at h <;>
    simp +decide only [json.setTransferInput, json.setString, if_true, if_false, ← h]

theorem not_complete_of_get_empty {r : transferTransientInput} {f : String}
    (hf : f ∈ inputFields) (h : r.get f = "") : ¬ r.complete := by
  simp only [inputFields, List.mem_cons, List.mem_singleton, List.not_mem_nil, or_false] at hf
  intro hc
  obtain ⟨c1, c2, c3, c4, c5, c6, c7⟩ := hc
  rcases hf with rfl | rfl | rfl | rfl | rfl | rfl | rfl <;>
    simp +decide only [transferTransientInput.get, if_true, if_false] at h <;>
    contradiction

theorem decodeMembers_omitted {f : String} (hf : f ∈ inputFields)
    (ms1 ms2 : List (String × json.Value))
    (hno : ∀ m ∈ ms1, json.findField inputFields m.1 ≠ some f)
    (r : transferTransientInput) (hr : r.get f = "") :
    json.decodeMembers inputFields json.setTransferInput
        (ms1 ++ (f, json.Value.str "") :: ms2) r =
      json.decodeMembers inputFields json.setTransferInput (ms1 ++ ms2) r := by
  rw [json.decodeMembers_append, json.decodeMembers_append]
  cases h1 : json.decodeMembers inputFields json.setTransferInput ms1 r with
  | none => rfl
  | some r1 =>
    have hg : r1.get f = "" := by rw [decodeMembers_get hf ms1 r r1 hno h1, hr]
    simp only [Option.some_bind, json.decodeMembers, json.findField_self hf,
      setTransferInput_empty hf hg]

theorem payload_ne_empty_of_delete {payload : Bytes} {input : transferDeleteTransientInput}
    (h : json.UnmarshalDeleteInput payload = Except.ok input) : payload.length ≠ 0 := by
  intro h0
  rw [(length_eq_zero_iff payload).1 h0,
    show json.UnmarshalDeleteInput "" = Except.error json.UnmarshalError.SyntaxError
      from by decide] at h
  exact Except.noConfusion h

theorem payload_ne_empty_of_access {payload : Bytes} {input : fileAccessTransientInput}
    (h : json.UnmarshalAccessInput payload = Except.ok input) : payload.length ≠ 0 := by
  intro h0
  rw [(length_eq_zero_iff payload).1 h0,
    show json.UnmarshalAccessInput "" = Except.error json.UnmarshalError.SyntaxError
      from by decide] at h
  exact Except.noConfusion h

theorem delete_missing (stub : ChaincodeStub) (payload : Bytes)
    (input : transferDeleteTransientInput)
    (ht : stub.transientErr = none)
    (hg : stub.getErr "collectionFileTransfer" input.Name = none)
    (hp : stub.transient.lookup "transfer_delete" = some payload)
    (hd : json.UnmarshalDeleteInput payload = Except.ok input)
    (hn : input.Name ≠ "")
    (habs : stub.state "collectionFileTransfer" input.Name = none) :
    delete stub [] =
      (shim.Error ("Transfer does not exist: " ++ input.Name),
        { stub with
          log := stub.log ++
            [Call.GetTransient, Call.GetPrivateData "collectionFileTransfer" input.Name] }) := by
  have hpl := payload_ne_empty_of_delete hd
  have l1 := mt (length_eq_zero_iff _).1 hn
  simp [delete, ChaincodeStub.GetTransient, ChaincodeStub.GetPrivateData,
    ChaincodeStub.issue, ht, hg, hp, hd, hpl, l1, habs]

theorem delete_success {stub : ChaincodeStub} {args : List String}
    (h : (delete stub args).1.Status = shim.OK) :
    ∃ (payload : Bytes) (input : transferDeleteTransientInput) (valAsbytes : Bytes)
      (t : fileTransfer) (k : String),
      args = [] ∧ stub.transient.lookup "transfer_delete" = some payload ∧
      json.UnmarshalDeleteInput payload = Except.ok input ∧ input.Name ≠ "" ∧
      stub.state "collectionFileTransfer" input.Name = some valAsbytes ∧
      json.UnmarshalTransfer valAsbytes = Except.ok t ∧
      CreateCompositeKey "authorization~name" [t.Authorization, t.Name] = Except.ok k ∧
      delete stub args =
        (shim.Success none,
          { stub with
            state := ((stub.state.set "collectionFileTransfer" input.Name none).set
              "collectionFileTransfer" k none).set
              "collectionFileTransferPrivateDetails" input.Name none
            log := stub.log ++
              [Call.GetTransient,
                Call.GetPrivateData "collectionFileTransfer" input.Name,
                Call.DelPrivateData "collectionFileTransfer" input.Name,
                Call.DelPrivateData "collectionFileTransfer" k,
                Call.DelPrivateData "collectionFileTransferPrivateDetails" input.Name] }) := by
  by_cases ha : args.length ≠ 0
  · simp [delete, ha, shim.Error, shim.ERROR, shim.OK] at h
  have ha1 : args = [] := by
    simpa using ha
  subst ha1
  cases ht : stub.transientErr with
  | some e =>
    simp [delete, ChaincodeStub.GetTransient, ht, shim.Error, shim.ERROR, shim.OK] at h
  | none =>
  cases hl : stub.transient.lookup "transfer_delete" with
  | none =>
    simp [delete, ChaincodeStub.GetTransient, ht, hl, shim.Error, shim.ERROR, shim.OK] at h
  | some payload =>
  by_cases hpl : payload.length = 0
  · simp [delete, ChaincodeStub.GetTransient, ht, hl, hpl, shim.Error, shim.ERROR, shim.OK] at h
  cases hd : json.UnmarshalDeleteInput payload with
  | error e =>
    simp [delete, ChaincodeStub.GetTransient, ht, hl, hpl, hd, shim.Error, shim.ERROR,
      shim.OK] at h
  | ok input =>
  by_cases hn : input.Name.length = 0
  · simp [delete, ChaincodeStub.GetTransient, ht, hl, hpl, hd, hn, shim.Error, shim.ERROR,
      shim.OK] at h
  have hne : input.Name ≠ "" := fun e => hn ((length_eq_zero_iff _).2 e)
  cases hg : stub.getErr "collectionFileTransfer" input.Name with
  | some e =>
    simp [delete, ChaincodeStub.GetTransient, ChaincodeStub.GetPrivateData,
      ChaincodeStub.issue, ht, hl, hpl, hd, hn, hg, shim.Error, shim.ERROR, shim.OK] at h
  | none =>
  cases hs : stub.state "collectionFileTransfer" input.Name with
  | none =>
    simp [delete, ChaincodeStub.GetTransient, ChaincodeStub.GetPrivateData,
      ChaincodeStub.issue, ht, hl, hpl, hd, hn, hg, hs, shim.Error, shim.ERROR, shim.OK] at h
  | some valAsbytes =>
  cases hu : json.UnmarshalTransfer valAsbytes with
  | error e =>
    simp [delete, ChaincodeStub.GetTransient, ChaincodeStub.GetPrivateData,
      ChaincodeStub.issue, ht, hl, hpl, hd, hn, hg, hs, hu, shim.Error, shim.ERROR,
      shim.OK] at h
  | ok t =>
  cases hd1 : stub.delErr "collectionFileTransfer" input.Name with
  | some e =>
    simp [delete, ChaincodeStub.GetTransient, ChaincodeStub.GetPrivateData,
      ChaincodeStub.DelPrivateData, ChaincodeStub.issue, ht, hl, hpl, hd, hn, hg, hs, hu, hd1,
      shim.Error, shim.ERROR, shim.OK] at h
  | none =>
  cases hk : CreateCompositeKey "authorization~name" [t.Authorization, t.Name] with
  | error e =>
    simp [delete, ChaincodeStub.GetTransient, ChaincodeStub.GetPrivateData,
      ChaincodeStub.DelPrivateData, ChaincodeStub.issue, ht, hl, hpl, hd, hn, hg, hs, hu, hd1,
      hk, shim.Error, shim.ERROR, shim.OK] at h
  | ok k =>
  cases hd2 : stub.delErr "collectionFileTransfer" k with
  | some e =>
    simp [delete, ChaincodeStub.GetTransient, ChaincodeStub.GetPrivateData,
      ChaincodeStub.DelPrivateData, ChaincodeStub.issue, ht, hl, hpl, hd, hn, hg, hs, hu, hd1,
      hk, hd2, shim.Error, shim.ERROR, shim.OK] at h
  | none =>
  cases hd3 : stub.delErr "collectionFileTransferPrivateDetails" input.Name with
  | some e =>
    simp [delete, ChaincodeStub.GetTransient, ChaincodeStub.GetPrivateData,
      ChaincodeStub.DelPrivateData, ChaincodeStub.issue, ht, hl, hpl, hd, hn, hg, hs, hu, hd1,
      hk, hd2, hd3, shim.Error, shim.ERROR, shim.OK] at h
  | none =>
  refine ⟨payload, input, valAsbytes, t, k, rfl, ?_, ?_, hne, ?_, ?_, ?_, ?_⟩
  any_goals first | rfl | assumption
  simp [delete, ChaincodeStub.GetTransient, ChaincodeStub.GetPrivateData,
    ChaincodeStub.DelPrivateData, ChaincodeStub.issue, ht, hl, hpl, hd, hn, hg, hs, hu, hd1,
    hk, hd2, hd3]

theorem delete_ok (stub : ChaincodeStub) (payload : Bytes)
    (input : transferDeleteTransientInput) (valAsbytes : Bytes) (t : fileTransfer) (k : String)
    (hf : stub.faultFree)
    (hp : stub.transient.lookup "transfer_delete" = some payload)
    (hd : json.UnmarshalDeleteInput payload = Except.ok input)
    (hn : input.Name ≠ "")
    (hs : stub.state "collectionFileTransfer" input.Name = some valAsbytes)
    (hu : json.UnmarshalTransfer valAsbytes = Except.ok t)
    (hk : CreateCompositeKey "authorization~name" [t.Authorization, t.Name] = Except.ok k) :
    delete stub [] =
      (shim.Success none,
        { stub with
          state := ((stub.state.set "collectionFileTransfer" input.Name none).set
            "collectionFileTransfer" k none).set
            "collectionFileTransferPrivateDetails" input.Name none
          log := stub.log ++
            [Call.GetTransient,
              Call.GetPrivateData "collectionFileTransfer" input.Name,
              Call.DelPrivateData "collectionFileTransfer" input.Name,
              Call.DelPrivateData "collectionFileTransfer" k,
              Call.DelPrivateData "collectionFileTransferPrivateDetails" input.Name] }) := by
  obtain ⟨hf1, hf2, hf3, hf4⟩ := hf
  have hpl := payload_ne_empty_of_delete hd
  have l1 := mt (length_eq_zero_iff _).1 hn
  simp [delete, ChaincodeStub.GetTransient, ChaincodeStub.GetPrivateData,
    ChaincodeStub.DelPrivateData, ChaincodeStub.issue, hf1, hf2, hf4, hp, hpl, hd, l1, hs, hu,
    hk]

theorem markAccessed_eq (t : fileTransfer) :
    (if t.HasBeenAccessed = true then t else { t with HasBeenAccessed := true }) =
      { t with HasBeenAccessed := true } := by
  obtain ⟨a, b, c, d, e, f, g⟩ := t
  cases g <;> rfl

theorem accessFile_ok (stub : ChaincodeStub) (payload : Bytes)
    (input : fileAccessTransientInput) (transferAsBytes : Bytes) (t : fileTransfer)
    (hf : stub.faultFree)
    (hp : stub.transient.lookup "transfer_flag" = some payload)
    (hd : json.UnmarshalAccessInput payload = Except.ok input)
    (hn : input.Name ≠ "")
    (hs : stub.state "collectionFileTransfer" input.Name = some transferAsBytes)
    (hu : json.UnmarshalTransfer transferAsBytes = Except.ok t)
    (htn : t.Name ≠ "") :
    accessFile stub [] =
      (shim.Success none,
        { stub with
          state := stub.state.set "collectionFileTransfer" t.Name
            (some (json.MarshalTransfer { t with HasBeenAccessed := true }))
          log := stub.log ++
            [Call.GetTransient,
              Call.GetPrivateData "collectionFileTransfer" input.Name,
              Call.PutPrivateData "collectionFileTransfer" t.Name
                (json.MarshalTransfer { t with HasBeenAccessed := true })] }) := by
  obtain ⟨hf1, hf2, hf3, hf4⟩ := hf
  have hpl := payload_ne_empty_of_access hd
  have l1 := mt (length_eq_zero_iff _).1 hn
  simp [accessFile, ChaincodeStub.GetTransient, ChaincodeStub.GetPrivateData,
    ChaincodeStub.PutPrivateData, ChaincodeStub.issue, hf1, hf2, hf3, hp, hpl, hd, l1, hs, hu,
    markAccessed_eq, htn]

theorem accessFile_success {stub : ChaincodeStub} {args : List String}
    (h : (accessFile stub args).1.Status = shim.OK) :
    ∃ (payload : Bytes) (input : fileAccessTransientInput) (transferAsBytes : Bytes)
      (t : fileTransfer),
      args = [] ∧ stub.transient.lookup "transfer_flag" = some payload ∧
      json.UnmarshalAccessInput payload = Except.ok input ∧ input.Name ≠ "" ∧
      stub.state "collectionFileTransfer" input.Name = some transferAsBytes ∧
      json.UnmarshalTransfer transferAsBytes = Except.ok t ∧ t.Name ≠ "" ∧
      accessFile stub args =
        (shim.Success none,
          { stub with
            state := stub.state.set "collectionFileTransfer" t.Name
              (some (json.MarshalTransfer { t with HasBeenAccessed := true }))
            log := stub.log ++
              [Call.GetTransient,
                Call.GetPrivateData "collectionFileTransfer" input.Name,
                Call.PutPrivateData "collectionFileTransfer" t.Name
                  (json.MarshalTransfer { t with HasBeenAccessed := true })] }) := by
  by_cases ha : args.length ≠ 0
  · simp [accessFile, ha, shim.Error, shim.ERROR, shim.OK] at h
  have ha1 : args = [] := by
    simpa using ha
  subst ha1
  cases ht : stub.transientErr with
  | some e =>
    simp [accessFile, ChaincodeStub.GetTransient, ht, shim.Error, shim.ERROR, shim.OK] at h
  | none =>
  cases hl : stub.transient.lookup "transfer_flag" with
  | none =>
    simp [accessFile, ChaincodeStub.GetTransient, ht, hl, shim.Error, shim.ERROR, shim.OK] at h
  | some payload =>
  by_cases hpl : payload.length = 0
  · simp [accessFile, ChaincodeStub.GetTransient, ht, hl, hpl, shim.Error, shim.ERROR,
      shim.OK] at h
  cases hd : json.UnmarshalAccessInput payload with
  | error e =>
    simp [accessFile, ChaincodeStub.GetTransient, ht, hl, hpl, hd, shim.Error, shim.ERROR,
      shim.OK] at h
  | ok input =>
  by_cases hn : input.Name.length = 0
  · simp [accessFile, ChaincodeStub.GetTransient, ht, hl, hpl, hd, hn, shim.Error, shim.ERROR,
      shim.OK] at h
  have hne : input.Name ≠ "" := fun e => hn ((length_eq_zero_iff _).2 e)
  cases hg : stub.getErr "collectionFileTransfer" input.Name with
  | some e =>
    simp [accessFile, ChaincodeStub.GetTransient, ChaincodeStub.GetPrivateData,
      ChaincodeStub.issue, ht, hl, hpl, hd, hn, hg, shim.Error, shim.ERROR, shim.OK] at h
  | none =>
  cases hs : stub.state "collectionFileTransfer" input.Name with
  | none =>
    simp [accessFile, ChaincodeStub.GetTransient, ChaincodeStub.GetPrivateData,
      ChaincodeStub.issue, ht, hl, hpl, hd, hn, hg, hs, shim.Error, shim.ERROR, shim.OK] at h
  | some transferAsBytes =>
  cases hu : json.UnmarshalTransfer transferAsBytes with
  | error e =>
    simp [accessFile, ChaincodeStub.GetTransient, ChaincodeStub.GetPrivateData,
      ChaincodeStub.issue, ht, hl, hpl, hd, hn, hg, hs, hu, shim.Error, shim.ERROR,
      shim.OK] at h
  | ok t =>
  by_cases htn : t.Name = ""
  · simp only [accessFile, markAccessed_eq] at h
    simp [ChaincodeStub.GetTransient, ChaincodeStub.GetPrivateData,
      ChaincodeStub.PutPrivateData, ChaincodeStub.issue, ht, hl, hpl, hd, hn, hg, hs, hu,
      htn, shim.Error, shim.ERROR, shim.OK] at h
  cases hpe : stub.putErr "collectionFileTransfer" t.Name with
  | some e =>
    simp [accessFile, ChaincodeStub.GetTransient, ChaincodeStub.GetPrivateData,
      ChaincodeStub.PutPrivateData, ChaincodeStub.issue, ht, hl, hpl, hd, hn, hg, hs, hu,
      markAccessed_eq, htn, hpe, shim.Error, shim.ERROR, shim.OK] at h
  | none =>
  refine ⟨payload, input, transferAsBytes, t, rfl, ?_, ?_, hne, ?_, ?_, htn, ?_⟩
  any_goals first | rfl | assumption
  simp [accessFile, ChaincodeStub.GetTransient, ChaincodeStub.GetPrivateData,
    ChaincodeStub.PutPrivateData, ChaincodeStub.issue, ht, hl, hpl, hd, hn, hg, hs, hu,
    markAccessed_eq, htn, hpe]

theorem initFileTransfer_success {stub : ChaincodeStub} {args : List String}
    (h : (initFileTransfer stub args).1.Status = shim.OK) :
    ∃ (payload : Bytes) (input : transferTransientInput),
      args = [] ∧ stub.transientErr = none ∧
      stub.transient.lookup "fileTransfer" = some payload ∧
      json.UnmarshalTransferInput payload = Except.ok input ∧ input.complete ∧
      stub.getErr "collectionFileTransfer" input.Name = none ∧
      stub.state "collectionFileTransfer" input.Name = none ∧
      stub.putErr "collectionFileTransfer" input.Name = none ∧
      stub.putErr "collectionFileTransferPrivateDetails" input.Name = none ∧
      validateCompositeKeyAttribute input.Authorization = none ∧
      validateCompositeKeyAttribute input.Name = none := by
  by_cases ha : args.length ≠ 0
  · simp [initFileTransfer, ha, shim.Error, shim.ERROR, shim.OK] at h
  have ha1 : args = [] := by
    simpa using ha
  subst ha1
  cases ht : stub.transientErr with
  | some e =>
    simp [initFileTransfer, ChaincodeStub.GetTransient, ht, shim.Error, shim.ERROR,
      shim.OK] at h
  | none =>
  cases hl : stub.transient.lookup "fileTransfer" with
  | none =>
    simp [initFileTransfer, ChaincodeStub.GetTransient, ht, hl, shim.Error, shim.ERROR,
      shim.OK] at h
  | some payload =>
  by_cases hpl : payload.length = 0
  · simp [initFileTransfer, ChaincodeStub.GetTransient, ht, hl, hpl, shim.Error, shim.ERROR,
      shim.OK] at h
  cases hd : json.UnmarshalTransferInput payload with
  | error e =>
    simp [initFileTransfer, ChaincodeStub.GetTransient, ht, hl, hpl, hd, shim.Error,
      shim.ERROR, shim.OK] at h
  | ok input =>
  by_cases hc : input.complete
  swap
  · obtain ⟨f, hfe⟩ := firstEmptyField_of_not_complete hc
    rw [initFileTransfer_invalid stub payload input f ht hl hd hfe] at h
    simp [shim.Error, shim.ERROR, shim.OK] at h
  obtain ⟨c1, c2, c3, c4, c5, c6, c7⟩ := hc
  have l1 := mt (length_eq_zero_iff _).1 c1
  have l2 := mt (length_eq_zero_iff _).1 c2
  have l3 := mt (length_eq_zero_iff _).1 c3
  have l4 := mt (length_eq_zero_iff _).1 c4
  have l5 := mt (length_eq_zero_iff _).1 c5
  have l6 := mt (length_eq_zero_iff _).1 c6
  have l7 := mt (length_eq_zero_iff _).1 c7
  cases hg : stub.getErr "collectionFileTransfer" input.Name with
  | some e =>
    simp [initFileTransfer, ChaincodeStub.GetTransient, ChaincodeStub.GetPrivateData,
      ChaincodeStub.issue, ht, hl, hpl, hd, l1, l2, l3, l4, l5, l6, l7, hg, shim.Error,
      shim.ERROR, shim.OK] at h
  | none =>
  cases hs : stub.state "collectionFileTransfer" input.Name with
  | some b =>
    simp [initFileTransfer, ChaincodeStub.GetTransient, ChaincodeStub.GetPrivateData,
      ChaincodeStub.issue, ht, hl, hpl, hd, l1, l2, l3, l4, l5, l6, l7, hg, hs, shim.Error,
      shim.ERROR, shim.OK] at h
  | none =>
  cases hp1 : stub.putErr "collectionFileTransfer" input.Name with
  | some e =>
    simp [initFileTransfer, ChaincodeStub.GetTransient, ChaincodeStub.GetPrivateData,
      ChaincodeStub.PutPrivateData, ChaincodeStub.issue, ht, hl, hpl, hd, l1, l2, l3, l4, l5,
      l6, l7, c1, hg, hs, hp1, shim.Error, shim.ERROR, shim.OK] at h
  | none =>
  cases hp2 : stub.putErr "collectionFileTransferPrivateDetails" input.Name with
  | some e =>
    simp [initFileTransfer, ChaincodeStub.GetTransient, ChaincodeStub.GetPrivateData,
      ChaincodeStub.PutPrivateData, ChaincodeStub.issue, ht, hl, hpl, hd, l1, l2, l3, l4, l5,
      l6, l7, c1, hg, hs, hp1, hp2, shim.Error, shim.ERROR, shim.OK] at h
  | none =>
  cases hk : CreateCompositeKey "authorization~name" [input.Authorization, input.Name] with
  | error e =>
    simp [initFileTransfer, ChaincodeStub.GetTransient, ChaincodeStub.GetPrivateData,
      ChaincodeStub.PutPrivateData, ChaincodeStub.issue, ht, hl, hpl, hd, l1, l2, l3, l4, l5,
      l6, l7, c1, hg, hs, hp1, hp2, hk, shim.Error, shim.ERROR, shim.OK] at h
  | ok k =>
  obtain ⟨hA, hN, _⟩ := CreateCompositeKey_index_inv hk
  refine ⟨payload, input, rfl, ?_, ?_, ?_, ⟨c1, c2, c3, c4, c5, c6, c7⟩, ?_, ?_, ?_, ?_,
    hA, hN⟩
  all_goals first | rfl | assumption

theorem collections_ne : "collectionFileTransferPrivateDetails" ≠ "collectionFileTransfer" := by
  decide

set_option maxRecDepth 1000000 in
theorem sampleState_eq : sampleState = (initFileTransfer sampleCreate []).2.state := by
  rw [initFileTransfer_ok sampleCreate samplePayload sampleInput (stubOn_faultFree _ _ _ _)
    (by decide) (by decide) (by decide) (by decide) (by decide) (by decide)]
  rfl

theorem keepsAccessed_refl (st : State) : KeepsAccessed st st := fun _ => Or.inl rfl

theorem keepsAccessed_set {st st1 : State} (c k : String) (v : Option Bytes)
    (h : KeepsAccessed st st1)
    (hv : c ≠ "collectionFileTransfer" ∨ Accessed v ∨ st "collectionFileTransfer" k = none) :
    KeepsAccessed st (st1.set c k v) := by
  intro n
  unfold State.set
  by_cases hc : "collectionFileTransfer" = c ∧ n = k
  · rw [if_pos hc]
    obtain ⟨hc1, hc2⟩ := hc
    subst hc2
    rcases hv with hv | hv | hv
    · exact absurd hc1.symm hv
    · exact Or.inr (Or.inl hv)
    · exact Or.inr (Or.inr hv)
  · rw [if_neg hc]
    exact h n

theorem keepsAccessed_set_details {st st1 : State} (k : String) (v : Option Bytes)
    (h : KeepsAccessed st st1) :
    KeepsAccessed st (st1.set "collectionFileTransferPrivateDetails" k v) :=
  keepsAccessed_set _ _ _ h (Or.inl (by decide))

theorem keepsAccessed_set_none {st st1 : State} (c k : String) (h : KeepsAccessed st st1) :
    KeepsAccessed st (st1.set c k none) :=
  keepsAccessed_set _ _ _ h (Or.inr (Or.inl (Or.inl rfl)))

theorem keepsAccessed_set_sentinel {st st1 : State} (c k : String)
    (h : KeepsAccessed st st1) : KeepsAccessed st (st1.set c k (some "\x00")) :=
  keepsAccessed_set _ _ _ h (Or.inr (Or.inl (Or.inr (Or.inl rfl))))

theorem keepsAccessed_set_accessed {st st1 : State} (c k : String) (t : fileTransfer)
    (h : KeepsAccessed st st1) :
    KeepsAccessed st
      (st1.set c k (some (json.MarshalTransfer { t with HasBeenAccessed := true }))) :=
  keepsAccessed_set _ _ _ h (Or.inr (Or.inl (Or.inr (Or.inr ⟨_, rfl, rfl⟩))))

theorem keepsAccessed_set_new {st st1 : State} (k : String) (v : Option Bytes)
    (h : KeepsAccessed st st1) (hk : st "collectionFileTransfer" k = none) :
    KeepsAccessed st (st1.set "collectionFileTransfer" k v) :=
  keepsAccessed_set _ _ _ h (Or.inr (Or.inr hk))

theorem delete_keepsAccessed (stub : ChaincodeStub) (args : List String) :
    KeepsAccessed stub.state (delete stub args).2.state := by
  by_cases ha : args.length ≠ 0
  · simp [delete, ChaincodeStub.GetTransient, ChaincodeStub.GetPrivateData,
          ChaincodeStub.PutPrivateData, ChaincodeStub.DelPrivateData,
          ChaincodeStub.issue, ha, keepsAccessed_refl, keepsAccessed_set_none]
  have ha1 : args = [] := by
    simpa using ha
  subst ha1
  cases ht : stub.transientErr with
  | some e =>
    simp [delete, ChaincodeStub.GetTransient, ChaincodeStub.GetPrivateData,
          ChaincodeStub.PutPrivateData, ChaincodeStub.DelPrivateData,
          ChaincodeStub.issue, ht, keepsAccessed_refl, keepsAccessed_set_none]
  | none =>
  cases hl : stub.transient.lookup "transfer_delete" with
  | none =>
    simp [delete, ChaincodeStub.GetTransient, ChaincodeStub.GetPrivateData,
          ChaincodeStub.PutPrivateData, ChaincodeStub.DelPrivateData,
          ChaincodeStub.issue, ht, hl, keepsAccessed_refl, keepsAccessed_set_none]
  | some payload =>
  by_cases hpl : payload.length = 0
  · simp [delete, ChaincodeStub.GetTransient, ChaincodeStub.GetPrivateData,
          ChaincodeStub.PutPrivateData, ChaincodeStub.DelPrivateData,
          ChaincodeStub.issue, ht, hl, hpl, keepsAccessed_refl, keepsAccessed_set_none]
  cases hd : json.UnmarshalDeleteInput payload with
  | error e =>
    simp [delete, ChaincodeStub.GetTransient, ChaincodeStub.GetPrivateData,
          ChaincodeStub.PutPrivateData, ChaincodeStub.DelPrivateData,
          ChaincodeStub.issue, ht, hl, hpl, hd, keepsAccessed_refl,
          keepsAccessed_set_none]
  | ok input =>
  by_cases hn : input.Name.length = 0
  · simp [delete, ChaincodeStub.GetTransient, ChaincodeStub.GetPrivateData,
          ChaincodeStub.PutPrivateData, ChaincodeStub.DelPrivateData,
          ChaincodeStub.issue, ht, hl, hpl, hd, hn, keepsAccessed_refl,
          keepsAccessed_set_none]
  cases hg : stub.getErr "collectionFileTransfer" input.Name with
  | some e =>
    simp [delete, ChaincodeStub.GetTransient, ChaincodeStub.GetPrivateData,
          ChaincodeStub.PutPrivateData, ChaincodeStub.DelPrivateData,
          ChaincodeStub.issue, ht, hl, hpl, hd, hn, hg, keepsAccessed_refl,
          keepsAccessed_set_none]
  | none =>
  cases hs : stub.state "collectionFileTransfer" input.Name with
  | none =>
    simp [delete, ChaincodeStub.GetTransient, ChaincodeStub.GetPrivateData,
          ChaincodeStub.PutPrivateData, ChaincodeStub.DelPrivateData,
          ChaincodeStub.issue, ht, hl, hpl, hd, hn, hg, hs, keepsAccessed_refl,
          keepsAccessed_set_none]
  | some valAsbytes =>
  cases hu : json.UnmarshalTransfer valAsbytes with
  | error e =>
    simp [delete, ChaincodeStub.GetTransient, ChaincodeStub.GetPrivateData,
          ChaincodeStub.PutPrivateData, ChaincodeStub.DelPrivateData,
          ChaincodeStub.issue, ht, hl, hpl, hd, hn, hg, hs, hu, keepsAccessed_refl,
          keepsAccessed_set_none]
  | ok t =>
  cases hd1 : stub.delErr "collectionFileTransfer" input.Name with
  | some e =>
    simp [delete, ChaincodeStub.GetTransient, ChaincodeStub.GetPrivateData,
          ChaincodeStub.PutPrivateData, ChaincodeStub.DelPrivateData,
          ChaincodeStub.issue, ht, hl, hpl, hd, hn, hg, hs, hu, hd1,
          keepsAccessed_refl, keepsAccessed_set_none]
  | none =>
  cases hk : CreateCompositeKey "authorization~name" [t.Authorization, t.Name] with
  | error e =>
    simp [delete, ChaincodeStub.GetTransient, ChaincodeStub.GetPrivateData,
          ChaincodeStub.PutPrivateData, ChaincodeStub.DelPrivateData,
          ChaincodeStub.issue, ht, hl, hpl, hd, hn, hg, hs, hu, hd1, hk,
          keepsAccessed_refl, keepsAccessed_set_none]
  | ok k =>
  cases hd2 : stub.delErr "collectionFileTransfer" k with
  | some e =>
    simp [delete, ChaincodeStub.GetTransient, ChaincodeStub.GetPrivateData,
          ChaincodeStub.PutPrivateData, ChaincodeStub.DelPrivateData,
          ChaincodeStub.issue, ht, hl, hpl, hd, hn, hg, hs, hu, hd1, hk, hd2,
          keepsAccessed_refl, keepsAccessed_set_none]
  | none =>
  cases hd3 : stub.delErr "collectionFileTransferPrivateDetails" input.Name with
  | some e =>
    simp [delete, ChaincodeStub.GetTransient, ChaincodeStub.GetPrivateData,
          ChaincodeStub.PutPrivateData, ChaincodeStub.DelPrivateData,
          ChaincodeStub.issue, ht, hl, hpl, hd, hn, hg, hs, hu, hd1, hk, hd2, hd3,
          keepsAccessed_refl, keepsAccessed_set_none]
  | none =>
  simp [delete, ChaincodeStub.GetTransient, ChaincodeStub.GetPrivateData,
        ChaincodeStub.PutPrivateData, ChaincodeStub.DelPrivateData,
        ChaincodeStub.issue, ht, hl, hpl, hd, hn, hg, hs, hu, hd1, hk, hd2, hd3,
        keepsAccessed_refl]
  exact keepsAccessed_set_none _ _ (keepsAccessed_set_none _ _
    (keepsAccessed_set_none _ _ (keepsAccessed_refl _)))

theorem accessFile_keepsAccessed (stub : ChaincodeStub) (args : List String) :
    KeepsAccessed stub.state (accessFile stub args).2.state := by
  by_cases ha : args.length ≠ 0
  · simp [accessFile, ChaincodeStub.GetTransient, ChaincodeStub.GetPrivateData,
          ChaincodeStub.PutPrivateData, ChaincodeStub.DelPrivateData,
          ChaincodeStub.issue, ha, keepsAccessed_refl, keepsAccessed_set_accessed]
  have ha1 : args = [] := by
    simpa using ha
  subst ha1
  cases ht : stub.transientErr with
  | some e =>
    simp [accessFile, ChaincodeStub.GetTransient, ChaincodeStub.GetPrivateData,
          ChaincodeStub.PutPrivateData, ChaincodeStub.DelPrivateData,
          ChaincodeStub.issue, ht, keepsAccessed_refl, keepsAccessed_set_accessed]
  | none =>
  cases hl : stub.transient.lookup "transfer_flag" with
  | none =>
    simp [accessFile, ChaincodeStub.GetTransient, ChaincodeStub.GetPrivateData,
          ChaincodeStub.PutPrivateData, ChaincodeStub.DelPrivateData,
          ChaincodeStub.issue, ht, hl, keepsAccessed_refl, keepsAccessed_set_accessed]
  | some payload =>
  by_cases hpl : payload.length = 0
  · simp [accessFile, ChaincodeStub.GetTransient, ChaincodeStub.GetPrivateData,
          ChaincodeStub.PutPrivateData, ChaincodeStub.DelPrivateData,
          ChaincodeStub.issue, ht, hl, hpl, keepsAccessed_refl,
          keepsAccessed_set_accessed]
  cases hd : json.UnmarshalAccessInput payload with
  | error e =>
    simp [accessFile, ChaincodeStub.GetTransient, ChaincodeStub.GetPrivateData,
          ChaincodeStub.PutPrivateData, ChaincodeStub.DelPrivateData,
          ChaincodeStub.issue, ht, hl, hpl, hd, keepsAccessed_refl,
          keepsAccessed_set_accessed]
  | ok input =>
  by_cases hn : input.Name.length = 0
  · simp [accessFile, ChaincodeStub.GetTransient, ChaincodeStub.GetPrivateData,
          ChaincodeStub.PutPrivateData, ChaincodeStub.DelPrivateData,
          ChaincodeStub.issue, ht, hl, hpl, hd, hn, keepsAccessed_refl,
          keepsAccessed_set_accessed]
  cases hg : stub.getErr "collectionFileTransfer" input.Name with
  | some e =>
    simp [accessFile, ChaincodeStub.GetTransient, ChaincodeStub.GetPrivateData,
          ChaincodeStub.PutPrivateData, ChaincodeStub.DelPrivateData,
          ChaincodeStub.issue, ht, hl, hpl, hd, hn, hg, keepsAccessed_refl,
          keepsAccessed_set_accessed]
  | none =>
  cases hs : stub.state "collectionFileTransfer" input.Name with
  | none =>
    simp [accessFile, ChaincodeStub.GetTransient, ChaincodeStub.GetPrivateData,
          ChaincodeStub.PutPrivateData, ChaincodeStub.DelPrivateData,
          ChaincodeStub.issue, ht, hl, hpl, hd, hn, hg, hs, keepsAccessed_refl,
          keepsAccessed_set_accessed]
  | some transferAsBytes =>
  cases hu : json.UnmarshalTransfer transferAsBytes with
  | error e =>
    simp [accessFile, ChaincodeStub.GetTransient, ChaincodeStub.GetPrivateData,
          ChaincodeStub.PutPrivateData, ChaincodeStub.DelPrivateData,
          ChaincodeStub.issue, ht, hl, hpl, hd, hn, hg, hs, hu, keepsAccessed_refl,
          keepsAccessed_set_accessed]
  | ok t =>
  simp only [accessFile, markAccessed_eq]
  by_cases htn : t.Name = ""
  · simp [accessFile, ChaincodeStub.GetTransient, ChaincodeStub.GetPrivateData,
          ChaincodeStub.PutPrivateData, ChaincodeStub.DelPrivateData,
          ChaincodeStub.issue, ht, hl, hpl, hd, hn, hg, hs, hu, htn,
          keepsAccessed_refl, keepsAccessed_set_accessed]
  cases hpe : stub.putErr "collectionFileTransfer" t.Name with
  | some e =>
    simp [accessFile, ChaincodeStub.GetTransient, ChaincodeStub.GetPrivateData,
          ChaincodeStub.PutPrivateData, ChaincodeStub.DelPrivateData,
          ChaincodeStub.issue, ht, hl, hpl, hd, hn, hg, hs, hu, htn, hpe,
          keepsAccessed_refl, keepsAccessed_set_accessed]
  | none =>
  simp [accessFile, ChaincodeStub.GetTransient, ChaincodeStub.GetPrivateData,
        ChaincodeStub.PutPrivateData, ChaincodeStub.DelPrivateData,
        ChaincodeStub.issue, ht, hl, hpl, hd, hn, hg, hs, hu, htn, hpe,
        keepsAccessed_refl, keepsAccessed_set_accessed]

theorem initFileTransfer_keepsAccessed (stub : ChaincodeStub) (args : List String) :
    KeepsAccessed stub.state (initFileTransfer stub args).2.state := by
  by_cases ha : args.length ≠ 0
  · simp [initFileTransfer, ChaincodeStub.GetTransient, ChaincodeStub.GetPrivateData,
          ChaincodeStub.PutPrivateData, ChaincodeStub.DelPrivateData,
          ChaincodeStub.issue, ha, keepsAccessed_refl, keepsAccessed_set_sentinel,
          keepsAccessed_set_details, keepsAccessed_set_new]
  have ha1 : args = [] := by
    simpa using ha
  subst ha1
  cases ht : stub.transientErr with
  | some e =>
    simp [initFileTransfer, ChaincodeStub.GetTransient, ChaincodeStub.GetPrivateData,
          ChaincodeStub.PutPrivateData, ChaincodeStub.DelPrivateData,
          ChaincodeStub.issue, ht, keepsAccessed_refl, keepsAccessed_set_sentinel,
          keepsAccessed_set_details, keepsAccessed_set_new]
  | none =>
  cases hl : stub.transient.lookup "fileTransfer" with
  | none =>
    simp [initFileTransfer, ChaincodeStub.GetTransient, ChaincodeStub.GetPrivateData,
          ChaincodeStub.PutPrivateData, ChaincodeStub.DelPrivateData,
          ChaincodeStub.issue, ht, hl, keepsAccessed_refl, keepsAccessed_set_sentinel,
          keepsAccessed_set_details, keepsAccessed_set_new]
  | some payload =>
  by_cases hpl : payload.length = 0
  · simp [initFileTransfer, ChaincodeStub.GetTransient, ChaincodeStub.GetPrivateData,
          ChaincodeStub.PutPrivateData, ChaincodeStub.DelPrivateData,
          ChaincodeStub.issue, ht, hl, hpl, keepsAccessed_refl,
          keepsAccessed_set_sentinel, keepsAccessed_set_details, keepsAccessed_set_new]
  cases hd : json.UnmarshalTransferInput payload with
  | error e =>
    simp [initFileTransfer, ChaincodeStub.GetTransient, ChaincodeStub.GetPrivateData,
          ChaincodeStub.PutPrivateData, ChaincodeStub.DelPrivateData,
          ChaincodeStub.issue, ht, hl, hpl, hd, keepsAccessed_refl,
          keepsAccessed_set_sentinel, keepsAccessed_set_details, keepsAccessed_set_new]
  | ok input =>
  by_cases l1 : input.Name.length = 0
  · simp [initFileTransfer, ChaincodeStub.GetTransient, ChaincodeStub.GetPrivateData,
          ChaincodeStub.PutPrivateData, ChaincodeStub.DelPrivateData,
          ChaincodeStub.issue, ht, hl, hpl, hd, l1, keepsAccessed_refl,
          keepsAccessed_set_sentinel, keepsAccessed_set_details, keepsAccessed_set_new]
  by_cases l2 : input.Description.length = 0
  · simp [initFileTransfer, ChaincodeStub.GetTransient, ChaincodeStub.GetPrivateData,
          ChaincodeStub.PutPrivateData, ChaincodeStub.DelPrivateData,
          ChaincodeStub.issue, ht, hl, hpl, hd, l1, l2, keepsAccessed_refl,
          keepsAccessed_set_sentinel, keepsAccessed_set_details, keepsAccessed_set_new]
  by_cases l3 : input.Originator.length = 0
  · simp [initFileTransfer, ChaincodeStub.GetTransient, ChaincodeStub.GetPrivateData,
          ChaincodeStub.PutPrivateData, ChaincodeStub.DelPrivateData,
          ChaincodeStub.issue, ht, hl, hpl, hd, l1, l2, l3, keepsAccessed_refl,
          keepsAccessed_set_sentinel, keepsAccessed_set_details, keepsAccessed_set_new]
  by_cases l4 : input.Recipient.length = 0
  · simp [initFileTransfer, ChaincodeStub.GetTransient, ChaincodeStub.GetPrivateData,
          ChaincodeStub.PutPrivateData, ChaincodeStub.DelPrivateData,
          ChaincodeStub.issue, ht, hl, hpl, hd, l1, l2, l3, l4, keepsAccessed_refl,
          keepsAccessed_set_sentinel, keepsAccessed_set_details, keepsAccessed_set_new]
  by_cases l5 : input.Authorization.length = 0
  · simp [initFileTransfer, ChaincodeStub.GetTransient, ChaincodeStub.GetPrivateData,
          ChaincodeStub.PutPrivateData, ChaincodeStub.DelPrivateData,
          ChaincodeStub.issue, ht, hl, hpl, hd, l1, l2, l3, l4, l5, keepsAccessed_refl,
          keepsAccessed_set_sentinel, keepsAccessed_set_details, keepsAccessed_set_new]
  by_cases l6 : input.Address.length = 0
  · simp [initFileTransfer, ChaincodeStub.GetTransient, ChaincodeStub.GetPrivateData,
          ChaincodeStub.PutPrivateData, ChaincodeStub.DelPrivateData,
          ChaincodeStub.issue, ht, hl, hpl, hd, l1, l2, l3, l4, l5, l6,
          keepsAccessed_refl, keepsAccessed_set_sentinel, keepsAccessed_set_details,
          keepsAccessed_set_new]
  by_cases l7 : input.EncryptionKey.length = 0
  · simp [initFileTransfer, ChaincodeStub.GetTransient, ChaincodeStub.GetPrivateData,
          ChaincodeStub.PutPrivateData, ChaincodeStub.DelPrivateData,
          ChaincodeStub.issue, ht, hl, hpl, hd, l1, l2, l3, l4, l5, l6, l7,
          keepsAccessed_refl, keepsAccessed_set_sentinel, keepsAccessed_set_details,
          keepsAccessed_set_new]
  have c1 : input.Name ≠ "" := fun e => l1 ((length_eq_zero_iff _).2 e)
  cases hg : stub.getErr "collectionFileTransfer" input.Name with
  | some e =>
    simp [initFileTransfer, ChaincodeStub.GetTransient, ChaincodeStub.GetPrivateData,
          ChaincodeStub.PutPrivateData, ChaincodeStub.DelPrivateData,
          ChaincodeStub.issue, ht, hl, hpl, hd, l1, l2, l3, l4, l5, l6, l7, c1, hg,
          keepsAccessed_refl, keepsAccessed_set_sentinel, keepsAccessed_set_details,
          keepsAccessed_set_new]
  | none =>
  cases hs : stub.state "collectionFileTransfer" input.Name with
  | some b =>
    simp [initFileTransfer, ChaincodeStub.GetTransient, ChaincodeStub.GetPrivateData,
          ChaincodeStub.PutPrivateData, ChaincodeStub.DelPrivateData,
          ChaincodeStub.issue, ht, hl, hpl, hd, l1, l2, l3, l4, l5, l6, l7, c1, hg, hs,
          keepsAccessed_refl, keepsAccessed_set_sentinel, keepsAccessed_set_details,
          keepsAccessed_set_new]
  | none =>
  cases hp1 : stub.putErr "collectionFileTransfer" input.Name with
  | some e =>
    simp [initFileTransfer, ChaincodeStub.GetTransient, ChaincodeStub.GetPrivateData,
          ChaincodeStub.PutPrivateData, ChaincodeStub.DelPrivateData,
          ChaincodeStub.issue, ht, hl, hpl, hd, l1, l2, l3, l4, l5, l6, l7, c1, hg, hs,
          hp1, keepsAccessed_refl, keepsAccessed_set_sentinel,
          keepsAccessed_set_details, keepsAccessed_set_new]
  | none =>
  cases hp2 : stub.putErr "collectionFileTransferPrivateDetails" input.Name with
  | some e =>
    simp [initFileTransfer, ChaincodeStub.GetTransient, ChaincodeStub.GetPrivateData,
          ChaincodeStub.PutPrivateData, ChaincodeStub.DelPrivateData,
          ChaincodeStub.issue, ht, hl, hpl, hd, l1, l2, l3, l4, l5, l6, l7, c1, hg, hs,
          hp1, hp2, keepsAccessed_refl, keepsAccessed_set_sentinel,
          keepsAccessed_set_details, keepsAccessed_set_new]
  | none =>
  cases hk : CreateCompositeKey "authorization~name" [input.Authorization, input.Name] with
  | error e =>
    simp [initFileTransfer, ChaincodeStub.GetTransient, ChaincodeStub.GetPrivateData,
          ChaincodeStub.PutPrivateData, ChaincodeStub.DelPrivateData,
          ChaincodeStub.issue, ht, hl, hpl, hd, l1, l2, l3, l4, l5, l6, l7, c1, hg, hs,
          hp1, hp2, hk, keepsAccessed_refl, keepsAccessed_set_sentinel,
          keepsAccessed_set_details, keepsAccessed_set_new]
  | ok k =>
  by_cases hke : k = ""
  · simp [initFileTransfer, ChaincodeStub.GetTransient, ChaincodeStub.GetPrivateData,
          ChaincodeStub.PutPrivateData, ChaincodeStub.DelPrivateData,
          ChaincodeStub.issue, ht, hl, hpl, hd, l1, l2, l3, l4, l5, l6, l7, c1, hg, hs,
          hp1, hp2, hk, hke, keepsAccessed_refl, keepsAccessed_set_sentinel,
          keepsAccessed_set_details, keepsAccessed_set_new]
  cases hp3 : stub.putErr "collectionFileTransfer" k with
  | some e =>
    simp [initFileTransfer, ChaincodeStub.GetTransient, ChaincodeStub.GetPrivateData,
          ChaincodeStub.PutPrivateData, ChaincodeStub.DelPrivateData,
          ChaincodeStub.issue, ht, hl, hpl, hd, l1, l2, l3, l4, l5, l6, l7, c1, hg, hs,
          hp1, hp2, hk, hke, hp3, keepsAccessed_refl, keepsAccessed_set_sentinel,
          keepsAccessed_set_details, keepsAccessed_set_new]
  | none =>
  simp [initFileTransfer, ChaincodeStub.GetTransient, ChaincodeStub.GetPrivateData,
        ChaincodeStub.PutPrivateData, ChaincodeStub.DelPrivateData,
        ChaincodeStub.issue, ht, hl, hpl, hd, l1, l2, l3, l4, l5, l6, l7, c1, hg, hs,
        hp1, hp2, hk, hke, hp3,
        keepsAccessed_set_details]
  exact keepsAccessed_set_sentinel _ _ (keepsAccessed_set_details _ _
    (keepsAccessed_set_new _ _ (keepsAccessed_refl _) hs))

theorem readFileTransfer_state (stub : ChaincodeStub) (args : List String) :
    (readFileTransfer stub args).2.state = stub.state := by
  rcases args with _ | ⟨name, _ | ⟨a, rest⟩⟩
  · rfl
  · cases hg : stub.getErr "collectionFileTransfer" name <;>
      cases hs : stub.state "collectionFileTransfer" name <;>
      simp [readFileTransfer, ChaincodeStub.GetPrivateData, ChaincodeStub.issue, hg, hs]
  · rfl

theorem readFileTransferPrivateDetails_state (stub : ChaincodeStub) (args : List String) :
    (readFileTransferPrivateDetails stub args).2.state = stub.state := by
  rcases args with _ | ⟨name, _ | ⟨a, rest⟩⟩
  · rfl
  · cases hg : stub.getErr "collectionFileTransferPrivateDetails" name <;>
      cases hs : stub.state "collectionFileTransferPrivateDetails" name <;>
      simp [readFileTransferPrivateDetails, ChaincodeStub.GetPrivateData, ChaincodeStub.issue,
        hg, hs]
  · rfl

theorem getQueryResultForQueryString_state (stub : ChaincodeStub) (queryString : String) :
    (getQueryResultForQueryString stub queryString).2.state = stub.state := by
  simp only [getQueryResultForQueryString, ChaincodeStub.GetPrivateDataQueryResult,
    ChaincodeStub.issue]
  cases hq : stub.richQuery (stub.state "collectionFileTransfer") queryString with
  | error e => simp
  | ok it =>
    cases hl : queryLoop it "[" false <;> simp [hl]

theorem queryFileTransferByOwner_state (stub : ChaincodeStub) (args : List String) :
    (queryFileTransferByOwner stub args).2.state = stub.state := by
  rcases args with _ | ⟨arg0, rest⟩
  · rfl
  · simp only [queryFileTransferByOwner]
    have h := getQueryResultForQueryString_state stub
      ("\x7b\"selector\":\x7b\"docType\":\"transfer\",\"originator\":\"" ++ strings.ToLower arg0 ++
        "\"\x7d\x7d")
    revert h
    rcases getQueryResultForQueryString stub _ with ⟨_ | _, s⟩ <;> exact fun h => h

theorem queryTransfers_state (stub : ChaincodeStub) (args : List String) :
    (queryTransfers stub args).2.state = stub.state := by
  rcases args with _ | ⟨arg0, rest⟩
  · rfl
  · simp only [queryTransfers]
    have h := getQueryResultForQueryString_state stub arg0
    revert h
    rcases getQueryResultForQueryString stub _ with ⟨_ | _, s⟩ <;> exact fun h => h

theorem Invoke_keepsAccessed (stub : ChaincodeStub) :
    KeepsAccessed stub.state (Invoke stub).2.state := by
  unfold Invoke
  simp only
  split
  · exact initFileTransfer_keepsAccessed _ _
  split
  · rw [readFileTransfer_state]; exact keepsAccessed_refl _
  split
  · rw [readFileTransferPrivateDetails_state]; exact keepsAccessed_refl _
  split
  · exact delete_keepsAccessed _ _
  split
  · rw [queryFileTransferByOwner_state]; exact keepsAccessed_refl _
  split
  · rw [queryTransfers_state]; exact keepsAccessed_refl _
  split
  · exact accessFile_keepsAccessed _ _
  · exact keepsAccessed_refl _

theorem writeElement_eq (buffer : String) (kv : KV) :
    writeElement buffer kv = buffer ++ referenceElement kv := by
  simp only [writeElement, referenceElement, String.append_assoc]
  rfl

theorem queryLoop_go (kvs : List KV) (acc : String) :
    queryLoop (kvs.map Except.ok) ("[" ++ acc) true =
      Except.ok ("[" ++ String.intercalate.go acc "," (kvs.map referenceElement)) := by
  induction kvs generalizing acc with
  | nil => rfl
  | cons kv rest ih =>
    simp only [List.map_cons, queryLoop, if_true, writeElement_eq, String.intercalate.go]
    rw [String.append_assoc, String.append_assoc, ← String.append_assoc acc, ih]

theorem queryLoop_reference (kvs : List KV) :
    queryLoop (kvs.map Except.ok) "[" false =
      Except.ok ("[" ++ String.intercalate "," (kvs.map referenceElement)) := by
  cases kvs with
  | nil => rfl
  | cons kv rest =>
    simp only [List.map_cons, queryLoop, writeElement_eq, String.intercalate]
    exact queryLoop_go rest (referenceElement kv)

theorem UnmarshalTransfer_sentinel :
    json.UnmarshalTransfer "\x00" = Except.error json.UnmarshalError.SyntaxError := by
  decide

theorem MarshalTransfer_ne_sentinel (t : fileTransfer) : json.MarshalTransfer t ≠ "\x00" := by
  intro h
  have h1 := json.UnmarshalTransfer_MarshalTransfer t
  rw [h, UnmarshalTransfer_sentinel] at h1
  exact Except.noConfusion h1

theorem MarshalTransfer_inj {t t1 : fileTransfer}
    (h : json.MarshalTransfer t = json.MarshalTransfer t1) : t = t1 := by
  have h1 := json.UnmarshalTransfer_MarshalTransfer t
  rw [h, json.UnmarshalTransfer_MarshalTransfer] at h1
  exact (Except.ok.inj h1).symm

theorem consistent_empty : Consistent State.empty :=
  ⟨fun _ _ h => Option.noConfusion h, fun _ _ h => Option.noConfusion h⟩

/-- In a consistent state the bytes that decode to a record are its encoding,
stored under its name. -/
theorem consistent_record {st : State} (hc : Consistent st) {n : String} {b : Bytes}
    {t : fileTransfer} (hb : st "collectionFileTransfer" n = some b)
    (hu : json.UnmarshalTransfer b = Except.ok t) :
    b = json.MarshalTransfer t ∧ t.Name = n ∧
      validateCompositeKeyAttribute t.Name = none ∧
      validateCompositeKeyAttribute t.Authorization = none ∧
      (∃ d, st "collectionFileTransferPrivateDetails" n = some d) ∧
      st "collectionFileTransfer" (indexKey t.Authorization t.Name) = some "\x00" := by
  rcases hc.1 n b hb with ⟨t0, h0, h1, h2, h3, h4, h5⟩ | ⟨h0, _⟩
  · subst h0
    rw [json.UnmarshalTransfer_MarshalTransfer] at hu
    have e := Except.ok.inj hu
    subst e
    exact ⟨rfl, h1, h2, h3, h4, h5⟩
  · subst h0
    rw [UnmarshalTransfer_sentinel] at hu
    exact Except.noConfusion hu

theorem consistent_access {st : State} (hc : Consistent st) {n : String} {t : fileTransfer}
    (hb : st "collectionFileTransfer" n = some (json.MarshalTransfer t)) :
    Consistent (st.set "collectionFileTransfer" t.Name
      (some (json.MarshalTransfer { t with HasBeenAccessed := true }))) := by
  obtain ⟨_, hn, hvn, hva, hd, hi⟩ :=
    consistent_record hc hb (json.UnmarshalTransfer_MarshalTransfer t)
  have hne : indexKey t.Authorization t.Name ≠ t.Name := indexKey_ne_of_valid _ _ hvn
  subst hn
  constructor
  · intro k b hk
    by_cases hkn : k = t.Name
    · subst hkn
      left
      refine ⟨{ t with HasBeenAccessed := true }, ?_, rfl, hvn, hva, ?_, ?_⟩
      · simpa [State.set] using hk.symm
      · simpa [State.set] using hd
      · simpa [State.set, hne] using hi
    · have hk1 : st "collectionFileTransfer" k = some b := by
        simpa [State.set, hkn] using hk
      rcases hc.1 k b hk1 with ⟨t0, h0, h1, h2, h3, h4, h5⟩ | ⟨h0, t0, h2, h3, h4, h5⟩
      · left
        refine ⟨t0, h0, h1, h2, h3, ?_, ?_⟩
        · simpa [State.set] using h4
        · have : indexKey t0.Authorization t0.Name ≠ t.Name := indexKey_ne_of_valid _ _ hvn
          simpa [State.set, this] using h5
      · right
        refine ⟨h0, ?_⟩
        by_cases ht0 : t0.Name = t.Name
        · have e : t0 = t := by
            rw [ht0, hb] at h5
            exact (MarshalTransfer_inj (Option.some.inj h5)).symm
          subst e
          exact ⟨{ t0 with HasBeenAccessed := true }, h2, h3, h4, by simp [State.set]⟩
        · exact ⟨t0, h2, h3, h4, by simpa [State.set, ht0] using h5⟩
  · intro k d hk
    have hk1 : st "collectionFileTransferPrivateDetails" k = some d := by
      simpa [State.set] using hk
    obtain ⟨t0, h0⟩ := hc.2 k d hk1
    by_cases hkn : k = t.Name
    · subst hkn
      exact ⟨{ t with HasBeenAccessed := true }, by simp [State.set]⟩
    · exact ⟨t0, by simpa [State.set, hkn] using h0⟩

theorem consistent_delete {st : State} (hc : Consistent st) {n : String} {t : fileTransfer}
    (hb : st "collectionFileTransfer" n = some (json.MarshalTransfer t)) :
    Consistent (((st.set "collectionFileTransfer" n none).set "collectionFileTransfer"
      (indexKey t.Authorization t.Name) none).set
      "collectionFileTransferPrivateDetails" n none) := by
  obtain ⟨_, hn, hvn, hva, hd, hi⟩ :=
    consistent_record hc hb (json.UnmarshalTransfer_MarshalTransfer t)
  subst hn
  constructor
  · intro k b hk
    by_cases hki : k = indexKey t.Authorization t.Name
    · simp [State.set, hki] at hk
    by_cases hkn : k = t.Name
    · simp [State.set, hkn] at hk
    have hk1 : st "collectionFileTransfer" k = some b := by
      simpa [State.set, hki, hkn] using hk
    rcases hc.1 k b hk1 with ⟨t0, h0, h1, h2, h3, h4, h5⟩ | ⟨h0, t0, h2, h3, h4, h5⟩
    · left
      refine ⟨t0, h0, h1, h2, h3, ?_, ?_⟩
      · simpa [State.set, hkn] using h4
      · have e1 : indexKey t0.Authorization t0.Name ≠ t.Name := indexKey_ne_of_valid _ _ hvn
        have e2 : indexKey t0.Authorization t0.Name ≠ indexKey t.Authorization t.Name := by
          intro e
          exact hkn (h1.symm.trans (indexKey_inj h3 hva e).2)
        simpa [State.set, e1, e2] using h5
    · right
      refine ⟨h0, t0, h2, h3, h4, ?_⟩
      have e1 : t0.Name ≠ indexKey t.Authorization t.Name :=
        fun e => indexKey_ne_of_valid _ _ h2 e.symm
      have e2 : t0.Name ≠ t.Name := by
        intro e
        rw [e, hb] at h5
        have e3 := MarshalTransfer_inj (Option.some.inj h5)
        subst e3
        exact hki h4
      simpa [State.set, e1, e2] using h5
  · intro k d hk
    by_cases hkn : k = t.Name
    · simp [State.set, hkn] at hk
    have hk1 : st "collectionFileTransferPrivateDetails" k = some d := by
      simpa [State.set, hkn] using hk
    obtain ⟨t0, h0⟩ := hc.2 k d hk1
    have hki : k ≠ indexKey t.Authorization t.Name := by
      intro e
      rw [e, hi] at h0
      exact MarshalTransfer_ne_sentinel t0 (Option.some.inj h0).symm
    exact ⟨t0, by simpa [State.set, hkn, hki] using h0⟩

theorem consistent_create {st : State} (hc : Consistent st) {t : fileTransfer} (d : Bytes)
    (habs : st "collectionFileTransfer" t.Name = none)
    (hvn : validateCompositeKeyAttribute t.Name = none)
    (hva : validateCompositeKeyAttribute t.Authorization = none) :
    Consistent (((st.set "collectionFileTransfer" t.Name (some (json.MarshalTransfer t))).set
      "collectionFileTransferPrivateDetails" t.Name (some d)).set
      "collectionFileTransfer" (indexKey t.Authorization t.Name) (some "\x00")) := by
  have hne : t.Name ≠ indexKey t.Authorization t.Name :=
    fun e => indexKey_ne_of_valid _ _ hvn e.symm
  have hidx : st "collectionFileTransfer" (indexKey t.Authorization t.Name) = none := by
    cases hx : st "collectionFileTransfer" (indexKey t.Authorization t.Name) with
    | none => rfl
    | some b =>
      exfalso
      rcases hc.1 _ b hx with ⟨t0, _, h1, h2, _⟩ | ⟨_, t0, h2, h3, h4, h5⟩
      · exact indexKey_ne_of_valid _ _ h2 h1.symm
      · rw [← (indexKey_inj hva h3 h4).2, habs] at h5
        exact Option.noConfusion h5
  constructor
  · intro k b hk
    by_cases hki : k = indexKey t.Authorization t.Name
    · right
      subst hki
      refine ⟨by simpa [State.set] using hk.symm, t, hvn, hva, rfl, ?_⟩
      simp [State.set, hne]
    by_cases hkn : k = t.Name
    · left
      subst hkn
      refine ⟨t, by simpa [State.set, hki] using hk.symm, rfl, hvn, hva, ⟨d, ?_⟩, ?_⟩
      · simp [State.set]
      · simp [State.set]
    have hk1 : st "collectionFileTransfer" k = some b := by
      simpa [State.set, hki, hkn] using hk
    rcases hc.1 k b hk1 with ⟨t0, h0, h1, h2, h3, h4, h5⟩ | ⟨h0, t0, h2, h3, h4, h5⟩
    · left
      refine ⟨t0, h0, h1, h2, h3, ?_, ?_⟩
      · simpa [State.set, hkn] using h4
      · by_cases e : indexKey t0.Authorization t0.Name = indexKey t.Authorization t.Name
        · simp [State.set, e]
        · have e1 : indexKey t0.Authorization t0.Name ≠ t.Name := indexKey_ne_of_valid _ _ hvn
          simpa [State.set, e, e1] using h5
    · right
      refine ⟨h0, t0, h2, h3, h4, ?_⟩
      have e1 : t0.Name ≠ indexKey t.Authorization t.Name :=
        fun e => indexKey_ne_of_valid _ _ h2 e.symm
      have e2 : t0.Name ≠ t.Name := by
        intro e
        rw [e, habs] at h5
        exact Option.noConfusion h5
      simpa [State.set, e1, e2] using h5
  · intro k d1 hk
    by_cases hkn : k = t.Name
    · subst hkn
      exact ⟨t, by simp [State.set, hne]⟩
    have hk1 : st "collectionFileTransferPrivateDetails" k = some d1 := by
      simpa [State.set, hkn] using hk
    obtain ⟨t0, h0⟩ := hc.2 k d1 hk1
    have hki : k ≠ indexKey t.Authorization t.Name := by
      intro e
      rw [e, hidx] at h0
      exact Option.noConfusion h0
    exact ⟨t0, by simpa [State.set, hkn, hki] using h0⟩

theorem Invoke_consistent (stub : ChaincodeStub) (hc : Consistent stub.state)
    (hf : stub.faultFree) (hs : (Invoke stub).1.Status = shim.OK) :
    Consistent (Invoke stub).2.state := by
  by_cases h1 : stub.function = "initFileTransfer"
  · have e : Invoke stub = initFileTransfer stub stub.args := by simp [Invoke, h1]
    rw [e] at hs ⊢
    obtain ⟨payload, input, hargs, _, hp, hd, hcomp, _, habs, _, _, hA, hN⟩ :=
      initFileTransfer_success hs
    rw [hargs, initFileTransfer_ok stub payload input hf hp hd hcomp hA hN habs]
    exact consistent_create (t := newTransfer input) hc _ habs hN hA
  by_cases h2 : stub.function = "readFileTransfer"
  · have e : Invoke stub = readFileTransfer stub stub.args := by simp [Invoke, h2]
    rw [e, readFileTransfer_state]
    exact hc
  by_cases h3 : stub.function = "readFileTransferPrivateDetails"
  · have e : Invoke stub = readFileTransferPrivateDetails stub stub.args := by
      simp [Invoke, h3]
    rw [e, readFileTransferPrivateDetails_state]
    exact hc
  by_cases h4 : stub.function = "delete"
  · have e : Invoke stub = delete stub stub.args := by simp [Invoke, h4]
    rw [e] at hs ⊢
    obtain ⟨payload, input, valAsbytes, t, k, _, _, _, _, hb, hu, hk, hres⟩ :=
      delete_success hs
    obtain ⟨hm, hn, _⟩ := consistent_record hc hb hu
    obtain ⟨_, _, hk1⟩ := CreateCompositeKey_index_inv hk
    subst hm hk1
    rw [hres]
    exact consistent_delete hc hb
  by_cases h5 : stub.function = "queryFileTransferByOwner"
  · have e : Invoke stub = queryFileTransferByOwner stub stub.args := by
      simp [Invoke, h5]
    rw [e, queryFileTransferByOwner_state]
    exact hc
  by_cases h6 : stub.function = "queryTransfers"
  · have e : Invoke stub = queryTransfers stub stub.args := by simp [Invoke, h6]
    rw [e, queryTransfers_state]
    exact hc
  by_cases h7 : stub.function = "accessFile"
  · have e : Invoke stub = accessFile stub stub.args := by simp [Invoke, h7]
    rw [e] at hs ⊢
    obtain ⟨payload, input, transferAsBytes, t, _, _, _, _, hb, hu, _, hres⟩ :=
      accessFile_success hs
    obtain ⟨hm, _⟩ := consistent_record hc hb hu
    subst hm
    rw [hres]
    exact consistent_access hc hb
  · have e : Invoke stub = (shim.Error "Received unknown function invocation", stub) := by
      simp [Invoke, h1, h2, h3, h4, h5, h6, h7]
    rw [e]
    exact hc

theorem reachable_consistent {st : State} (h : Reachable st) : Consistent st := by
  induction h with
  | empty => exact consistent_empty
  | step stub _ hf hs ih => exact Invoke_consistent stub ih hf hs

theorem getQueryResultForQueryString_ok (stub : ChaincodeStub) (queryString : String)
    (kvs : List KV)
    (hq : stub.richQuery (stub.state "collectionFileTransfer") queryString =
      Except.ok (kvs.map Except.ok)) :
    getQueryResultForQueryString stub queryString =
      (Except.ok (referenceArray kvs),
        stub.issue (Call.GetPrivateDataQueryResult "collectionFileTransfer" queryString)) := by
  simp [getQueryResultForQueryString, ChaincodeStub.GetPrivateDataQueryResult, hq,
    queryLoop_reference, referenceArray]

theorem queryLoop_error (kvs : List KV) (err : String) (rest : List (Except String KV))
    (buffer : String) (written : Bool) :
    queryLoop (kvs.map Except.ok ++ Except.error err :: rest) buffer written =
      Except.error err := by
  induction kvs generalizing buffer written with
  | nil => rfl
  | cons kv kvs ih => exact ih _ _

theorem getQueryResultForQueryString_open_error (stub : ChaincodeStub) (queryString : String)
    (err : String)
    (hq : stub.richQuery (stub.state "collectionFileTransfer") queryString =
      Except.error err) :
    getQueryResultForQueryString stub queryString =
      (Except.error err,
        stub.issue (Call.GetPrivateDataQueryResult "collectionFileTransfer" queryString)) := by
  simp [getQueryResultForQueryString, ChaincodeStub.GetPrivateDataQueryResult, hq]

theorem getQueryResultForQueryString_next_error (stub : ChaincodeStub) (queryString : String)
    (kvs : List KV) (err : String) (rest : List (Except String KV))
    (hq : stub.richQuery (stub.state "collectionFileTransfer") queryString =
      Except.ok (kvs.map Except.ok ++ Except.error err :: rest)) :
    getQueryResultForQueryString stub queryString =
      (Except.error err,
        stub.issue (Call.GetPrivateDataQueryResult "collectionFileTransfer" queryString)) := by
  simp [getQueryResultForQueryString, ChaincodeStub.GetPrivateDataQueryResult, hq,
    queryLoop_error]

theorem queryFileTransferByOwner_cons (stub : ChaincodeStub) (arg0 : String)
    (rest : List String) :
    queryFileTransferByOwner stub (arg0 :: rest) =
      match getQueryResultForQueryString stub (ownerQuery arg0) with
      | (Except.error err, stub) => (shim.Error err, stub)
      | (Except.ok queryResults, stub) => (shim.Success (some queryResults), stub) := rfl

theorem queryTransfers_cons (stub : ChaincodeStub) (queryString : String)
    (rest : List String) :
    queryTransfers stub (queryString :: rest) =
      match getQueryResultForQueryString stub queryString with
      | (Except.error err, stub) => (shim.Error err, stub)
      | (Except.ok queryResults, stub) => (shim.Success (some queryResults), stub) := rfl

theorem firstEmptyField_eq_find (input : transferTransientInput) :
    firstEmptyField input = inputFields.find? fun g => decide (input.get g = "") := by
  unfold firstEmptyField
  by_cases c1 : input.Name = ""
  · simp [inputFields, transferTransientInput.get, c1]
  by_cases c2 : input.Description = ""
  · simp [inputFields, transferTransientInput.get, c1, c2]
  by_cases c3 : input.Originator = ""
  · simp [inputFields, transferTransientInput.get, c1, c2, c3]
  by_cases c4 : input.Recipient = ""
  · simp [inputFields, transferTransientInput.get, c1, c2, c3, c4]
  by_cases c5 : input.Authorization = ""
  · simp [inputFields, transferTransientInput.get, c1, c2, c3, c4, c5]
  by_cases c6 : input.Address = ""
  · simp [inputFields, transferTransientInput.get, c1, c2, c3, c4, c5, c6]
  by_cases c7 : input.EncryptionKey = ""
  · simp [inputFields, transferTransientInput.get, c1, c2, c3, c4, c5, c6, c7]
  · simp [inputFields, transferTransientInput.get, c1, c2, c3, c4, c5, c6, c7]

theorem firstEmptyField_iff (input : transferTransientInput) (f : String) :
    firstEmptyField input = some f ↔
      input.get f = "" ∧ ∃ before after, inputFields = before ++ f :: after ∧
        ∀ g ∈ before, input.get g ≠ "" := by
  rw [firstEmptyField_eq_find, List.find?_eq_some]
  simp

theorem findField_access (key g : String)
    (h : json.findField ["name", "hasBeenAccessed"] key = some g) :
    g = "name" ∨ g = "hasBeenAccessed" := by
  have := json.findField_mem h
  simpa using this

theorem decodeMembers_access_without_flag :
    ∀ (ms : List (String × json.Value)) (r0 r : fileAccessTransientInput) (flag : Bool),
      json.decodeMembers ["name", "hasBeenAccessed"] json.setAccessInput ms r0 = some r →
      json.decodeMembers ["name", "hasBeenAccessed"] json.setAccessInput
          (ms.filter fun m =>
            decide (json.findField ["name", "hasBeenAccessed"] m.1 ≠ some "hasBeenAccessed"))
          ⟨r0.Name, flag⟩ =
        some ⟨r.Name, flag⟩
  | [], r0, r, flag, h => by
    simp only [json.decodeMembers, Option.some.injEq] at h
    subst h
    rfl
  | (key, v) :: ms, r0, r, flag, h => by
    simp only [json.decodeMembers] at h
    cases hg : json.findField ["name", "hasBeenAccessed"] key with
    | none =>
      rw [hg] at h
      simp only [List.filter, hg]
      simp only [json.decodeMembers, hg]
      exact decodeMembers_access_without_flag ms r0 r flag h
    | some g =>
      rw [hg] at h
      rcases findField_access key g hg with rfl | rfl
      · cases v with
        | null =>
          simp only [List.filter, hg]
          simp only [json.decodeMembers, hg]
          exact decodeMembers_access_without_flag ms r0 r flag h
        | str s =>
          simp only [json.setAccessInput, json.setString, if_true] at h
          simp +decide only [List.filter, hg]
          simp only [json.decodeMembers, hg, json.setAccessInput, json.setString, if_true]
          exact decodeMembers_access_without_flag ms _ r flag h
        | bool b =>
          simp [json.setAccessInput, json.setString] at h
        | other =>
          simp [json.setAccessInput, json.setString] at h
      · cases v with
        | null =>
          simp +decide only [List.filter, hg]
          exact decodeMembers_access_without_flag ms r0 r flag h
        | str s =>
          simp +decide [json.setAccessInput, json.setBool] at h
        | bool b =>
          simp +decide only [json.setAccessInput, json.setBool] at h
          simp +decide only [List.filter, hg]
          exact decodeMembers_access_without_flag ms ⟨r0.Name, b⟩ r flag h
        | other =>
          simp +decide [json.setAccessInput, json.setBool] at h

theorem accessFile_checks_passed (stub : ChaincodeStub) (payload : Bytes)
    (input : fileAccessTransientInput)
    (ht : stub.transientErr = none)
    (hp : stub.transient.lookup "transfer_flag" = some payload)
    (hd : json.UnmarshalAccessInput payload = Except.ok input)
    (hn : input.Name ≠ "") :
    ∃ rest, (accessFile stub []).2.log =
      stub.log ++ Call.GetTransient ::
        Call.GetPrivateData "collectionFileTransfer" input.Name :: rest := by
  have hpl := payload_ne_empty_of_access hd
  have l1 := mt (length_eq_zero_iff _).1 hn
  cases hg : stub.getErr "collectionFileTransfer" input.Name with
  | some e =>
    exact ⟨[], by
      simp [accessFile, ChaincodeStub.GetTransient, ChaincodeStub.GetPrivateData,
        ChaincodeStub.issue, ht, hp, hpl, hd, l1, hg]⟩
  | none =>
  cases hs : stub.state "collectionFileTransfer" input.Name with
  | none =>
    exact ⟨[], by
      simp [accessFile, ChaincodeStub.GetTransient, ChaincodeStub.GetPrivateData,
        ChaincodeStub.issue, ht, hp, hpl, hd, l1, hg, hs]⟩
  | some b =>
  cases hu : json.UnmarshalTransfer b with
  | error e =>
    exact ⟨[], by
      simp [accessFile, ChaincodeStub.GetTransient, ChaincodeStub.GetPrivateData,
        ChaincodeStub.issue, ht, hp, hpl, hd, l1, hg, hs, hu]⟩
  | ok t =>
    refine ⟨[Call.PutPrivateData "collectionFileTransfer" t.Name
      (json.MarshalTransfer { t with HasBeenAccessed := true })], ?_⟩
    simp only [accessFile, markAccessed_eq]
    by_cases hk : t.Name = ""
    · simp [ChaincodeStub.GetTransient, ChaincodeStub.GetPrivateData,
        ChaincodeStub.PutPrivateData, ChaincodeStub.issue, ht, hp, hpl, hd, l1, hg, hs, hu, hk]
    · cases hput : stub.putErr "collectionFileTransfer" t.Name with
      | some e =>
        simp [ChaincodeStub.GetTransient, ChaincodeStub.GetPrivateData,
          ChaincodeStub.PutPrivateData, ChaincodeStub.issue, ht, hp, hpl, hd, l1, hg, hs, hu,
          hk, hput]
      | none =>
        simp [ChaincodeStub.GetTransient, ChaincodeStub.GetPrivateData,
          ChaincodeStub.PutPrivateData, ChaincodeStub.issue, ht, hp, hpl, hd, l1, hg, hs, hu,
          hk, hput]

theorem delete_noninterference (stub : ChaincodeStub) (st2 : State) (args : List String)
    (hpub : ∀ k, st2 "collectionFileTransfer" k = stub.state "collectionFileTransfer" k) :
    (delete { stub with state := st2 } args).1 = (delete stub args).1 ∧
      ∃ new, (delete stub args).2.log = stub.log ++ new ∧
        ∀ c ∈ new, Call.readsFrom "collectionFileTransferPrivateDetails" c = false := by
  by_cases ha : args.length ≠ 0
  · simp [delete, ChaincodeStub.GetTransient, ChaincodeStub.GetPrivateData,
          ChaincodeStub.PutPrivateData, ChaincodeStub.DelPrivateData,
          ChaincodeStub.issue, ha, hpub, Call.readsFrom]
  have ha1 : args = [] := by
    simpa using ha
  subst ha1
  cases ht : stub.transientErr with
  | some e =>
    simp [delete, ChaincodeStub.GetTransient, ChaincodeStub.GetPrivateData,
          ChaincodeStub.PutPrivateData, ChaincodeStub.DelPrivateData,
          ChaincodeStub.issue, ht, hpub, Call.readsFrom]
  | none =>
  cases hl : stub.transient.lookup "transfer_delete" with
  | none =>
    simp [delete, ChaincodeStub.GetTransient, ChaincodeStub.GetPrivateData,
          ChaincodeStub.PutPrivateData, ChaincodeStub.DelPrivateData,
          ChaincodeStub.issue, ht, hl, hpub, Call.readsFrom]
  | some payload =>
  by_cases hpl : payload.length = 0
  · simp [delete, ChaincodeStub.GetTransient, ChaincodeStub.GetPrivateData,
          ChaincodeStub.PutPrivateData, ChaincodeStub.DelPrivateData,
          ChaincodeStub.issue, ht, hl, hpl, hpub, Call.readsFrom]
  cases hd : json.UnmarshalDeleteInput payload with
  | error e =>
    simp [delete, ChaincodeStub.GetTransient, ChaincodeStub.GetPrivateData,
          ChaincodeStub.PutPrivateData, ChaincodeStub.DelPrivateData,
          ChaincodeStub.issue, ht, hl, hpl, hd, hpub, Call.readsFrom]
  | ok input =>
  by_cases hn : input.Name.length = 0
  · simp [delete, ChaincodeStub.GetTransient, ChaincodeStub.GetPrivateData,
          ChaincodeStub.PutPrivateData, ChaincodeStub.DelPrivateData,
          ChaincodeStub.issue, ht, hl, hpl, hd, hn, hpub, Call.readsFrom]
  cases hg : stub.getErr "collectionFileTransfer" input.Name with
  | some e =>
    simp [delete, ChaincodeStub.GetTransient, ChaincodeStub.GetPrivateData,
          ChaincodeStub.PutPrivateData, ChaincodeStub.DelPrivateData,
          ChaincodeStub.issue, ht, hl, hpl, hd, hn, hg, hpub, Call.readsFrom]
  | none =>
  cases hs : stub.state "collectionFileTransfer" input.Name with
  | none =>
    simp [delete, ChaincodeStub.GetTransient, ChaincodeStub.GetPrivateData,
          ChaincodeStub.PutPrivateData, ChaincodeStub.DelPrivateData,
          ChaincodeStub.issue, ht, hl, hpl, hd, hn, hg, hs, hpub, Call.readsFrom]
  | some valAsbytes =>
  cases hu : json.UnmarshalTransfer valAsbytes with
  | error e =>
    simp [delete, ChaincodeStub.GetTransient, ChaincodeStub.GetPrivateData,
          ChaincodeStub.PutPrivateData, ChaincodeStub.DelPrivateData,
          ChaincodeStub.issue, ht, hl, hpl, hd, hn, hg, hs, hu, hpub, Call.readsFrom]
  | ok t =>
  cases hd1 : stub.delErr "collectionFileTransfer" input.Name with
  | some e =>
    simp [delete, ChaincodeStub.GetTransient, ChaincodeStub.GetPrivateData,
          ChaincodeStub.PutPrivateData, ChaincodeStub.DelPrivateData,
          ChaincodeStub.issue, ht, hl, hpl, hd, hn, hg, hs, hu, hd1, hpub,
          Call.readsFrom]
  | none =>
  cases hk : CreateCompositeKey "authorization~name" [t.Authorization, t.Name] with
  | error e =>
    simp [delete, ChaincodeStub.GetTransient, ChaincodeStub.GetPrivateData,
          ChaincodeStub.PutPrivateData, ChaincodeStub.DelPrivateData,
          ChaincodeStub.issue, ht, hl, hpl, hd, hn, hg, hs, hu, hd1, hk, hpub,
          Call.readsFrom]
  | ok k =>
  cases hd2 : stub.delErr "collectionFileTransfer" k with
  | some e =>
    simp [delete, ChaincodeStub.GetTransient, ChaincodeStub.GetPrivateData,
          ChaincodeStub.PutPrivateData, ChaincodeStub.DelPrivateData,
          ChaincodeStub.issue, ht, hl, hpl, hd, hn, hg, hs, hu, hd1, hk, hd2, hpub,
          Call.readsFrom]
  | none =>
  cases hd3 : stub.delErr "collectionFileTransferPrivateDetails" input.Name with
  | some e =>
    simp [delete, ChaincodeStub.GetTransient, ChaincodeStub.GetPrivateData,
          ChaincodeStub.PutPrivateData, ChaincodeStub.DelPrivateData,
          ChaincodeStub.issue, ht, hl, hpl, hd, hn, hg, hs, hu, hd1, hk, hd2, hd3,
          hpub, Call.readsFrom]
  | none =>
  simp [delete, ChaincodeStub.GetTransient, ChaincodeStub.GetPrivateData,
        ChaincodeStub.PutPrivateData, ChaincodeStub.DelPrivateData,
        ChaincodeStub.issue, ht, hl, hpl, hd, hn, hg, hs, hu, hd1, hk, hd2, hd3, hpub,
        Call.readsFrom]

theorem accessFile_noninterference (stub : ChaincodeStub) (st2 : State) (args : List String)
    (hpub : ∀ k, st2 "collectionFileTransfer" k = stub.state "collectionFileTransfer" k) :
    (accessFile { stub with state := st2 } args).1 = (accessFile stub args).1 ∧
      ∃ new, (accessFile stub args).2.log = stub.log ++ new ∧
        ∀ c ∈ new, Call.readsFrom "collectionFileTransferPrivateDetails" c = false := by
  by_cases ha : args.length ≠ 0
  · simp [accessFile, ChaincodeStub.GetTransient, ChaincodeStub.GetPrivateData,
          ChaincodeStub.PutPrivateData, ChaincodeStub.DelPrivateData,
          ChaincodeStub.issue, ha, hpub, Call.readsFrom]
  have ha1 : args = [] := by
    simpa using ha
  subst ha1
  cases ht : stub.transientErr with
  | some e =>
    simp [accessFile, ChaincodeStub.GetTransient, ChaincodeStub.GetPrivateData,
          ChaincodeStub.PutPrivateData, ChaincodeStub.DelPrivateData,
          ChaincodeStub.issue, ht, hpub, Call.readsFrom]
  | none =>
  cases hl : stub.transient.lookup "transfer_flag" with
  | none =>
    simp [accessFile, ChaincodeStub.GetTransient, ChaincodeStub.GetPrivateData,
          ChaincodeStub.PutPrivateData, ChaincodeStub.DelPrivateData,
          ChaincodeStub.issue, ht, hl, hpub, Call.readsFrom]
  | some payload =>
  by_cases hpl : payload.length = 0
  · simp [accessFile, ChaincodeStub.GetTransient, ChaincodeStub.GetPrivateData,
          ChaincodeStub.PutPrivateData, ChaincodeStub.DelPrivateData,
          ChaincodeStub.issue, ht, hl, hpl, hpub, Call.readsFrom]
  cases hd : json.UnmarshalAccessInput payload with
  | error e =>
    simp [accessFile, ChaincodeStub.GetTransient, ChaincodeStub.GetPrivateData,
          ChaincodeStub.PutPrivateData, ChaincodeStub.DelPrivateData,
          ChaincodeStub.issue, ht, hl, hpl, hd, hpub, Call.readsFrom]
  | ok input =>
  by_cases hn : input.Name.length = 0
  · simp [accessFile, ChaincodeStub.GetTransient, ChaincodeStub.GetPrivateData,
          ChaincodeStub.PutPrivateData, ChaincodeStub.DelPrivateData,
          ChaincodeStub.issue, ht, hl, hpl, hd, hn, hpub, Call.readsFrom]
  cases hg : stub.getErr "collectionFileTransfer" input.Name with
  | some e =>
    simp [accessFile, ChaincodeStub.GetTransient, ChaincodeStub.GetPrivateData,
          ChaincodeStub.PutPrivateData, ChaincodeStub.DelPrivateData,
          ChaincodeStub.issue, ht, hl, hpl, hd, hn, hg, hpub, Call.readsFrom]
  | none =>
  cases hs : stub.state "collectionFileTransfer" input.Name with
  | none =>
    simp [accessFile, ChaincodeStub.GetTransient, ChaincodeStub.GetPrivateData,
          ChaincodeStub.PutPrivateData, ChaincodeStub.DelPrivateData,
          ChaincodeStub.issue, ht, hl, hpl, hd, hn, hg, hs, hpub, Call.readsFrom]
  | some transferAsBytes =>
  cases hu : json.UnmarshalTransfer transferAsBytes with
  | error e =>
    simp [accessFile, ChaincodeStub.GetTransient, ChaincodeStub.GetPrivateData,
          ChaincodeStub.PutPrivateData, ChaincodeStub.DelPrivateData,
          ChaincodeStub.issue, ht, hl, hpl, hd, hn, hg, hs, hu, hpub, Call.readsFrom]
  | ok t =>
  simp only [accessFile, markAccessed_eq]
  by_cases htn : t.Name = ""
  · simp [accessFile, ChaincodeStub.GetTransient, ChaincodeStub.GetPrivateData,
          ChaincodeStub.PutPrivateData, ChaincodeStub.DelPrivateData,
          ChaincodeStub.issue, ht, hl, hpl, hd, hn, hg, hs, hu, htn, hpub,
          Call.readsFrom]
  cases hpe : stub.putErr "collectionFileTransfer" t.Name with
  | some e =>
    simp [accessFile, ChaincodeStub.GetTransient, ChaincodeStub.GetPrivateData,
          ChaincodeStub.PutPrivateData, ChaincodeStub.DelPrivateData,
          ChaincodeStub.issue, ht, hl, hpl, hd, hn, hg, hs, hu, htn, hpe, hpub,
          Call.readsFrom]
  | none =>
  simp [accessFile, ChaincodeStub.GetTransient, ChaincodeStub.GetPrivateData,
        ChaincodeStub.PutPrivateData, ChaincodeStub.DelPrivateData,
        ChaincodeStub.issue, ht, hl, hpl, hd, hn, hg, hs, hu, htn, hpe, hpub,
        Call.readsFrom]

theorem initFileTransfer_noninterference (stub : ChaincodeStub) (st2 : State) (args : List String)
    (hpub : ∀ k, st2 "collectionFileTransfer" k = stub.state "collectionFileTransfer" k) :
    (initFileTransfer { stub with state := st2 } args).1 = (initFileTransfer stub args).1 ∧
      ∃ new, (initFileTransfer stub args).2.log = stub.log ++ new ∧
        ∀ c ∈ new, Call.readsFrom "collectionFileTransferPrivateDetails" c = false := by
  by_cases ha : args.length ≠ 0
  · simp [initFileTransfer, ChaincodeStub.GetTransient, ChaincodeStub.GetPrivateData,
          ChaincodeStub.PutPrivateData, ChaincodeStub.DelPrivateData,
          ChaincodeStub.issue, ha, hpub, Call.readsFrom]
  have ha1 : args = [] := by
    simpa using ha
  subst ha1
  cases ht : stub.transientErr with
  | some e =>
    simp [initFileTransfer, ChaincodeStub.GetTransient, ChaincodeStub.GetPrivateData,
          ChaincodeStub.PutPrivateData, ChaincodeStub.DelPrivateData,
          ChaincodeStub.issue, ht, hpub, Call.readsFrom]
  | none =>
  cases hl : stub.transient.lookup "fileTransfer" with
  | none =>
    simp [initFileTransfer, ChaincodeStub.GetTransient, ChaincodeStub.GetPrivateData,
          ChaincodeStub.PutPrivateData, ChaincodeStub.DelPrivateData,
          ChaincodeStub.issue, ht, hl, hpub, Call.readsFrom]
  | some payload =>
  by_cases hpl : payload.length = 0
  · simp [initFileTransfer, ChaincodeStub.GetTransient, ChaincodeStub.GetPrivateData,
          ChaincodeStub.PutPrivateData, ChaincodeStub.DelPrivateData,
          ChaincodeStub.issue, ht, hl, hpl, hpub, Call.readsFrom]
  cases hd : json.UnmarshalTransferInput payload with
  | error e =>
    simp [initFileTransfer, ChaincodeStub.GetTransient, ChaincodeStub.GetPrivateData,
          ChaincodeStub.PutPrivateData, ChaincodeStub.DelPrivateData,
          ChaincodeStub.issue, ht, hl, hpl, hd, hpub, Call.readsFrom]
  | ok input =>
  by_cases l1 : input.Name.length = 0
  · simp [initFileTransfer, ChaincodeStub.GetTransient, ChaincodeStub.GetPrivateData,
          ChaincodeStub.PutPrivateData, ChaincodeStub.DelPrivateData,
          ChaincodeStub.issue, ht, hl, hpl, hd, l1, hpub, Call.readsFrom]
  by_cases l2 : input.Description.length = 0
  · simp [initFileTransfer, ChaincodeStub.GetTransient, ChaincodeStub.GetPrivateData,
          ChaincodeStub.PutPrivateData, ChaincodeStub.DelPrivateData,
          ChaincodeStub.issue, ht, hl, hpl, hd, l1, l2, hpub, Call.readsFrom]
  by_cases l3 : input.Originator.length = 0
  · simp [initFileTransfer, ChaincodeStub.GetTransient, ChaincodeStub.GetPrivateData,
          ChaincodeStub.PutPrivateData, ChaincodeStub.DelPrivateData,
          ChaincodeStub.issue, ht, hl, hpl, hd, l1, l2, l3, hpub, Call.readsFrom]
  by_cases l4 : input.Recipient.length = 0
  · simp [initFileTransfer, ChaincodeStub.GetTransient, ChaincodeStub.GetPrivateData,
          ChaincodeStub.PutPrivateData, ChaincodeStub.DelPrivateData,
          ChaincodeStub.issue, ht, hl, hpl, hd, l1, l2, l3, l4, hpub, Call.readsFrom]
  by_cases l5 : input.Authorization.length = 0
  · simp [initFileTransfer, ChaincodeStub.GetTransient, ChaincodeStub.GetPrivateData,
          ChaincodeStub.PutPrivateData, ChaincodeStub.DelPrivateData,
          ChaincodeStub.issue, ht, hl, hpl, hd, l1, l2, l3, l4, l5, hpub,
          Call.readsFrom]
  by_cases l6 : input.Address.length = 0
  · simp [initFileTransfer, ChaincodeStub.GetTransient, ChaincodeStub.GetPrivateData,
          ChaincodeStub.PutPrivateData, ChaincodeStub.DelPrivateData,
          ChaincodeStub.issue, ht, hl, hpl, hd, l1, l2, l3, l4, l5, l6, hpub,
          Call.readsFrom]
  by_cases l7 : input.EncryptionKey.length = 0
  · simp [initFileTransfer, ChaincodeStub.GetTransient, ChaincodeStub.GetPrivateData,
          ChaincodeStub.PutPrivateData, ChaincodeStub.DelPrivateData,
          ChaincodeStub.issue, ht, hl, hpl, hd, l1, l2, l3, l4, l5, l6, l7, hpub,
          Call.readsFrom]
  have c1 : input.Name ≠ "" := fun e => l1 ((length_eq_zero_iff _).2 e)
  cases hg : stub.getErr "collectionFileTransfer" input.Name with
  | some e =>
    simp [initFileTransfer, ChaincodeStub.GetTransient, ChaincodeStub.GetPrivateData,
          ChaincodeStub.PutPrivateData, ChaincodeStub.DelPrivateData,
          ChaincodeStub.issue, ht, hl, hpl, hd, l1, l2, l3, l4, l5, l6, l7, c1, hg,
          hpub, Call.readsFrom]
  | none =>
  cases hs : stub.state "collectionFileTransfer" input.Name with
  | some b =>
    simp [initFileTransfer, ChaincodeStub.GetTransient, ChaincodeStub.GetPrivateData,
          ChaincodeStub.PutPrivateData, ChaincodeStub.DelPrivateData,
          ChaincodeStub.issue, ht, hl, hpl, hd, l1, l2, l3, l4, l5, l6, l7, c1, hg, hs,
          hpub, Call.readsFrom]
  | none =>
  cases hp1 : stub.putErr "collectionFileTransfer" input.Name with
  | some e =>
    simp [initFileTransfer, ChaincodeStub.GetTransient, ChaincodeStub.GetPrivateData,
          ChaincodeStub.PutPrivateData, ChaincodeStub.DelPrivateData,
          ChaincodeStub.issue, ht, hl, hpl, hd, l1, l2, l3, l4, l5, l6, l7, c1, hg, hs,
          hp1, hpub, Call.readsFrom]
  | none =>
  cases hp2 : stub.putErr "collectionFileTransferPrivateDetails" input.Name with
  | some e =>
    simp [initFileTransfer, ChaincodeStub.GetTransient, ChaincodeStub.GetPrivateData,
          ChaincodeStub.PutPrivateData, ChaincodeStub.DelPrivateData,
          ChaincodeStub.issue, ht, hl, hpl, hd, l1, l2, l3, l4, l5, l6, l7, c1, hg, hs,
          hp1, hp2, hpub, Call.readsFrom]
  | none =>
  cases hk : CreateCompositeKey "authorization~name" [input.Authorization, input.Name] with
  | error e =>
    simp [initFileTransfer, ChaincodeStub.GetTransient, ChaincodeStub.GetPrivateData,
          ChaincodeStub.PutPrivateData, ChaincodeStub.DelPrivateData,
          ChaincodeStub.issue, ht, hl, hpl, hd, l1, l2, l3, l4, l5, l6, l7, c1, hg, hs,
          hp1, hp2, hk, hpub, Call.readsFrom]
  | ok k =>
  by_cases hke : k = ""
  · simp [initFileTransfer, ChaincodeStub.GetTransient, ChaincodeStub.GetPrivateData,
          ChaincodeStub.PutPrivateData, ChaincodeStub.DelPrivateData,
          ChaincodeStub.issue, ht, hl, hpl, hd, l1, l2, l3, l4, l5, l6, l7, c1, hg, hs,
          hp1, hp2, hk, hke, hpub, Call.readsFrom]
  cases hp3 : stub.putErr "collectionFileTransfer" k with
  | some e =>
    simp [initFileTransfer, ChaincodeStub.GetTransient, ChaincodeStub.GetPrivateData,
          ChaincodeStub.PutPrivateData, ChaincodeStub.DelPrivateData,
          ChaincodeStub.issue, ht, hl, hpl, hd, l1, l2, l3, l4, l5, l6, l7, c1, hg, hs,
          hp1, hp2, hk, hke, hp3, hpub, Call.readsFrom]
  | none =>
  simp [initFileTransfer, ChaincodeStub.GetTransient, ChaincodeStub.GetPrivateData,
        ChaincodeStub.PutPrivateData, ChaincodeStub.DelPrivateData,
        ChaincodeStub.issue, ht, hl, hpl, hd, l1, l2, l3, l4, l5, l6, l7, c1, hg, hs,
        hp1, hp2, hk, hke, hp3, hpub, Call.readsFrom]

theorem readFileTransfer_noninterference (stub : ChaincodeStub) (st2 : State)
    (args : List String)
    (hpub : ∀ k, st2 "collectionFileTransfer" k = stub.state "collectionFileTransfer" k) :
    (readFileTransfer { stub with state := st2 } args).1 = (readFileTransfer stub args).1 ∧
      ∃ new, (readFileTransfer stub args).2.log = stub.log ++ new ∧
        ∀ c ∈ new, Call.readsFrom "collectionFileTransferPrivateDetails" c = false := by
  match args with
  | [] => exact ⟨rfl, [], by simp [readFileTransfer], by simp⟩
  | _ :: _ :: _ => exact ⟨rfl, [], by simp [readFileTransfer], by simp⟩
  | [name] =>
    cases hg : stub.getErr "collectionFileTransfer" name with
    | some e =>
      simp [readFileTransfer, ChaincodeStub.GetPrivateData, ChaincodeStub.issue, hg, hpub,
        Call.readsFrom]
    | none =>
      cases hs : stub.state "collectionFileTransfer" name with
      | none =>
        simp [readFileTransfer, ChaincodeStub.GetPrivateData, ChaincodeStub.issue, hg, hs,
          hpub, Call.readsFrom]
      | some b =>
        simp [readFileTransfer, ChaincodeStub.GetPrivateData, ChaincodeStub.issue, hg, hs,
          hpub, Call.readsFrom]

theorem getQueryResultForQueryString_noninterference (stub : ChaincodeStub) (st2 : State)
    (queryString : String)
    (hpub : ∀ k, st2 "collectionFileTransfer" k = stub.state "collectionFileTransfer" k) :
    (getQueryResultForQueryString { stub with state := st2 } queryString).1 =
        (getQueryResultForQueryString stub queryString).1 ∧
      (getQueryResultForQueryString stub queryString).2.log =
        stub.log ++ [Call.GetPrivateDataQueryResult "collectionFileTransfer" queryString] := by
  have hfun : st2 "collectionFileTransfer" = stub.state "collectionFileTransfer" := funext hpub
  cases hq : stub.richQuery (stub.state "collectionFileTransfer") queryString with
  | error e =>
    simp [getQueryResultForQueryString, ChaincodeStub.GetPrivateDataQueryResult,
      ChaincodeStub.issue, hfun, hq]
  | ok it =>
    cases hl : queryLoop it "[" false with
    | error e =>
      simp [getQueryResultForQueryString, ChaincodeStub.GetPrivateDataQueryResult,
        ChaincodeStub.issue, hfun, hq, hl]
    | ok buffer =>
      simp [getQueryResultForQueryString, ChaincodeStub.GetPrivateDataQueryResult,
        ChaincodeStub.issue, hfun, hq, hl]

theorem queryTransfers_noninterference (stub : ChaincodeStub) (st2 : State)
    (args : List String)
    (hpub : ∀ k, st2 "collectionFileTransfer" k = stub.state "collectionFileTransfer" k) :
    (queryTransfers { stub with state := st2 } args).1 = (queryTransfers stub args).1 ∧
      ∃ new, (queryTransfers stub args).2.log = stub.log ++ new ∧
        ∀ c ∈ new, Call.readsFrom "collectionFileTransferPrivateDetails" c = false := by
  match args with
  | [] => exact ⟨rfl, [], by simp [queryTransfers], by simp⟩
  | q :: rest =>
    obtain ⟨h1, h2⟩ := getQueryResultForQueryString_noninterference stub st2 q hpub
    refine ⟨?_, [Call.GetPrivateDataQueryResult "collectionFileTransfer" q], ?_, ?_⟩
    · simp only [queryTransfers]
      revert h1
      cases getQueryResultForQueryString { stub with state := st2 } q with
      | mk r1 s1 =>
        cases getQueryResultForQueryString stub q with
        | mk r2 s2 =>
          intro h1
          simp only at h1
          subst h1
          cases r1 <;> rfl
    · simp only [queryTransfers]
      revert h2
      cases getQueryResultForQueryString stub q with
      | mk r2 s2 =>
        intro h2
        cases r2 <;> exact h2
    · simp [Call.readsFrom]

theorem queryFileTransferByOwner_noninterference (stub : ChaincodeStub) (st2 : State)
    (args : List String)
    (hpub : ∀ k, st2 "collectionFileTransfer" k = stub.state "collectionFileTransfer" k) :
    (queryFileTransferByOwner { stub with state := st2 } args).1 =
        (queryFileTransferByOwner stub args).1 ∧
      ∃ new, (queryFileTransferByOwner stub args).2.log = stub.log ++ new ∧
        ∀ c ∈ new, Call.readsFrom "collectionFileTransferPrivateDetails" c = false := by
  match args with
  | [] => exact ⟨rfl, [], by simp [queryFileTransferByOwner], by simp⟩
  | arg0 :: rest =>
    obtain ⟨h1, h2⟩ := getQueryResultForQueryString_noninterference stub st2
      ("\x7b\"selector\":\x7b\"docType\":\"transfer\",\"originator\":\"" ++ strings.ToLower arg0 ++
        "\"\x7d\x7d") hpub
    refine ⟨?_, [Call.GetPrivateDataQueryResult "collectionFileTransfer"
      ("\x7b\"selector\":\x7b\"docType\":\"transfer\",\"originator\":\"" ++ strings.ToLower arg0 ++
        "\"\x7d\x7d")], ?_, ?_⟩
    · simp only [queryFileTransferByOwner]
      revert h1
      cases getQueryResultForQueryString { stub with state := st2 }
        ("\x7b\"selector\":\x7b\"docType\":\"transfer\",\"originator\":\"" ++ strings.ToLower arg0 ++
          "\"\x7d\x7d") with
      | mk r1 s1 =>
        cases getQueryResultForQueryString stub
          ("\x7b\"selector\":\x7b\"docType\":\"transfer\",\"originator\":\"" ++
            strings.ToLower arg0 ++ "\"\x7d\x7d") with
        | mk r2 s2 =>
          intro h1
          simp only at h1
          subst h1
          cases r1 <;> rfl
    · simp only [queryFileTransferByOwner]
      revert h2
      cases getQueryResultForQueryString stub
        ("\x7b\"selector\":\x7b\"docType\":\"transfer\",\"originator\":\"" ++ strings.ToLower arg0 ++
          "\"\x7d\x7d") with
      | mk r2 s2 =>
        intro h2
        cases r2 <;> exact h2
    · simp [Call.readsFrom]

theorem readFileTransfer_readOnly (stub : ChaincodeStub) (args : List String) :
    (readFileTransfer stub args).2.state = stub.state ∧
      ∃ new, (readFileTransfer stub args).2.log = stub.log ++ new ∧
        ∀ c ∈ new, Call.isWrite c = false := by
  refine ⟨readFileTransfer_state stub args, ?_⟩
  rcases args with _ | ⟨name, _ | ⟨a, rest⟩⟩
  · exact ⟨[], by simp [readFileTransfer], by simp⟩
  · cases hg : stub.getErr "collectionFileTransfer" name <;>
      cases hs : stub.state "collectionFileTransfer" name <;>
      simp [readFileTransfer, ChaincodeStub.GetPrivateData, ChaincodeStub.issue, hg, hs,
        Call.isWrite]
  · exact ⟨[], by simp [readFileTransfer], by simp⟩

theorem readFileTransferPrivateDetails_readOnly (stub : ChaincodeStub) (args : List String) :
    (readFileTransferPrivateDetails stub args).2.state = stub.state ∧
      ∃ new, (readFileTransferPrivateDetails stub args).2.log = stub.log ++ new ∧
        ∀ c ∈ new, Call.isWrite c = false := by
  refine ⟨readFileTransferPrivateDetails_state stub args, ?_⟩
  rcases args with _ | ⟨name, _ | ⟨a, rest⟩⟩
  · exact ⟨[], by simp [readFileTransferPrivateDetails], by simp⟩
  · cases hg : stub.getErr "collectionFileTransferPrivateDetails" name <;>
      cases hs : stub.state "collectionFileTransferPrivateDetails" name <;>
      simp [readFileTransferPrivateDetails, ChaincodeStub.GetPrivateData, ChaincodeStub.issue,
        hg, hs, Call.isWrite]
  · exact ⟨[], by simp [readFileTransferPrivateDetails], by simp⟩

theorem getQueryResultForQueryString_log (stub : ChaincodeStub) (queryString : String) :
    (getQueryResultForQueryString stub queryString).2.log =
      stub.log ++ [Call.GetPrivateDataQueryResult "collectionFileTransfer" queryString] :=
  (getQueryResultForQueryString_noninterference stub stub.state queryString (fun _ => rfl)).2

theorem queryFileTransferByOwner_readOnly (stub : ChaincodeStub) (args : List String) :
    (queryFileTransferByOwner stub args).2.state = stub.state ∧
      ∃ new, (queryFileTransferByOwner stub args).2.log = stub.log ++ new ∧
        ∀ c ∈ new, Call.isWrite c = false := by
  refine ⟨queryFileTransferByOwner_state stub args, ?_⟩
  rcases args with _ | ⟨arg0, rest⟩
  · exact ⟨[], by simp [queryFileTransferByOwner], by simp⟩
  · refine ⟨[Call.GetPrivateDataQueryResult "collectionFileTransfer" (ownerQuery arg0)], ?_,
      by simp [Call.isWrite]⟩
    have h := getQueryResultForQueryString_log stub (ownerQuery arg0)
    simp only [queryFileTransferByOwner]
    revert h
    unfold ownerQuery
    rcases getQueryResultForQueryString stub _ with ⟨_ | _, s⟩ <;> exact fun h => h

theorem queryTransfers_readOnly (stub : ChaincodeStub) (args : List String) :
    (queryTransfers stub args).2.state = stub.state ∧
      ∃ new, (queryTransfers stub args).2.log = stub.log ++ new ∧
        ∀ c ∈ new, Call.isWrite c = false := by
  refine ⟨queryTransfers_state stub args, ?_⟩
  rcases args with _ | ⟨arg0, rest⟩
  · exact ⟨[], by simp [queryTransfers], by simp⟩
  · refine ⟨[Call.GetPrivateDataQueryResult "collectionFileTransfer" arg0], ?_,
      by simp [Call.isWrite]⟩
    have h := getQueryResultForQueryString_log stub arg0
    simp only [queryTransfers]
    revert h
    rcases getQueryResultForQueryString stub _ with ⟨_ | _, s⟩ <;> exact fun h => h

theorem accessFile_flag_independent (stub : ChaincodeStub)
    (transient1 transient2 : List (String × Bytes)) (payload1 payload2 : Bytes)
    (input1 input2 : fileAccessTransientInput)
    (hp1 : transient1.lookup "transfer_flag" = some payload1)
    (hp2 : transient2.lookup "transfer_flag" = some payload2)
    (hd1 : json.UnmarshalAccessInput payload1 = Except.ok input1)
    (hd2 : json.UnmarshalAccessInput payload2 = Except.ok input2)
    (hn : input1.Name = input2.Name) :
    (accessFile { stub with transient := transient1 } []).1 =
        (accessFile { stub with transient := transient2 } []).1 ∧
      (accessFile { stub with transient := transient1 } []).2.state =
        (accessFile { stub with transient := transient2 } []).2.state ∧
      (accessFile { stub with transient := transient1 } []).2.log =
        (accessFile { stub with transient := transient2 } []).2.log := by
  have hl1 := payload_ne_empty_of_access hd1
  have hl2 := payload_ne_empty_of_access hd2
  cases ht : stub.transientErr with
  | some e =>
    simp [accessFile, ChaincodeStub.GetTransient, ChaincodeStub.GetPrivateData,
          ChaincodeStub.PutPrivateData, ChaincodeStub.DelPrivateData,
          ChaincodeStub.issue, ht, hp1, hp2, hd1, hd2, hl1, hl2, hn]
  | none =>
  by_cases hn0 : input2.Name.length = 0
  · simp [accessFile, ChaincodeStub.GetTransient, ChaincodeStub.GetPrivateData,
          ChaincodeStub.PutPrivateData, ChaincodeStub.DelPrivateData,
          ChaincodeStub.issue, ht, hn0, hp1, hp2, hd1, hd2, hl1, hl2, hn]
  cases hg : stub.getErr "collectionFileTransfer" input2.Name with
  | some e =>
    simp [accessFile, ChaincodeStub.GetTransient, ChaincodeStub.GetPrivateData,
          ChaincodeStub.PutPrivateData, ChaincodeStub.DelPrivateData,
          ChaincodeStub.issue, ht, hn0, hg, hp1, hp2, hd1, hd2, hl1, hl2, hn]
  | none =>
  cases hs : stub.state "collectionFileTransfer" input2.Name with
  | none =>
    simp [accessFile, ChaincodeStub.GetTransient, ChaincodeStub.GetPrivateData,
          ChaincodeStub.PutPrivateData, ChaincodeStub.DelPrivateData,
          ChaincodeStub.issue, ht, hn0, hg, hs, hp1, hp2, hd1, hd2, hl1, hl2, hn]
  | some transferAsBytes =>
  cases hu : json.UnmarshalTransfer transferAsBytes with
  | error e =>
    simp [accessFile, ChaincodeStub.GetTransient, ChaincodeStub.GetPrivateData,
          ChaincodeStub.PutPrivateData, ChaincodeStub.DelPrivateData,
          ChaincodeStub.issue, ht, hn0, hg, hs, hu, hp1, hp2, hd1, hd2, hl1, hl2, hn]
  | ok t =>
  simp only [accessFile, markAccessed_eq]
  by_cases htn : t.Name = ""
  · simp [accessFile, ChaincodeStub.GetTransient, ChaincodeStub.GetPrivateData,
          ChaincodeStub.PutPrivateData, ChaincodeStub.DelPrivateData,
          ChaincodeStub.issue, ht, hn0, hg, hs, hu, htn, hp1, hp2, hd1, hd2, hl1, hl2,
          hn]
  cases hpe : stub.putErr "collectionFileTransfer" t.Name with
  | some e =>
    simp [accessFile, ChaincodeStub.GetTransient, ChaincodeStub.GetPrivateData,
          ChaincodeStub.PutPrivateData, ChaincodeStub.DelPrivateData,
          ChaincodeStub.issue, ht, hn0, hg, hs, hu, htn, hpe, hp1, hp2, hd1, hd2, hl1,
          hl2, hn]
  | none =>
  simp [accessFile, ChaincodeStub.GetTransient, ChaincodeStub.GetPrivateData,
        ChaincodeStub.PutPrivateData, ChaincodeStub.DelPrivateData,
        ChaincodeStub.issue, ht, hn0, hg, hs, hu, htn, hpe, hp1, hp2, hd1, hd2, hl1,
        hl2, hn]

theorem named_empty : Named State.empty :=
  ⟨fun _ _ h => Option.noConfusion h, fun _ _ h => Option.noConfusion h⟩

theorem named_set_none {st : State} (c k : String) (h : Named st) :
    Named (st.set c k none) := by
  constructor
  · intro k1 b hb
    unfold State.set at hb
    split at hb
    · exact Option.noConfusion hb
    · exact h.1 k1 b hb
  · intro k1 d hd
    unfold State.set at hd
    split at hd
    · exact Option.noConfusion hd
    · exact h.2 k1 d hd

theorem named_set_record {st : State} (k : String) (t : fileTransfer) (h : Named st)
    (ht : t.Name = k) :
    Named (st.set "collectionFileTransfer" k (some (json.MarshalTransfer t))) := by
  constructor
  · intro k1 b hb
    unfold State.set at hb
    split at hb
    · rename_i hc
      have e := Option.some.inj hb
      subst e
      exact Or.inr ⟨t, rfl, ht.trans hc.2.symm⟩
    · exact h.1 k1 b hb
  · intro k1 d hd
    unfold State.set at hd
    split at hd
    · rename_i hc
      exact absurd hc.1 collections_ne
    · exact h.2 k1 d hd

theorem named_set_details {st : State} (k : String) (det : fileTransferPrivateDetails)
    (h : Named st) (hd : det.Name = k) :
    Named (st.set "collectionFileTransferPrivateDetails" k
      (some (json.MarshalPrivateDetails det))) := by
  constructor
  · intro k1 b hb
    unfold State.set at hb
    split at hb
    · rename_i hc
      exact absurd hc.1.symm collections_ne
    · exact h.1 k1 b hb
  · intro k1 d hd1
    unfold State.set at hd1
    split at hd1
    · rename_i hc
      have e := Option.some.inj hd1
      subst e
      exact ⟨det, rfl, hd.trans hc.2.symm⟩
    · exact h.2 k1 d hd1

theorem named_set_index {st : State} (k a n : String) (h : Named st)
    (hk : CreateCompositeKey "authorization~name" [a, n] = Except.ok k) :
    Named (st.set "collectionFileTransfer" k (some "\x00")) := by
  constructor
  · intro k1 b hb
    unfold State.set at hb
    split at hb
    · rename_i hc
      have e := Option.some.inj hb
      subst e
      exact Or.inl ⟨rfl, a, n, by rw [hc.2]; exact hk⟩
    · exact h.1 k1 b hb
  · intro k1 d hd
    unfold State.set at hd
    split at hd
    · rename_i hc
      exact absurd hc.1 collections_ne
    · exact h.2 k1 d hd

theorem delete_named (stub : ChaincodeStub) (args : List String)
    (hN : Named stub.state) : Named (delete stub args).2.state := by
  by_cases ha : args.length ≠ 0
  · simp [delete, ChaincodeStub.GetTransient, ChaincodeStub.GetPrivateData,
          ChaincodeStub.PutPrivateData, ChaincodeStub.DelPrivateData,
          ChaincodeStub.issue, ha, hN, named_set_none]
  have ha1 : args = [] := by
    simpa using ha
  subst ha1
  cases ht : stub.transientErr with
  | some e =>
    simp [delete, ChaincodeStub.GetTransient, ChaincodeStub.GetPrivateData,
          ChaincodeStub.PutPrivateData, ChaincodeStub.DelPrivateData,
          ChaincodeStub.issue, ht, hN, named_set_none]
  | none =>
  cases hl : stub.transient.lookup "transfer_delete" with
  | none =>
    simp [delete, ChaincodeStub.GetTransient, ChaincodeStub.GetPrivateData,
          ChaincodeStub.PutPrivateData, ChaincodeStub.DelPrivateData,
          ChaincodeStub.issue, ht, hl, hN, named_set_none]
  | some payload =>
  by_cases hpl : payload.length = 0
  · simp [delete, ChaincodeStub.GetTransient, ChaincodeStub.GetPrivateData,
          ChaincodeStub.PutPrivateData, ChaincodeStub.DelPrivateData,
          ChaincodeStub.issue, ht, hl, hpl, hN, named_set_none]
  cases hd : json.UnmarshalDeleteInput payload with
  | error e =>
    simp [delete, ChaincodeStub.GetTransient, ChaincodeStub.GetPrivateData,
          ChaincodeStub.PutPrivateData, ChaincodeStub.DelPrivateData,
          ChaincodeStub.issue, ht, hl, hpl, hd, hN, named_set_none]
  | ok input =>
  by_cases hn : input.Name.length = 0
  · simp [delete, ChaincodeStub.GetTransient, ChaincodeStub.GetPrivateData,
          ChaincodeStub.PutPrivateData, ChaincodeStub.DelPrivateData,
          ChaincodeStub.issue, ht, hl, hpl, hd, hn, hN, named_set_none]
  cases hg : stub.getErr "collectionFileTransfer" input.Name with
  | some e =>
    simp [delete, ChaincodeStub.GetTransient, ChaincodeStub.GetPrivateData,
          ChaincodeStub.PutPrivateData, ChaincodeStub.DelPrivateData,
          ChaincodeStub.issue, ht, hl, hpl, hd, hn, hg, hN, named_set_none]
  | none =>
  cases hs : stub.state "collectionFileTransfer" input.Name with
  | none =>
    simp [delete, ChaincodeStub.GetTransient, ChaincodeStub.GetPrivateData,
          ChaincodeStub.PutPrivateData, ChaincodeStub.DelPrivateData,
          ChaincodeStub.issue, ht, hl, hpl, hd, hn, hg, hs, hN, named_set_none]
  | some valAsbytes =>
  cases hu : json.UnmarshalTransfer valAsbytes with
  | error e =>
    simp [delete, ChaincodeStub.GetTransient, ChaincodeStub.GetPrivateData,
          ChaincodeStub.PutPrivateData, ChaincodeStub.DelPrivateData,
          ChaincodeStub.issue, ht, hl, hpl, hd, hn, hg, hs, hu, hN, named_set_none]
  | ok t =>
  cases hd1 : stub.delErr "collectionFileTransfer" input.Name with
  | some e =>
    simp [delete, ChaincodeStub.GetTransient, ChaincodeStub.GetPrivateData,
          ChaincodeStub.PutPrivateData, ChaincodeStub.DelPrivateData,
          ChaincodeStub.issue, ht, hl, hpl, hd, hn, hg, hs, hu, hd1, hN,
          named_set_none]
  | none =>
  cases hk : CreateCompositeKey "authorization~name" [t.Authorization, t.Name] with
  | error e =>
    simp [delete, ChaincodeStub.GetTransient, ChaincodeStub.GetPrivateData,
          ChaincodeStub.PutPrivateData, ChaincodeStub.DelPrivateData,
          ChaincodeStub.issue, ht, hl, hpl, hd, hn, hg, hs, hu, hd1, hk, hN,
          named_set_none]
  | ok k =>
  cases hd2 : stub.delErr "collectionFileTransfer" k with
  | some e =>
    simp [delete, ChaincodeStub.GetTransient, ChaincodeStub.GetPrivateData,
          ChaincodeStub.PutPrivateData, ChaincodeStub.DelPrivateData,
          ChaincodeStub.issue, ht, hl, hpl, hd, hn, hg, hs, hu, hd1, hk, hd2, hN,
          named_set_none]
  | none =>
  cases hd3 : stub.delErr "collectionFileTransferPrivateDetails" input.Name with
  | some e =>
    simp [delete, ChaincodeStub.GetTransient, ChaincodeStub.GetPrivateData,
          ChaincodeStub.PutPrivateData, ChaincodeStub.DelPrivateData,
          ChaincodeStub.issue, ht, hl, hpl, hd, hn, hg, hs, hu, hd1, hk, hd2, hd3, hN,
          named_set_none]
  | none =>
  simp [delete, ChaincodeStub.GetTransient, ChaincodeStub.GetPrivateData,
        ChaincodeStub.PutPrivateData, ChaincodeStub.DelPrivateData,
        ChaincodeStub.issue, ht, hl, hpl, hd, hn, hg, hs, hu, hd1, hk, hd2, hd3, hN,
        named_set_none]
  exact named_set_none _ _ (named_set_none _ _ (named_set_none _ _ hN))

theorem accessFile_named (stub : ChaincodeStub) (args : List String)
    (hN : Named stub.state) : Named (accessFile stub args).2.state := by
  by_cases ha : args.length ≠ 0
  · simp [accessFile, ChaincodeStub.GetTransient, ChaincodeStub.GetPrivateData,
          ChaincodeStub.PutPrivateData, ChaincodeStub.DelPrivateData,
          ChaincodeStub.issue, ha, hN]
  have ha1 : args = [] := by
    simpa using ha
  subst ha1
  cases ht : stub.transientErr with
  | some e =>
    simp [accessFile, ChaincodeStub.GetTransient, ChaincodeStub.GetPrivateData,
          ChaincodeStub.PutPrivateData, ChaincodeStub.DelPrivateData,
          ChaincodeStub.issue, ht, hN]
  | none =>
  cases hl : stub.transient.lookup "transfer_flag" with
  | none =>
    simp [accessFile, ChaincodeStub.GetTransient, ChaincodeStub.GetPrivateData,
          ChaincodeStub.PutPrivateData, ChaincodeStub.DelPrivateData,
          ChaincodeStub.issue, ht, hl, hN]
  | some payload =>
  by_cases hpl : payload.length = 0
  · simp [accessFile, ChaincodeStub.GetTransient, ChaincodeStub.GetPrivateData,
          ChaincodeStub.PutPrivateData, ChaincodeStub.DelPrivateData,
          ChaincodeStub.issue, ht, hl, hpl, hN]
  cases hd : json.UnmarshalAccessInput payload with
  | error e =>
    simp [accessFile, ChaincodeStub.GetTransient, ChaincodeStub.GetPrivateData,
          ChaincodeStub.PutPrivateData, ChaincodeStub.DelPrivateData,
          ChaincodeStub.issue, ht, hl, hpl, hd, hN]
  | ok input =>
  by_cases hn : input.Name.length = 0
  · simp [accessFile, ChaincodeStub.GetTransient, ChaincodeStub.GetPrivateData,
          ChaincodeStub.PutPrivateData, ChaincodeStub.DelPrivateData,
          ChaincodeStub.issue, ht, hl, hpl, hd, hn, hN]
  cases hg : stub.getErr "collectionFileTransfer" input.Name with
  | some e =>
    simp [accessFile, ChaincodeStub.GetTransient, ChaincodeStub.GetPrivateData,
          ChaincodeStub.PutPrivateData, ChaincodeStub.DelPrivateData,
          ChaincodeStub.issue, ht, hl, hpl, hd, hn, hg, hN]
  | none =>
  cases hs : stub.state "collectionFileTransfer" input.Name with
  | none =>
    simp [accessFile, ChaincodeStub.GetTransient, ChaincodeStub.GetPrivateData,
          ChaincodeStub.PutPrivateData, ChaincodeStub.DelPrivateData,
          ChaincodeStub.issue, ht, hl, hpl, hd, hn, hg, hs, hN]
  | some transferAsBytes =>
  cases hu : json.UnmarshalTransfer transferAsBytes with
  | error e =>
    simp [accessFile, ChaincodeStub.GetTransient, ChaincodeStub.GetPrivateData,
          ChaincodeStub.PutPrivateData, ChaincodeStub.DelPrivateData,
          ChaincodeStub.issue, ht, hl, hpl, hd, hn, hg, hs, hu, hN]
  | ok t =>
  simp only [accessFile, markAccessed_eq]
  by_cases htn : t.Name = ""
  · simp [accessFile, ChaincodeStub.GetTransient, ChaincodeStub.GetPrivateData,
          ChaincodeStub.PutPrivateData, ChaincodeStub.DelPrivateData,
          ChaincodeStub.issue, ht, hl, hpl, hd, hn, hg, hs, hu, htn, hN]
  cases hpe : stub.putErr "collectionFileTransfer" t.Name with
  | some e =>
    simp [accessFile, ChaincodeStub.GetTransient, ChaincodeStub.GetPrivateData,
          ChaincodeStub.PutPrivateData, ChaincodeStub.DelPrivateData,
          ChaincodeStub.issue, ht, hl, hpl, hd, hn, hg, hs, hu, htn, hpe, hN]
  | none =>
  simp [accessFile, ChaincodeStub.GetTransient, ChaincodeStub.GetPrivateData,
        ChaincodeStub.PutPrivateData, ChaincodeStub.DelPrivateData,
        ChaincodeStub.issue, ht, hl, hpl, hd, hn, hg, hs, hu, htn, hpe, hN]
  exact named_set_record _ _ hN rfl

theorem initFileTransfer_named (stub : ChaincodeStub) (args : List String)
    (hN : Named stub.state) : Named (initFileTransfer stub args).2.state := by
  by_cases ha : args.length ≠ 0
  · simp [initFileTransfer, ChaincodeStub.GetTransient, ChaincodeStub.GetPrivateData,
          ChaincodeStub.PutPrivateData, ChaincodeStub.DelPrivateData,
          ChaincodeStub.issue, ha, hN]
  have ha1 : args = [] := by
    simpa using ha
  subst ha1
  cases ht : stub.transientErr with
  | some e =>
    simp [initFileTransfer, ChaincodeStub.GetTransient, ChaincodeStub.GetPrivateData,
          ChaincodeStub.PutPrivateData, ChaincodeStub.DelPrivateData,
          ChaincodeStub.issue, ht, hN]
  | none =>
  cases hl : stub.transient.lookup "fileTransfer" with
  | none =>
    simp [initFileTransfer, ChaincodeStub.GetTransient, ChaincodeStub.GetPrivateData,
          ChaincodeStub.PutPrivateData, ChaincodeStub.DelPrivateData,
          ChaincodeStub.issue, ht, hl, hN]
  | some payload =>
  by_cases hpl : payload.length = 0
  · simp [initFileTransfer, ChaincodeStub.GetTransient, ChaincodeStub.GetPrivateData,
          ChaincodeStub.PutPrivateData, ChaincodeStub.DelPrivateData,
          ChaincodeStub.issue, ht, hl, hpl, hN]
  cases hd : json.UnmarshalTransferInput payload with
  | error e =>
    simp [initFileTransfer, ChaincodeStub.GetTransient, ChaincodeStub.GetPrivateData,
          ChaincodeStub.PutPrivateData, ChaincodeStub.DelPrivateData,
          ChaincodeStub.issue, ht, hl, hpl, hd, hN]
  | ok input =>
  by_cases l1 : input.Name.length = 0
  · simp [initFileTransfer, ChaincodeStub.GetTransient, ChaincodeStub.GetPrivateData,
          ChaincodeStub.PutPrivateData, ChaincodeStub.DelPrivateData,
          ChaincodeStub.issue, ht, hl, hpl, hd, l1, hN]
  by_cases l2 : input.Description.length = 0
  · simp [initFileTransfer, ChaincodeStub.GetTransient, ChaincodeStub.GetPrivateData,
          ChaincodeStub.PutPrivateData, ChaincodeStub.DelPrivateData,
          ChaincodeStub.issue, ht, hl, hpl, hd, l1, l2, hN]
  by_cases l3 : input.Originator.length = 0
  · simp [initFileTransfer, ChaincodeStub.GetTransient, ChaincodeStub.GetPrivateData,
          ChaincodeStub.PutPrivateData, ChaincodeStub.DelPrivateData,
          ChaincodeStub.issue, ht, hl, hpl, hd, l1, l2, l3, hN]
  by_cases l4 : input.Recipient.length = 0
  · simp [initFileTransfer, ChaincodeStub.GetTransient, ChaincodeStub.GetPrivateData,
          ChaincodeStub.PutPrivateData, ChaincodeStub.DelPrivateData,
          ChaincodeStub.issue, ht, hl, hpl, hd, l1, l2, l3, l4, hN]
  by_cases l5 : input.Authorization.length = 0
  · simp [initFileTransfer, ChaincodeStub.GetTransient, ChaincodeStub.GetPrivateData,
          ChaincodeStub.PutPrivateData, ChaincodeStub.DelPrivateData,
          ChaincodeStub.issue, ht, hl, hpl, hd, l1, l2, l3, l4, l5, hN]
  by_cases l6 : input.Address.length = 0
  · simp [initFileTransfer, ChaincodeStub.GetTransient, ChaincodeStub.GetPrivateData,
          ChaincodeStub.PutPrivateData, ChaincodeStub.DelPrivateData,
          ChaincodeStub.issue, ht, hl, hpl, hd, l1, l2, l3, l4, l5, l6, hN]
  by_cases l7 : input.EncryptionKey.length = 0
  · simp [initFileTransfer, ChaincodeStub.GetTransient, ChaincodeStub.GetPrivateData,
          ChaincodeStub.PutPrivateData, ChaincodeStub.DelPrivateData,
          ChaincodeStub.issue, ht, hl, hpl, hd, l1, l2, l3, l4, l5, l6, l7, hN]
  have c1 : input.Name ≠ "" := fun e => l1 ((length_eq_zero_iff _).2 e)
  cases hg : stub.getErr "collectionFileTransfer" input.Name with
  | some e =>
    simp [initFileTransfer, ChaincodeStub.GetTransient, ChaincodeStub.GetPrivateData,
          ChaincodeStub.PutPrivateData, ChaincodeStub.DelPrivateData,
          ChaincodeStub.issue, ht, hl, hpl, hd, l1, l2, l3, l4, l5, l6, l7, c1, hg, hN]
  | none =>
  cases hs : stub.state "collectionFileTransfer" input.Name with
  | some b =>
    simp [initFileTransfer, ChaincodeStub.GetTransient, ChaincodeStub.GetPrivateData,
          ChaincodeStub.PutPrivateData, ChaincodeStub.DelPrivateData,
          ChaincodeStub.issue, ht, hl, hpl, hd, l1, l2, l3, l4, l5, l6, l7, c1, hg, hs,
          hN]
  | none =>
  cases hp1 : stub.putErr "collectionFileTransfer" input.Name with
  | some e =>
    simp [initFileTransfer, ChaincodeStub.GetTransient, ChaincodeStub.GetPrivateData,
          ChaincodeStub.PutPrivateData, ChaincodeStub.DelPrivateData,
          ChaincodeStub.issue, ht, hl, hpl, hd, l1, l2, l3, l4, l5, l6, l7, c1, hg, hs,
          hp1, hN]
  | none =>
  cases hp2 : stub.putErr "collectionFileTransferPrivateDetails" input.Name with
  | some e =>
    simp [initFileTransfer, ChaincodeStub.GetTransient, ChaincodeStub.GetPrivateData,
          ChaincodeStub.PutPrivateData, ChaincodeStub.DelPrivateData,
          ChaincodeStub.issue, ht, hl, hpl, hd, l1, l2, l3, l4, l5, l6, l7, c1, hg, hs,
          hp1, hp2, hN]
    exact named_set_record _ _ hN rfl
  | none =>
  cases hk : CreateCompositeKey "authorization~name" [input.Authorization, input.Name] with
  | error e =>
    simp [initFileTransfer, ChaincodeStub.GetTransient, ChaincodeStub.GetPrivateData,
          ChaincodeStub.PutPrivateData, ChaincodeStub.DelPrivateData,
          ChaincodeStub.issue, ht, hl, hpl, hd, l1, l2, l3, l4, l5, l6, l7, c1, hg, hs,
          hp1, hp2, hk, hN]
    exact named_set_details _ _ (named_set_record _ _ hN rfl) rfl
  | ok k =>
  by_cases hke : k = ""
  · simp [initFileTransfer, ChaincodeStub.GetTransient, ChaincodeStub.GetPrivateData,
          ChaincodeStub.PutPrivateData, ChaincodeStub.DelPrivateData,
          ChaincodeStub.issue, ht, hl, hpl, hd, l1, l2, l3, l4, l5, l6, l7, c1, hg, hs,
          hp1, hp2, hk, hke, hN]
    exact named_set_details _ _ (named_set_record _ _ hN rfl) rfl
  cases hp3 : stub.putErr "collectionFileTransfer" k with
  | some e =>
    simp [initFileTransfer, ChaincodeStub.GetTransient, ChaincodeStub.GetPrivateData,
          ChaincodeStub.PutPrivateData, ChaincodeStub.DelPrivateData,
          ChaincodeStub.issue, ht, hl, hpl, hd, l1, l2, l3, l4, l5, l6, l7, c1, hg, hs,
          hp1, hp2, hk, hke, hp3, hN]
    exact named_set_details _ _ (named_set_record _ _ hN rfl) rfl
  | none =>
  simp [initFileTransfer, ChaincodeStub.GetTransient, ChaincodeStub.GetPrivateData,
        ChaincodeStub.PutPrivateData, ChaincodeStub.DelPrivateData,
        ChaincodeStub.issue, ht, hl, hpl, hd, l1, l2, l3, l4, l5, l6, l7, c1, hg, hs,
        hp1, hp2, hk, hke, hp3, hN]
  exact named_set_index _ _ _ (named_set_details _ _ (named_set_record _ _ hN rfl) rfl) hk

theorem Invoke_named (stub : ChaincodeStub) (hN : Named stub.state) :
    Named (Invoke stub).2.state := by
  unfold Invoke
  simp only
  split
  · exact initFileTransfer_named _ _ hN
  split
  · rw [readFileTransfer_state]; exact hN
  split
  · rw [readFileTransferPrivateDetails_state]; exact hN
  split
  · exact delete_named _ _ hN
  split
  · rw [queryFileTransferByOwner_state]; exact hN
  split
  · rw [queryTransfers_state]; exact hN
  split
  · exact accessFile_named _ _ hN
  · exact hN

theorem reachableByInvocations_named {st : State} (h : ReachableByInvocations st) :
    Named st := by
  induction h with
  | empty => exact named_empty
  | step stub _ ih => exact Invoke_named stub ih

theorem accessFile_writes_back (stub : ChaincodeStub) (args : List String)
    (hN : Named stub.state) :
    ∃ new, (accessFile stub args).2.log = stub.log ++ new ∧
      ∀ c k v, Call.PutPrivateData c k v ∈ new → Call.GetPrivateData c k ∈ new := by
  by_cases ha : args.length ≠ 0
  · simp [accessFile, ChaincodeStub.GetTransient, ChaincodeStub.GetPrivateData,
          ChaincodeStub.PutPrivateData, ChaincodeStub.DelPrivateData,
          ChaincodeStub.issue, ha]
  have ha1 : args = [] := by
    simpa using ha
  subst ha1
  cases ht : stub.transientErr with
  | some e =>
    simp [accessFile, ChaincodeStub.GetTransient, ChaincodeStub.GetPrivateData,
          ChaincodeStub.PutPrivateData, ChaincodeStub.DelPrivateData,
          ChaincodeStub.issue, ht]
  | none =>
  cases hl : stub.transient.lookup "transfer_flag" with
  | none =>
    simp [accessFile, ChaincodeStub.GetTransient, ChaincodeStub.GetPrivateData,
          ChaincodeStub.PutPrivateData, ChaincodeStub.DelPrivateData,
          ChaincodeStub.issue, ht, hl]
  | some payload =>
  by_cases hpl : payload.length = 0
  · simp [accessFile, ChaincodeStub.GetTransient, ChaincodeStub.GetPrivateData,
          ChaincodeStub.PutPrivateData, ChaincodeStub.DelPrivateData,
          ChaincodeStub.issue, ht, hl, hpl]
  cases hd : json.UnmarshalAccessInput payload with
  | error e =>
    simp [accessFile, ChaincodeStub.GetTransient, ChaincodeStub.GetPrivateData,
          ChaincodeStub.PutPrivateData, ChaincodeStub.DelPrivateData,
          ChaincodeStub.issue, ht, hl, hpl, hd]
  | ok input =>
  by_cases hn : input.Name.length = 0
  · simp [accessFile, ChaincodeStub.GetTransient, ChaincodeStub.GetPrivateData,
          ChaincodeStub.PutPrivateData, ChaincodeStub.DelPrivateData,
          ChaincodeStub.issue, ht, hl, hpl, hd, hn]
  cases hg : stub.getErr "collectionFileTransfer" input.Name with
  | some e =>
    simp [accessFile, ChaincodeStub.GetTransient, ChaincodeStub.GetPrivateData,
          ChaincodeStub.PutPrivateData, ChaincodeStub.DelPrivateData,
          ChaincodeStub.issue, ht, hl, hpl, hd, hn, hg]
  | none =>
  cases hs : stub.state "collectionFileTransfer" input.Name with
  | none =>
    simp [accessFile, ChaincodeStub.GetTransient, ChaincodeStub.GetPrivateData,
          ChaincodeStub.PutPrivateData, ChaincodeStub.DelPrivateData,
          ChaincodeStub.issue, ht, hl, hpl, hd, hn, hg, hs]
  | some transferAsBytes =>
  cases hu : json.UnmarshalTransfer transferAsBytes with
  | error e =>
    simp [accessFile, ChaincodeStub.GetTransient, ChaincodeStub.GetPrivateData,
          ChaincodeStub.PutPrivateData, ChaincodeStub.DelPrivateData,
          ChaincodeStub.issue, ht, hl, hpl, hd, hn, hg, hs, hu]
  | ok t =>
  have hkey : t.Name = input.Name := by
    rcases hN.1 _ _ hs with ⟨h0, -⟩ | ⟨t0, h0, h1⟩
    · rw [h0, UnmarshalTransfer_sentinel] at hu
      exact Except.noConfusion hu
    · rw [h0, json.UnmarshalTransfer_MarshalTransfer] at hu
      rw [← Except.ok.inj hu]
      exact h1
  simp only [accessFile, markAccessed_eq]
  have c1 : input.Name ≠ "" := fun e => hn ((length_eq_zero_iff _).2 e)
  cases hpe : stub.putErr "collectionFileTransfer" input.Name with
  | some e =>
    simp [accessFile, ChaincodeStub.GetTransient, ChaincodeStub.GetPrivateData,
          ChaincodeStub.PutPrivateData, ChaincodeStub.DelPrivateData,
          ChaincodeStub.issue, ht, hl, hpl, hd, hn, hg, hs, hu, hkey, c1, hpe]
    exact fun c k v h1 h2 _ => ⟨h1, h2⟩
  | none =>
  simp [accessFile, ChaincodeStub.GetTransient, ChaincodeStub.GetPrivateData,
        ChaincodeStub.PutPrivateData, ChaincodeStub.DelPrivateData,
        ChaincodeStub.issue, ht, hl, hpl, hd, hn, hg, hs, hu, hkey, c1, hpe]
  exact fun c k v h1 h2 _ => ⟨h1, h2⟩

theorem initFileTransfer_payload_none (stub : ChaincodeStub) (args : List String) :
    (initFileTransfer stub args).1.Payload = none := by
  by_cases ha : args.length ≠ 0
  · simp [initFileTransfer, ChaincodeStub.GetTransient, ChaincodeStub.GetPrivateData,
          ChaincodeStub.PutPrivateData, ChaincodeStub.DelPrivateData,
          ChaincodeStub.issue, ha, shim.Error, shim.Success]
  have ha1 : args = [] := by
    simpa using ha
  subst ha1
  cases ht : stub.transientErr with
  | some e =>
    simp [initFileTransfer, ChaincodeStub.GetTransient, ChaincodeStub.GetPrivateData,
          ChaincodeStub.PutPrivateData, ChaincodeStub.DelPrivateData,
          ChaincodeStub.issue, ht, shim.Error, shim.Success]
  | none =>
  cases hl : stub.transient.lookup "fileTransfer" with
  | none =>
    simp [initFileTransfer, ChaincodeStub.GetTransient, ChaincodeStub.GetPrivateData,
          ChaincodeStub.PutPrivateData, ChaincodeStub.DelPrivateData,
          ChaincodeStub.issue, ht, hl, shim.Error, shim.Success]
  | some payload =>
  by_cases hpl : payload.length = 0
  · simp [initFileTransfer, ChaincodeStub.GetTransient, ChaincodeStub.GetPrivateData,
          ChaincodeStub.PutPrivateData, ChaincodeStub.DelPrivateData,
          ChaincodeStub.issue, ht, hl, hpl, shim.Error, shim.Success]
  cases hd : json.UnmarshalTransferInput payload with
  | error e =>
    simp [initFileTransfer, ChaincodeStub.GetTransient, ChaincodeStub.GetPrivateData,
          ChaincodeStub.PutPrivateData, ChaincodeStub.DelPrivateData,
          ChaincodeStub.issue, ht, hl, hpl, hd, shim.Error, shim.Success]
  | ok input =>
  by_cases l1 : input.Name.length = 0
  · simp [initFileTransfer, ChaincodeStub.GetTransient, ChaincodeStub.GetPrivateData,
          ChaincodeStub.PutPrivateData, ChaincodeStub.DelPrivateData,
          ChaincodeStub.issue, ht, hl, hpl, hd, l1, shim.Error, shim.Success]
  by_cases l2 : input.Description.length = 0
  · simp [initFileTransfer, ChaincodeStub.GetTransient, ChaincodeStub.GetPrivateData,
          ChaincodeStub.PutPrivateData, ChaincodeStub.DelPrivateData,
          ChaincodeStub.issue, ht, hl, hpl, hd, l1, l2, shim.Error, shim.Success]
  by_cases l3 : input.Originator.length = 0
  · simp [initFileTransfer, ChaincodeStub.GetTransient, ChaincodeStub.GetPrivateData,
          ChaincodeStub.PutPrivateData, ChaincodeStub.DelPrivateData,
          ChaincodeStub.issue, ht, hl, hpl, hd, l1, l2, l3, shim.Error, shim.Success]
  by_cases l4 : input.Recipient.length = 0
  · simp [initFileTransfer, ChaincodeStub.GetTransient, ChaincodeStub.GetPrivateData,
          ChaincodeStub.PutPrivateData, ChaincodeStub.DelPrivateData,
          ChaincodeStub.issue, ht, hl, hpl, hd, l1, l2, l3, l4, shim.Error,
          shim.Success]
  by_cases l5 : input.Authorization.length = 0
  · simp [initFileTransfer, ChaincodeStub.GetTransient, ChaincodeStub.GetPrivateData,
          ChaincodeStub.PutPrivateData, ChaincodeStub.DelPrivateData,
          ChaincodeStub.issue, ht, hl, hpl, hd, l1, l2, l3, l4, l5, shim.Error,
          shim.Success]
  by_cases l6 : input.Address.length = 0
  · simp [initFileTransfer, ChaincodeStub.GetTransient, ChaincodeStub.GetPrivateData,
          ChaincodeStub.PutPrivateData, ChaincodeStub.DelPrivateData,
          ChaincodeStub.issue, ht, hl, hpl, hd, l1, l2, l3, l4, l5, l6, shim.Error,
          shim.Success]
  by_cases l7 : input.EncryptionKey.length = 0
  · simp [initFileTransfer, ChaincodeStub.GetTransient, ChaincodeStub.GetPrivateData,
          ChaincodeStub.PutPrivateData, ChaincodeStub.DelPrivateData,
          ChaincodeStub.issue, ht, hl, hpl, hd, l1, l2, l3, l4, l5, l6, l7, shim.Error,
          shim.Success]
  have c1 : input.Name ≠ "" := fun e => l1 ((length_eq_zero_iff _).2 e)
  cases hg : stub.getErr "collectionFileTransfer" input.Name with
  | some e =>
    simp [initFileTransfer, ChaincodeStub.GetTransient, ChaincodeStub.GetPrivateData,
          ChaincodeStub.PutPrivateData, ChaincodeStub.DelPrivateData,
          ChaincodeStub.issue, ht, hl, hpl, hd, l1, l2, l3, l4, l5, l6, l7, c1, hg,
          shim.Error, shim.Success]
  | none =>
  cases hs : stub.state "collectionFileTransfer" input.Name with
  | some b =>
    simp [initFileTransfer, ChaincodeStub.GetTransient, ChaincodeStub.GetPrivateData,
          ChaincodeStub.PutPrivateData, ChaincodeStub.DelPrivateData,
          ChaincodeStub.issue, ht, hl, hpl, hd, l1, l2, l3, l4, l5, l6, l7, c1, hg, hs,
          shim.Error, shim.Success]
  | none =>
  cases hp1 : stub.putErr "collectionFileTransfer" input.Name with
  | some e =>
    simp [initFileTransfer, ChaincodeStub.GetTransient, ChaincodeStub.GetPrivateData,
          ChaincodeStub.PutPrivateData, ChaincodeStub.DelPrivateData,
          ChaincodeStub.issue, ht, hl, hpl, hd, l1, l2, l3, l4, l5, l6, l7, c1, hg, hs,
          hp1, shim.Error, shim.Success]
  | none =>
  cases hp2 : stub.putErr "collectionFileTransferPrivateDetails" input.Name with
  | some e =>
    simp [initFileTransfer, ChaincodeStub.GetTransient, ChaincodeStub.GetPrivateData,
          ChaincodeStub.PutPrivateData, ChaincodeStub.DelPrivateData,
          ChaincodeStub.issue, ht, hl, hpl, hd, l1, l2, l3, l4, l5, l6, l7, c1, hg, hs,
          hp1, hp2, shim.Error, shim.Success]
  | none =>
  cases hk : CreateCompositeKey "authorization~name" [input.Authorization, input.Name] with
  | error e =>
    simp [initFileTransfer, ChaincodeStub.GetTransient, ChaincodeStub.GetPrivateData,
          ChaincodeStub.PutPrivateData, ChaincodeStub.DelPrivateData,
          ChaincodeStub.issue, ht, hl, hpl, hd, l1, l2, l3, l4, l5, l6, l7, c1, hg, hs,
          hp1, hp2, hk, shim.Error, shim.Success]
  | ok k =>
  by_cases hke : k = ""
  · simp [initFileTransfer, ChaincodeStub.GetTransient, ChaincodeStub.GetPrivateData,
          ChaincodeStub.PutPrivateData, ChaincodeStub.DelPrivateData,
          ChaincodeStub.issue, ht, hl, hpl, hd, l1, l2, l3, l4, l5, l6, l7, c1, hg, hs,
          hp1, hp2, hk, hke, shim.Error, shim.Success]
  cases hp3 : stub.putErr "collectionFileTransfer" k with
  | some e =>
    simp [initFileTransfer, ChaincodeStub.GetTransient, ChaincodeStub.GetPrivateData,
          ChaincodeStub.PutPrivateData, ChaincodeStub.DelPrivateData,
          ChaincodeStub.issue, ht, hl, hpl, hd, l1, l2, l3, l4, l5, l6, l7, c1, hg, hs,
          hp1, hp2, hk, hke, hp3, shim.Error, shim.Success]
  | none =>
  simp [initFileTransfer, ChaincodeStub.GetTransient, ChaincodeStub.GetPrivateData,
        ChaincodeStub.PutPrivateData, ChaincodeStub.DelPrivateData,
        ChaincodeStub.issue, ht, hl, hpl, hd, l1, l2, l3, l4, l5, l6, l7, c1, hg, hs,
        hp1, hp2, hk, hke, hp3, shim.Error, shim.Success]

theorem delete_payload_none (stub : ChaincodeStub) (args : List String) :
    (delete stub args).1.Payload = none := by
  by_cases ha : args.length ≠ 0
  · simp [delete, ChaincodeStub.GetTransient, ChaincodeStub.GetPrivateData,
          ChaincodeStub.PutPrivateData, ChaincodeStub.DelPrivateData,
          ChaincodeStub.issue, ha, shim.Error, shim.Success]
  have ha1 : args = [] := by
    simpa using ha
  subst ha1
  cases ht : stub.transientErr with
  | some e =>
    simp [delete, ChaincodeStub.GetTransient, ChaincodeStub.GetPrivateData,
          ChaincodeStub.PutPrivateData, ChaincodeStub.DelPrivateData,
          ChaincodeStub.issue, ht, shim.Error, shim.Success]
  | none =>
  cases hl : stub.transient.lookup "transfer_delete" with
  | none =>
    simp [delete, ChaincodeStub.GetTransient, ChaincodeStub.GetPrivateData,
          ChaincodeStub.PutPrivateData, ChaincodeStub.DelPrivateData,
          ChaincodeStub.issue, ht, hl, shim.Error, shim.Success]
  | some payload =>
  by_cases hpl : payload.length = 0
  · simp [delete, ChaincodeStub.GetTransient, ChaincodeStub.GetPrivateData,
          ChaincodeStub.PutPrivateData, ChaincodeStub.DelPrivateData,
          ChaincodeStub.issue, ht, hl, hpl, shim.Error, shim.Success]
  cases hd : json.UnmarshalDeleteInput payload with
  | error e =>
    simp [delete, ChaincodeStub.GetTransient, ChaincodeStub.GetPrivateData,
          ChaincodeStub.PutPrivateData, ChaincodeStub.DelPrivateData,
          ChaincodeStub.issue, ht, hl, hpl, hd, shim.Error, shim.Success]
  | ok input =>
  by_cases hn : input.Name.length = 0
  · simp [delete, ChaincodeStub.GetTransient, ChaincodeStub.GetPrivateData,
          ChaincodeStub.PutPrivateData, ChaincodeStub.DelPrivateData,
          ChaincodeStub.issue, ht, hl, hpl, hd, hn, shim.Error, shim.Success]
  cases hg : stub.getErr "collectionFileTransfer" input.Name with
  | some e =>
    simp [delete, ChaincodeStub.GetTransient, ChaincodeStub.GetPrivateData,
          ChaincodeStub.PutPrivateData, ChaincodeStub.DelPrivateData,
          ChaincodeStub.issue, ht, hl, hpl, hd, hn, hg, shim.Error, shim.Success]
  | none =>
  cases hs : stub.state "collectionFileTransfer" input.Name with
  | none =>
    simp [delete, ChaincodeStub.GetTransient, ChaincodeStub.GetPrivateData,
          ChaincodeStub.PutPrivateData, ChaincodeStub.DelPrivateData,
          ChaincodeStub.issue, ht, hl, hpl, hd, hn, hg, hs, shim.Error, shim.Success]
  | some valAsbytes =>
  cases hu : json.UnmarshalTransfer valAsbytes with
  | error e =>
    simp [delete, ChaincodeStub.GetTransient, ChaincodeStub.GetPrivateData,
          ChaincodeStub.PutPrivateData, ChaincodeStub.DelPrivateData,
          ChaincodeStub.issue, ht, hl, hpl, hd, hn, hg, hs, hu, shim.Error,
          shim.Success]
  | ok t =>
  cases hd1 : stub.delErr "collectionFileTransfer" input.Name with
  | some e =>
    simp [delete, ChaincodeStub.GetTransient, ChaincodeStub.GetPrivateData,
          ChaincodeStub.PutPrivateData, ChaincodeStub.DelPrivateData,
          ChaincodeStub.issue, ht, hl, hpl, hd, hn, hg, hs, hu, hd1, shim.Error,
          shim.Success]
  | none =>
  cases hk : CreateCompositeKey "authorization~name" [t.Authorization, t.Name] with
  | error e =>
    simp [delete, ChaincodeStub.GetTransient, ChaincodeStub.GetPrivateData,
          ChaincodeStub.PutPrivateData, ChaincodeStub.DelPrivateData,
          ChaincodeStub.issue, ht, hl, hpl, hd, hn, hg, hs, hu, hd1, hk, shim.Error,
          shim.Success]
  | ok k =>
  cases hd2 : stub.delErr "collectionFileTransfer" k with
  | some e =>
    simp [delete, ChaincodeStub.GetTransient, ChaincodeStub.GetPrivateData,
          ChaincodeStub.PutPrivateData, ChaincodeStub.DelPrivateData,
          ChaincodeStub.issue, ht, hl, hpl, hd, hn, hg, hs, hu, hd1, hk, hd2,
          shim.Error, shim.Success]
  | none =>
  cases hd3 : stub.delErr "collectionFileTransferPrivateDetails" input.Name with
  | some e =>
    simp [delete, ChaincodeStub.GetTransient, ChaincodeStub.GetPrivateData,
          ChaincodeStub.PutPrivateData, ChaincodeStub.DelPrivateData,
          ChaincodeStub.issue, ht, hl, hpl, hd, hn, hg, hs, hu, hd1, hk, hd2, hd3,
          shim.Error, shim.Success]
  | none =>
  simp [delete, ChaincodeStub.GetTransient, ChaincodeStub.GetPrivateData,
        ChaincodeStub.PutPrivateData, ChaincodeStub.DelPrivateData,
        ChaincodeStub.issue, ht, hl, hpl, hd, hn, hg, hs, hu, hd1, hk, hd2, hd3,
        shim.Error, shim.Success]

theorem accessFile_payload_none (stub : ChaincodeStub) (args : List String) :
    (accessFile stub args).1.Payload = none := by
  by_cases ha : args.length ≠ 0
  · simp [accessFile, ChaincodeStub.GetTransient, ChaincodeStub.GetPrivateData,
          ChaincodeStub.PutPrivateData, ChaincodeStub.DelPrivateData,
          ChaincodeStub.issue, ha, shim.Error, shim.Success]
  have ha1 : args = [] := by
    simpa using ha
  subst ha1
  cases ht : stub.transientErr with
  | some e =>
    simp [accessFile, ChaincodeStub.GetTransient, ChaincodeStub.GetPrivateData,
          ChaincodeStub.PutPrivateData, ChaincodeStub.DelPrivateData,
          ChaincodeStub.issue, ht, shim.Error, shim.Success]
  | none =>
  cases hl : stub.transient.lookup "transfer_flag" with
  | none =>
    simp [accessFile, ChaincodeStub.GetTransient, ChaincodeStub.GetPrivateData,
          ChaincodeStub.PutPrivateData, ChaincodeStub.DelPrivateData,
          ChaincodeStub.issue, ht, hl, shim.Error, shim.Success]
  | some payload =>
  by_cases hpl : payload.length = 0
  · simp [accessFile, ChaincodeStub.GetTransient, ChaincodeStub.GetPrivateData,
          ChaincodeStub.PutPrivateData, ChaincodeStub.DelPrivateData,
          ChaincodeStub.issue, ht, hl, hpl, shim.Error, shim.Success]
  cases hd : json.UnmarshalAccessInput payload with
  | error e =>
    simp [accessFile, ChaincodeStub.GetTransient, ChaincodeStub.GetPrivateData,
          ChaincodeStub.PutPrivateData, ChaincodeStub.DelPrivateData,
          ChaincodeStub.issue, ht, hl, hpl, hd, shim.Error, shim.Success]
  | ok input =>
  by_cases hn : input.Name.length = 0
  · simp [accessFile, ChaincodeStub.GetTransient, ChaincodeStub.GetPrivateData,
          ChaincodeStub.PutPrivateData, ChaincodeStub.DelPrivateData,
          ChaincodeStub.issue, ht, hl, hpl, hd, hn, shim.Error, shim.Success]
  cases hg : stub.getErr "collectionFileTransfer" input.Name with
  | some e =>
    simp [accessFile, ChaincodeStub.GetTransient, ChaincodeStub.GetPrivateData,
          ChaincodeStub.PutPrivateData, ChaincodeStub.DelPrivateData,
          ChaincodeStub.issue, ht, hl, hpl, hd, hn, hg, shim.Error, shim.Success]
  | none =>
  cases hs : stub.state "collectionFileTransfer" input.Name with
  | none =>
    simp [accessFile, ChaincodeStub.GetTransient, ChaincodeStub.GetPrivateData,
          ChaincodeStub.PutPrivateData, ChaincodeStub.DelPrivateData,
          ChaincodeStub.issue, ht, hl, hpl, hd, hn, hg, hs, shim.Error, shim.Success]
  | some transferAsBytes =>
  cases hu : json.UnmarshalTransfer transferAsBytes with
  | error e =>
    simp [accessFile, ChaincodeStub.GetTransient, ChaincodeStub.GetPrivateData,
          ChaincodeStub.PutPrivateData, ChaincodeStub.DelPrivateData,
          ChaincodeStub.issue, ht, hl, hpl, hd, hn, hg, hs, hu, shim.Error,
          shim.Success]
  | ok t =>
  simp only [accessFile, markAccessed_eq]
  by_cases htn : t.Name = ""
  · simp [accessFile, ChaincodeStub.GetTransient, ChaincodeStub.GetPrivateData,
          ChaincodeStub.PutPrivateData, ChaincodeStub.DelPrivateData,
          ChaincodeStub.issue, ht, hl, hpl, hd, hn, hg, hs, hu, htn, shim.Error,
          shim.Success]
  cases hpe : stub.putErr "collectionFileTransfer" t.Name with
  | some e =>
    simp [accessFile, ChaincodeStub.GetTransient, ChaincodeStub.GetPrivateData,
          ChaincodeStub.PutPrivateData, ChaincodeStub.DelPrivateData,
          ChaincodeStub.issue, ht, hl, hpl, hd, hn, hg, hs, hu, htn, hpe, shim.Error,
          shim.Success]
  | none =>
  simp [accessFile, ChaincodeStub.GetTransient, ChaincodeStub.GetPrivateData,
        ChaincodeStub.PutPrivateData, ChaincodeStub.DelPrivateData,
        ChaincodeStub.issue, ht, hl, hpl, hd, hn, hg, hs, hu, htn, hpe, shim.Error,
        shim.Success]

theorem initFileTransfer_payload_independent (stub : ChaincodeStub)
    (transient1 transient2 : List (String × Bytes)) (payload1 payload2 : Bytes)
    (input : transferTransientInput)
    (hq1 : transient1.lookup "fileTransfer" = some payload1)
    (hq2 : transient2.lookup "fileTransfer" = some payload2)
    (he1 : json.UnmarshalTransferInput payload1 = Except.ok input)
    (he2 : json.UnmarshalTransferInput payload2 = Except.ok input) :
    (initFileTransfer { stub with transient := transient1 } []).1 =
        (initFileTransfer { stub with transient := transient2 } []).1 ∧
      (initFileTransfer { stub with transient := transient1 } []).2.state =
        (initFileTransfer { stub with transient := transient2 } []).2.state ∧
      (initFileTransfer { stub with transient := transient1 } []).2.log =
        (initFileTransfer { stub with transient := transient2 } []).2.log := by
  have hl1 := payload_ne_empty_of_input he1
  have hl2 := payload_ne_empty_of_input he2
  cases ht : stub.transientErr with
  | some e =>
    simp [initFileTransfer, ChaincodeStub.GetTransient, ChaincodeStub.GetPrivateData,
          ChaincodeStub.PutPrivateData, ChaincodeStub.DelPrivateData,
          ChaincodeStub.issue, ht, hq1, hq2, he1, he2, hl1, hl2]
  | none =>
  by_cases l1 : input.Name.length = 0
  · simp [initFileTransfer, ChaincodeStub.GetTransient, ChaincodeStub.GetPrivateData,
          ChaincodeStub.PutPrivateData, ChaincodeStub.DelPrivateData,
          ChaincodeStub.issue, ht, l1, hq1, hq2, he1, he2, hl1, hl2]
  by_cases l2 : input.Description.length = 0
  · simp [initFileTransfer, ChaincodeStub.GetTransient, ChaincodeStub.GetPrivateData,
          ChaincodeStub.PutPrivateData, ChaincodeStub.DelPrivateData,
          ChaincodeStub.issue, ht, l1, l2, hq1, hq2, he1, he2, hl1, hl2]
  by_cases l3 : input.Originator.length = 0
  · simp [initFileTransfer, ChaincodeStub.GetTransient, ChaincodeStub.GetPrivateData,
          ChaincodeStub.PutPrivateData, ChaincodeStub.DelPrivateData,
          ChaincodeStub.issue, ht, l1, l2, l3, hq1, hq2, he1, he2, hl1, hl2]
  by_cases l4 : input.Recipient.length = 0
  · simp [initFileTransfer, ChaincodeStub.GetTransient, ChaincodeStub.GetPrivateData,
          ChaincodeStub.PutPrivateData, ChaincodeStub.DelPrivateData,
          ChaincodeStub.issue, ht, l1, l2, l3, l4, hq1, hq2, he1, he2, hl1, hl2]
  by_cases l5 : input.Authorization.length = 0
  · simp [initFileTransfer, ChaincodeStub.GetTransient, ChaincodeStub.GetPrivateData,
          ChaincodeStub.PutPrivateData, ChaincodeStub.DelPrivateData,
          ChaincodeStub.issue, ht, l1, l2, l3, l4, l5, hq1, hq2, he1, he2, hl1, hl2]
  by_cases l6 : input.Address.length = 0
  · simp [initFileTransfer, ChaincodeStub.GetTransient, ChaincodeStub.GetPrivateData,
          ChaincodeStub.PutPrivateData, ChaincodeStub.DelPrivateData,
          ChaincodeStub.issue, ht, l1, l2, l3, l4, l5, l6, hq1, hq2, he1, he2, hl1,
          hl2]
  by_cases l7 : input.EncryptionKey.length = 0
  · simp [initFileTransfer, ChaincodeStub.GetTransient, ChaincodeStub.GetPrivateData,
          ChaincodeStub.PutPrivateData, ChaincodeStub.DelPrivateData,
          ChaincodeStub.issue, ht, l1, l2, l3, l4, l5, l6, l7, hq1, hq2, he1, he2, hl1,
          hl2]
  have c1 : input.Name ≠ "" := fun e => l1 ((length_eq_zero_iff _).2 e)
  cases hg : stub.getErr "collectionFileTransfer" input.Name with
  | some e =>
    simp [initFileTransfer, ChaincodeStub.GetTransient, ChaincodeStub.GetPrivateData,
          ChaincodeStub.PutPrivateData, ChaincodeStub.DelPrivateData,
          ChaincodeStub.issue, ht, l1, l2, l3, l4, l5, l6, l7, c1, hg, hq1, hq2, he1,
          he2, hl1, hl2]
  | none =>
  cases hs : stub.state "collectionFileTransfer" input.Name with
  | some b =>
    simp [initFileTransfer, ChaincodeStub.GetTransient, ChaincodeStub.GetPrivateData,
          ChaincodeStub.PutPrivateData, ChaincodeStub.DelPrivateData,
          ChaincodeStub.issue, ht, l1, l2, l3, l4, l5, l6, l7, c1, hg, hs, hq1, hq2,
          he1, he2, hl1, hl2]
  | none =>
  cases hp1 : stub.putErr "collectionFileTransfer" input.Name with
  | some e =>
    simp [initFileTransfer, ChaincodeStub.GetTransient, ChaincodeStub.GetPrivateData,
          ChaincodeStub.PutPrivateData, ChaincodeStub.DelPrivateData,
          ChaincodeStub.issue, ht, l1, l2, l3, l4, l5, l6, l7, c1, hg, hs, hp1, hq1,
          hq2, he1, he2, hl1, hl2]
  | none =>
  cases hp2 : stub.putErr "collectionFileTransferPrivateDetails" input.Name with
  | some e =>
    simp [initFileTransfer, ChaincodeStub.GetTransient, ChaincodeStub.GetPrivateData,
          ChaincodeStub.PutPrivateData, ChaincodeStub.DelPrivateData,
          ChaincodeStub.issue, ht, l1, l2, l3, l4, l5, l6, l7, c1, hg, hs, hp1, hp2,
          hq1, hq2, he1, he2, hl1, hl2]
  | none =>
  cases hk : CreateCompositeKey "authorization~name" [input.Authorization, input.Name] with
  | error e =>
    simp [initFileTransfer, ChaincodeStub.GetTransient, ChaincodeStub.GetPrivateData,
          ChaincodeStub.PutPrivateData, ChaincodeStub.DelPrivateData,
          ChaincodeStub.issue, ht, l1, l2, l3, l4, l5, l6, l7, c1, hg, hs, hp1, hp2,
          hk, hq1, hq2, he1, he2, hl1, hl2]
  | ok k =>
  by_cases hke : k = ""
  · simp [initFileTransfer, ChaincodeStub.GetTransient, ChaincodeStub.GetPrivateData,
          ChaincodeStub.PutPrivateData, ChaincodeStub.DelPrivateData,
          ChaincodeStub.issue, ht, l1, l2, l3, l4, l5, l6, l7, c1, hg, hs, hp1, hp2,
          hk, hke, hq1, hq2, he1, he2, hl1, hl2]
  cases hp3 : stub.putErr "collectionFileTransfer" k with
  | some e =>
    simp [initFileTransfer, ChaincodeStub.GetTransient, ChaincodeStub.GetPrivateData,
          ChaincodeStub.PutPrivateData, ChaincodeStub.DelPrivateData,
          ChaincodeStub.issue, ht, l1, l2, l3, l4, l5, l6, l7, c1, hg, hs, hp1, hp2,
          hk, hke, hp3, hq1, hq2, he1, he2, hl1, hl2]
  | none =>
  simp [initFileTransfer, ChaincodeStub.GetTransient, ChaincodeStub.GetPrivateData,
        ChaincodeStub.PutPrivateData, ChaincodeStub.DelPrivateData,
        ChaincodeStub.issue, ht, l1, l2, l3, l4, l5, l6, l7, c1, hg, hs, hp1, hp2, hk,
        hke, hp3, hq1, hq2, he1, he2, hl1, hl2]

theorem delete_payload_independent (stub : ChaincodeStub)
    (transient1 transient2 : List (String × Bytes)) (payload1 payload2 : Bytes)
    (input : transferDeleteTransientInput)
    (hq1 : transient1.lookup "transfer_delete" = some payload1)
    (hq2 : transient2.lookup "transfer_delete" = some payload2)
    (he1 : json.UnmarshalDeleteInput payload1 = Except.ok input)
    (he2 : json.UnmarshalDeleteInput payload2 = Except.ok input) :
    (delete { stub with transient := transient1 } []).1 =
        (delete { stub with transient := transient2 } []).1 ∧
      (delete { stub with transient := transient1 } []).2.state =
        (delete { stub with transient := transient2 } []).2.state ∧
      (delete { stub with transient := transient1 } []).2.log =
        (delete { stub with transient := transient2 } []).2.log := by
  have hl1 := payload_ne_empty_of_delete he1
  have hl2 := payload_ne_empty_of_delete he2
  cases ht : stub.transientErr with
  | some e =>
    simp [delete, ChaincodeStub.GetTransient, ChaincodeStub.GetPrivateData,
          ChaincodeStub.PutPrivateData, ChaincodeStub.DelPrivateData,
          ChaincodeStub.issue, ht, hq1, hq2, he1, he2, hl1, hl2]
  | none =>
  by_cases hn : input.Name.length = 0
  · simp [delete, ChaincodeStub.GetTransient, ChaincodeStub.GetPrivateData,
          ChaincodeStub.PutPrivateData, ChaincodeStub.DelPrivateData,
          ChaincodeStub.issue, ht, hn, hq1, hq2, he1, he2, hl1, hl2]
  cases hg : stub.getErr "collectionFileTransfer" input.Name with
  | some e =>
    simp [delete, ChaincodeStub.GetTransient, ChaincodeStub.GetPrivateData,
          ChaincodeStub.PutPrivateData, ChaincodeStub.DelPrivateData,
          ChaincodeStub.issue, ht, hn, hg, hq1, hq2, he1, he2, hl1, hl2]
  | none =>
  cases hs : stub.state "collectionFileTransfer" input.Name with
  | none =>
    simp [delete, ChaincodeStub.GetTransient, ChaincodeStub.GetPrivateData,
          ChaincodeStub.PutPrivateData, ChaincodeStub.DelPrivateData,
          ChaincodeStub.issue, ht, hn, hg, hs, hq1, hq2, he1, he2, hl1, hl2]
  | some valAsbytes =>
  cases hu : json.UnmarshalTransfer valAsbytes with
  | error e =>
    simp [delete, ChaincodeStub.GetTransient, ChaincodeStub.GetPrivateData,
          ChaincodeStub.PutPrivateData, ChaincodeStub.DelPrivateData,
          ChaincodeStub.issue, ht, hn, hg, hs, hu, hq1, hq2, he1, he2, hl1, hl2]
  | ok t =>
  cases hd1 : stub.delErr "collectionFileTransfer" input.Name with
  | some e =>
    simp [delete, ChaincodeStub.GetTransient, ChaincodeStub.GetPrivateData,
          ChaincodeStub.PutPrivateData, ChaincodeStub.DelPrivateData,
          ChaincodeStub.issue, ht, hn, hg, hs, hu, hd1, hq1, hq2, he1, he2, hl1, hl2]
  | none =>
  cases hk : CreateCompositeKey "authorization~name" [t.Authorization, t.Name] with
  | error e =>
    simp [delete, ChaincodeStub.GetTransient, ChaincodeStub.GetPrivateData,
          ChaincodeStub.PutPrivateData, ChaincodeStub.DelPrivateData,
          ChaincodeStub.issue, ht, hn, hg, hs, hu, hd1, hk, hq1, hq2, he1, he2, hl1,
          hl2]
  | ok k =>
  cases hd2 : stub.delErr "collectionFileTransfer" k with
  | some e =>
    simp [delete, ChaincodeStub.GetTransient, ChaincodeStub.GetPrivateData,
          ChaincodeStub.PutPrivateData, ChaincodeStub.DelPrivateData,
          ChaincodeStub.issue, ht, hn, hg, hs, hu, hd1, hk, hd2, hq1, hq2, he1, he2,
          hl1, hl2]
  | none =>
  cases hd3 : stub.delErr "collectionFileTransferPrivateDetails" input.Name with
  | some e =>
    simp [delete, ChaincodeStub.GetTransient, ChaincodeStub.GetPrivateData,
          ChaincodeStub.PutPrivateData, ChaincodeStub.DelPrivateData,
          ChaincodeStub.issue, ht, hn, hg, hs, hu, hd1, hk, hd2, hd3, hq1, hq2, he1,
          he2, hl1, hl2]
  | none =>
  simp [delete, ChaincodeStub.GetTransient, ChaincodeStub.GetPrivateData,
        ChaincodeStub.PutPrivateData, ChaincodeStub.DelPrivateData,
        ChaincodeStub.issue, ht, hn, hg, hs, hu, hd1, hk, hd2, hd3, hq1, hq2, he1, he2,
        hl1, hl2]

theorem named_record_name {st : State} (hN : Named st) {n : String} {b : Bytes}
    {t : fileTransfer} (hs : st "collectionFileTransfer" n = some b)
    (hu : json.UnmarshalTransfer b = Except.ok t) : t.Name = n := by
  rcases hN.1 _ _ hs with ⟨h0, -⟩ | ⟨t0, h0, h1⟩
  · rw [h0, UnmarshalTransfer_sentinel] at hu
    exact Except.noConfusion hu
  · rw [h0, json.UnmarshalTransfer_MarshalTransfer] at hu
    rw [← Except.ok.inj hu]
    exact h1

set_option maxRecDepth 1000000 in
theorem sampleState_reachable : ReachableByInvocations sampleState := by
  rw [sampleState_eq]
  exact ReachableByInvocations.step sampleCreate ReachableByInvocations.empty

theorem ToLower_beyond_ASCII : strings.ToLower "ÉLODIE" = "élodie" := by
  decide

/-! ## The claims -/

/-- C1 (amended): on a store with nothing under the name in
`collectionFileTransfer`, a create whose seven fields are non-empty and whose
name and authorization hold neither U+0000 nor U+10FFFF succeeds, and a
following `readFileTransfer` of the name succeeds and returns the encoding of
the record with the supplied name, description, originator, recipient and
authorization and with `HasBeenAccessed` false; those bytes decode to that
record. -/
theorem create_then_read_round_trip (stub : ChaincodeStub) (payload : Bytes)
    (input : transferTransientInput)
    (hf : stub.faultFree)
    (hp : stub.transient.lookup "fileTransfer" = some payload)
    (hd : json.UnmarshalTransferInput payload = Except.ok input)
    (hc : input.complete)
    (hA : validateCompositeKeyAttribute input.Authorization = none)
    (hN : validateCompositeKeyAttribute input.Name = none)
    (habs : stub.state "collectionFileTransfer" input.Name = none) :
    (initFileTransfer stub []).1 = shim.Success none ∧
    ∀ stub2 : ChaincodeStub, stub2.state = (initFileTransfer stub []).2.state →
      stub2.getErr "collectionFileTransfer" input.Name = none →
      ∃ valAsbytes,
        (readFileTransfer stub2 [input.Name]).1 = shim.Success (some valAsbytes) ∧
        valAsbytes = json.MarshalTransfer
          ⟨"fileTransfer", input.Name, input.Description, input.Originator, input.Recipient,
            input.Authorization, false⟩ ∧
        json.UnmarshalTransfer valAsbytes = Except.ok
          ⟨"fileTransfer", input.Name, input.Description, input.Originator, input.Recipient,
            input.Authorization, false⟩ := by
  rw [initFileTransfer_ok stub payload input hf hp hd hc hA hN habs]
  refine ⟨rfl, ?_⟩
  intro stub2 hst hg
  refine ⟨_, ?_, rfl, json.UnmarshalTransfer_MarshalTransfer _⟩
  have hne : input.Name ≠ indexKey input.Authorization input.Name :=
    fun h => indexKey_ne_of_valid _ _ hN h.symm
  simp [readFileTransfer, ChaincodeStub.GetPrivateData, hg, hst, State.set, hne, newTransfer]

set_option maxRecDepth 1000000 in
theorem create_then_read_round_trip_witness :
    (initFileTransfer sampleCreate []).1 = shim.Success none ∧
      (readFileTransfer (initFileTransfer sampleCreate []).2 ["transfer1"]).1 =
        shim.Success (some
          "\x7b\"docType\":\"fileTransfer\",\"name\":\"transfer1\",\"description\":\"first transfer\",\"originator\":\"alice\",\"recipient\":\"bob\",\"authorization\":\"auth1\",\"HasBeenAccessed\":false\x7d") := by
  have h := create_then_read_round_trip sampleCreate samplePayload sampleInput
    (stubOn_faultFree _ _ _ _) (by decide) (by decide) (by decide) (by decide) (by decide)
    (by decide)
  refine ⟨h.1, ?_⟩
  obtain ⟨b, h1, h2, _⟩ := h.2 (initFileTransfer sampleCreate []).2 rfl rfl
  refine h1.trans ?_
  rw [h2]
  decide

set_option maxRecDepth 1000000 in
/-- C1 as stated fails: all seven fields of this create input are non-empty
and the store is empty, yet `initFileTransfer` returns an error, because the
name holds U+0000 and `CreateCompositeKey` refuses it. -/
theorem create_fails_on_nul_name :
    nulCreate.faultFree ∧
    nulCreate.transient.lookup "fileTransfer" = some nulPayload ∧
    json.UnmarshalTransferInput nulPayload = Except.ok nulInput ∧
    nulInput.complete ∧
    nulCreate.state "collectionFileTransfer" nulInput.Name = none ∧
    (initFileTransfer nulCreate []).1.Status = shim.ERROR :=
  ⟨stubOn_faultFree _ _ _ _, by decide, by decide, by decide, by decide, by decide⟩

/-- C2: a create for a name that already has a record in `collectionFileTransfer`
fails with the already-exists error; the state of both collections is what it
was, and the only calls issued are the read of the transient map and the read
of the record. -/
theorem duplicate_create_rejected (stub : ChaincodeStub) (payload : Bytes)
    (input : transferTransientInput) (b : Bytes)
    (hf : stub.faultFree)
    (hp : stub.transient.lookup "fileTransfer" = some payload)
    (hd : json.UnmarshalTransferInput payload = Except.ok input)
    (hc : input.complete)
    (hex : stub.state "collectionFileTransfer" input.Name = some b) :
    (initFileTransfer stub []).1 =
        shim.Error ("This transfer already exists: " ++ input.Name) ∧
      (initFileTransfer stub []).2.state = stub.state ∧
      (initFileTransfer stub []).2.log = stub.log ++
        [Call.GetTransient, Call.GetPrivateData "collectionFileTransfer" input.Name] := by
  rw [initFileTransfer_exists stub payload input b hf hp hd hc hex]
  exact ⟨rfl, rfl, rfl⟩

set_option maxRecDepth 1000000 in
theorem duplicate_create_rejected_witness :
    (initFileTransfer sampleCreateAgain []).1 =
        shim.Error "This transfer already exists: transfer1" ∧
      (initFileTransfer sampleCreateAgain []).2.state = sampleState :=
  have h := duplicate_create_rejected sampleCreateAgain samplePayload sampleInput
    (json.MarshalTransfer (newTransfer sampleInput))
    (stubOn_faultFree _ _ _ _) (by decide) (by decide) (by decide) (by decide)
  ⟨h.1, h.2.1⟩

/-- C3: a create input with an empty field is rejected with the validation
error of its first empty field, after the read of the transient map and
before any call to the ledger: the state is unchanged and no write is issued,
and a `readFileTransfer` of the name afterwards is not-found when the name was
absent.  A field that is omitted is rejected exactly as an empty one: a payload
that adds an empty member for an omitted field gets the same response and
writes nothing either. -/
theorem create_validation_atomic (stub : ChaincodeStub) (payload : Bytes)
    (input : transferTransientInput)
    (ht : stub.transientErr = none)
    (hp : stub.transient.lookup "fileTransfer" = some payload)
    (hd : json.UnmarshalTransferInput payload = Except.ok input)
    (hinc : ¬ input.complete) :
    ∃ f, firstEmptyField input = some f ∧
      (initFileTransfer stub []).1 = shim.Error (f ++ " field must be a non-empty string") ∧
      (initFileTransfer stub []).2.state = stub.state ∧
      (initFileTransfer stub []).2.log = stub.log ++ [Call.GetTransient] ∧
      (stub.state "collectionFileTransfer" input.Name = none →
        stub.getErr "collectionFileTransfer" input.Name = none →
        (readFileTransfer (initFileTransfer stub []).2 [input.Name]).1 =
          shim.Error ("\x7b\"Error\":\"Transfer does not exist: " ++ input.Name ++ "\"\x7d")) ∧
      ∀ (payload2 : Bytes) (transient2 : List (String × Bytes))
        (ms1 ms2 : List (String × json.Value)) (g : String),
        g ∈ inputFields →
        (∀ m ∈ ms1 ++ ms2, json.findField inputFields m.1 ≠ some g) →
        json.parseDocument payload = some (json.Document.object (ms1 ++ ms2)) →
        json.parseDocument payload2 =
          some (json.Document.object (ms1 ++ (g, json.Value.str "") :: ms2)) →
        transient2.lookup "fileTransfer" = some payload2 →
        json.UnmarshalTransferInput payload2 = Except.ok input ∧
        (initFileTransfer { stub with transient := transient2 } []).1 =
          (initFileTransfer stub []).1 ∧
        (initFileTransfer { stub with transient := transient2 } []).2.state = stub.state ∧
        (initFileTransfer { stub with transient := transient2 } []).2.log =
          stub.log ++ [Call.GetTransient] := by
  obtain ⟨f, hfe⟩ := firstEmptyField_of_not_complete hinc
  refine ⟨f, hfe, ?_⟩
  rw [initFileTransfer_invalid stub payload input f ht hp hd hfe]
  refine ⟨rfl, rfl, rfl, ?_, ?_⟩
  · intro habs hg
    simp [readFileTransfer, ChaincodeStub.GetPrivateData, ChaincodeStub.issue, hg, habs]
  · intro payload2 transient2 ms1 ms2 g hgm hno h1 h2 hp2
    have hd2 : json.UnmarshalTransferInput payload2 = Except.ok input := by
      rw [← hd]
      unfold json.UnmarshalTransferInput json.Unmarshal
      rw [h1, h2]
      have := decodeMembers_omitted hgm ms1 ms2
        (fun m hm => hno m (List.mem_append_left _ hm)) ⟨"", "", "", "", "", "", ""⟩
        (by
          simp only [inputFields, List.mem_cons, List.mem_singleton, List.not_mem_nil,
            or_false] at hgm
          rcases hgm with rfl | rfl | rfl | rfl | rfl | rfl | rfl <;> rfl)
      simp only [inputFields] at this
      simp only [this]
    refine ⟨hd2, ?_⟩
    rw [initFileTransfer_invalid { stub with transient := transient2 } payload2 input f ht hp2
      hd2 hfe]
    exact ⟨rfl, rfl, rfl⟩

set_option maxRecDepth 1000000 in
theorem create_validation_atomic_witness :
    (initFileTransfer omittedCreate []).1 =
        shim.Error "description field must be a non-empty string" ∧
      (initFileTransfer omittedCreate []).2.state = State.empty ∧
      (initFileTransfer
          { omittedCreate with transient := [("fileTransfer", emptyPayload)] } []).1 =
        shim.Error "description field must be a non-empty string" := by
  obtain ⟨f, hfe, h1, h2, _, _, h5⟩ :=
    create_validation_atomic omittedCreate omittedPayload omittedInput rfl (by decide)
      (by decide) (by decide)
  have hf : f = "description" := by
    have : firstEmptyField omittedInput = some "description" := by decide
    rw [this] at hfe
    exact (Option.some.inj hfe).symm
  subst hf
  have h6 := h5 emptyPayload [("fileTransfer", emptyPayload)]
    [("name", json.Value.str "transfer1")]
    [("originator", json.Value.str "alice"), ("recipient", json.Value.str "bob"),
      ("authorization", json.Value.str "auth1"), ("address", json.Value.str "file-is-here"),
      ("encryptionKey", json.Value.str "secret")]
    "description" (by decide) (by decide) (by decide) (by decide) (by decide)
  exact ⟨h1, h2, h6.2.1.trans h1⟩

/-- C5 (amended): a delete for a non-empty name under which nothing is stored
in `collectionFileTransfer` fails with the does-not-exist error; no delete is
issued (the only calls are the read of the transient map and the read of the
record) and the state of both collections, index entries included, is what it
was. -/
theorem delete_missing_record (stub : ChaincodeStub) (payload : Bytes)
    (input : transferDeleteTransientInput)
    (ht : stub.transientErr = none)
    (hg : stub.getErr "collectionFileTransfer" input.Name = none)
    (hp : stub.transient.lookup "transfer_delete" = some payload)
    (hd : json.UnmarshalDeleteInput payload = Except.ok input)
    (hn : input.Name ≠ "")
    (habs : stub.state "collectionFileTransfer" input.Name = none) :
    (delete stub []).1 = shim.Error ("Transfer does not exist: " ++ input.Name) ∧
      (delete stub []).2.state = stub.state ∧
      (delete stub []).2.log = stub.log ++
        [Call.GetTransient, Call.GetPrivateData "collectionFileTransfer" input.Name] := by
  rw [delete_missing stub payload input ht hg hp hd hn habs]
  exact ⟨rfl, rfl, rfl⟩

set_option maxRecDepth 1000000 in
theorem delete_missing_record_witness :
    (delete (sampleDeleteOn State.empty) []).1 =
        shim.Error "Transfer does not exist: transfer1" ∧
      (delete (sampleDeleteOn State.empty) []).2.state = State.empty :=
  have h := delete_missing_record (sampleDeleteOn State.empty) "\x7b\"name\":\"transfer1\"\x7d"
    ⟨"transfer1"⟩ rfl rfl (by decide) (by decide) (by decide) rfl
  ⟨h.1, h.2.1⟩

set_option maxRecDepth 1000000 in
/-- C5 as stated fails: `sampleState` is the state after the sample create; no
record is stored under the key of its index entry (the entry holds the
sentinel, which does not decode), yet the delete of that key fails with the
decode error, not with the does-not-exist error.  No record is stored under
the empty name either, and the delete of the empty name fails with the name
validation error. -/
theorem delete_without_record_not_missing_error :
    Reachable sampleState ∧
    json.UnmarshalDeleteInput
        "\x7b\"name\":\"\\u0000authorization~name\\u0000auth1\\u0000transfer1\\u0000\"\x7d" =
      Except.ok ⟨indexKey "auth1" "transfer1"⟩ ∧
    (¬ ∃ t, recordAt sampleState (indexKey "auth1" "transfer1") t) ∧
    (delete indexKeyDelete []).1 = shim.Error "Failed to decode JSON of: \x00" ∧
    (delete indexKeyDelete []).1 ≠
      shim.Error ("Transfer does not exist: " ++ indexKey "auth1" "transfer1") ∧
    (¬ ∃ t, recordAt State.empty "" t) ∧
    (delete emptyNameDelete []).1 = shim.Error "name field must be a non-empty string" := by
  have hr : Reachable sampleState := by
    rw [sampleState_eq]
    exact Reachable.step sampleCreate Reachable.empty (stubOn_faultFree _ _ _ _) (by decide)
  refine ⟨hr, by decide, ?_, by decide, by decide, ?_, by decide⟩
  · rintro ⟨t, b, hb, hu⟩
    have hv : sampleState "collectionFileTransfer" (indexKey "auth1" "transfer1") =
        some "\x00" := by decide
    rw [hv] at hb
    rw [← Option.some.inj hb, UnmarshalTransfer_sentinel] at hu
    exact Except.noConfusion hu
  · rintro ⟨t, b, hb, -⟩
    exact Option.noConfusion hb

/-- C4: in every state reached from the empty state by invocations, when the
record stored under the name decodes, a successful delete of the name leaves
the record absent, the private detail absent and the index entry of the stored
authorization and the name absent; `readFileTransfer` and
`readFileTransferPrivateDetails` of the name then fail with their not-found
errors. -/
theorem cascading_delete (stub : ChaincodeStub) (payload : Bytes)
    (input : transferDeleteTransientInput) (valAsbytes : Bytes) (t : fileTransfer)
    (hp : stub.transient.lookup "transfer_delete" = some payload)
    (hd : json.UnmarshalDeleteInput payload = Except.ok input)
    (hs : stub.state "collectionFileTransfer" input.Name = some valAsbytes)
    (hu : json.UnmarshalTransfer valAsbytes = Except.ok t)
    (hr : ReachableByInvocations stub.state)
    (hsucc : (delete stub []).1.Status = shim.OK) :
    (delete stub []).2.state "collectionFileTransfer" input.Name = none ∧
    (delete stub []).2.state "collectionFileTransferPrivateDetails" input.Name = none ∧
    (∃ k, CreateCompositeKey "authorization~name" [t.Authorization, input.Name] = Except.ok k ∧
      (delete stub []).2.state "collectionFileTransfer" k = none) ∧
    ∀ stub2 : ChaincodeStub, stub2.state = (delete stub []).2.state →
      stub2.getErr "collectionFileTransfer" input.Name = none →
      stub2.getErr "collectionFileTransferPrivateDetails" input.Name = none →
      (readFileTransfer stub2 [input.Name]).1 =
        shim.Error ("\x7b\"Error\":\"Transfer does not exist: " ++ input.Name ++ "\"\x7d") ∧
      (readFileTransferPrivateDetails stub2 [input.Name]).1 =
        shim.Error
          ("\x7b\"Error\":\"Marble private details does not exist: " ++ input.Name ++ "\"\x7d") := by
  have hname : t.Name = input.Name :=
    named_record_name (reachableByInvocations_named hr) hs hu
  obtain ⟨payload1, input1, b1, t1, k, _, hp1, hd1, _, hs1, hu1, hk, hres⟩ :=
    delete_success hsucc
  rw [hp] at hp1
  have e1 := Option.some.inj hp1
  subst e1
  rw [hd] at hd1
  have e2 := Except.ok.inj hd1
  subst e2
  rw [hs] at hs1
  have e3 := Option.some.inj hs1
  subst e3
  rw [hu] at hu1
  have e4 := Except.ok.inj hu1
  subst e4
  rw [hname] at hk
  rw [hres]
  have h1 : (((stub.state.set "collectionFileTransfer" input.Name none).set
      "collectionFileTransfer" k none).set
      "collectionFileTransferPrivateDetails" input.Name none)
      "collectionFileTransfer" input.Name = none := by
    simp [State.set]
  have h2 : (((stub.state.set "collectionFileTransfer" input.Name none).set
      "collectionFileTransfer" k none).set
      "collectionFileTransferPrivateDetails" input.Name none)
      "collectionFileTransferPrivateDetails" input.Name = none := by
    simp [State.set]
  have h3 : (((stub.state.set "collectionFileTransfer" input.Name none).set
      "collectionFileTransfer" k none).set
      "collectionFileTransferPrivateDetails" input.Name none)
      "collectionFileTransfer" k = none := by
    simp [State.set]
  refine ⟨h1, h2, ⟨k, hk, h3⟩, ?_⟩
  intro stub2 hst hg1 hg2
  simp only at hst
  constructor
  · simp [readFileTransfer, ChaincodeStub.GetPrivateData, hg1, hst, h1]
  · simp [readFileTransferPrivateDetails, ChaincodeStub.GetPrivateData, hg2, hst, h2]

set_option maxRecDepth 1000000 in
theorem cascading_delete_witness :
    (delete (sampleDeleteOn sampleState) []).2.state "collectionFileTransfer" "transfer1" = none ∧
    (delete (sampleDeleteOn sampleState) []).2.state "collectionFileTransferPrivateDetails"
      "transfer1" = none ∧
    (delete (sampleDeleteOn sampleState) []).2.state "collectionFileTransfer"
      (indexKey "auth1" "transfer1") = none := by
  have h := cascading_delete (sampleDeleteOn sampleState) "\x7b\"name\":\"transfer1\"\x7d"
    ⟨"transfer1"⟩ (json.MarshalTransfer (newTransfer sampleInput)) (newTransfer sampleInput)
    (by decide) (by decide) (by decide) (by decide) sampleState_reachable (by decide)
  obtain ⟨k, hk, hk2⟩ := h.2.2.1
  have hk3 : k = indexKey "auth1" "transfer1" := by
    have : CreateCompositeKey "authorization~name" ["auth1", "transfer1"] =
        Except.ok (indexKey "auth1" "transfer1") := by decide
    exact Except.ok.inj (hk.symm.trans this)
  rw [hk3] at hk2
  exact ⟨h.1, h.2.1, hk2⟩

/-- C6: after a successful create with name `n` and authorization `a`, a
delete of `n` on the resulting state succeeds and the index key it removes is
the key `CreateCompositeKey` gives for (`a`, `n`), the one the create wrote; no
entry is left under it, and when the state held nothing under detail `n` and
under that key before the create, the state after the delete is the state
before the create. -/
theorem create_delete_index_round_trip (stub : ChaincodeStub) (payload : Bytes)
    (input : transferTransientInput) (stub2 : ChaincodeStub) (payload2 : Bytes)
    (hf : stub.faultFree)
    (hp : stub.transient.lookup "fileTransfer" = some payload)
    (hd : json.UnmarshalTransferInput payload = Except.ok input)
    (hsucc : (initFileTransfer stub []).1.Status = shim.OK)
    (hst : stub2.state = (initFileTransfer stub []).2.state)
    (hf2 : stub2.faultFree)
    (hp2 : stub2.transient.lookup "transfer_delete" = some payload2)
    (hd2 : json.UnmarshalDeleteInput payload2 = Except.ok ⟨input.Name⟩) :
    ∃ k, CreateCompositeKey "authorization~name" [input.Authorization, input.Name] =
        Except.ok k ∧
      Call.PutPrivateData "collectionFileTransfer" k "\x00" ∈
        (initFileTransfer stub []).2.log ∧
      (delete stub2 []).1 = shim.Success none ∧
      (delete stub2 []).2.log = stub2.log ++
        [Call.GetTransient,
          Call.GetPrivateData "collectionFileTransfer" input.Name,
          Call.DelPrivateData "collectionFileTransfer" input.Name,
          Call.DelPrivateData "collectionFileTransfer" k,
          Call.DelPrivateData "collectionFileTransferPrivateDetails" input.Name] ∧
      (delete stub2 []).2.state "collectionFileTransfer" k = none ∧
      (stub.state "collectionFileTransferPrivateDetails" input.Name = none →
        stub.state "collectionFileTransfer" k = none →
        (delete stub2 []).2.state = stub.state) := by
  obtain ⟨payload1, input1, _, _, hp1, hd1, hc, _, habs, _, _, hA, hN⟩ :=
    initFileTransfer_success hsucc
  rw [hp] at hp1
  have e1 := Option.some.inj hp1
  subst e1
  rw [hd] at hd1
  have e2 := Except.ok.inj hd1
  subst e2
  have hk := CreateCompositeKey_index_ok hA hN
  have hne : input.Name ≠ indexKey input.Authorization input.Name :=
    fun h => indexKey_ne_of_valid _ _ hN h.symm
  rw [initFileTransfer_ok stub payload input hf hp hd hc hA hN habs] at hst
  simp only at hst
  have hs2 : stub2.state "collectionFileTransfer" input.Name =
      some (json.MarshalTransfer (newTransfer input)) := by
    rw [hst]
    simp [State.set, hne]
  have hdel := delete_ok stub2 payload2 ⟨input.Name⟩ _ (newTransfer input)
    (indexKey input.Authorization input.Name) hf2 hp2 hd2 hc.1 hs2
    (json.UnmarshalTransfer_MarshalTransfer _) hk
  refine ⟨indexKey input.Authorization input.Name, hk, ?_, ?_⟩
  · rw [initFileTransfer_ok stub payload input hf hp hd hc hA hN habs]
    simp
  rw [hdel]
  refine ⟨rfl, rfl, ?_, ?_⟩
  · simp [State.set]
  · intro h1 h2
    simp only [hst]
    funext c k
    simp only [State.set]
    by_cases hc1 : c = "collectionFileTransferPrivateDetails"
    · subst hc1
      by_cases hk1 : k = input.Name
      · subst hk1
        simp [h1]
      · simp [hk1]
    · by_cases hc2 : c = "collectionFileTransfer"
      · subst hc2
        by_cases hk1 : k = input.Name
        · subst hk1
          simp [habs]
        · by_cases hk2 : k = indexKey input.Authorization input.Name
          · subst hk2
            simp [h2]
          · simp [hk1, hk2]
      · simp [hc1, hc2]

set_option maxRecDepth 1000000 in
theorem create_delete_index_round_trip_witness :
    (delete (sampleDeleteOn sampleState) []).1 = shim.Success none ∧
      (delete (sampleDeleteOn sampleState) []).2.state "collectionFileTransfer"
        (indexKey "auth1" "transfer1") = none ∧
      (delete (sampleDeleteOn sampleState) []).2.state = State.empty := by
  obtain ⟨k, hk, _, h1, _, h2, h3⟩ :=
    create_delete_index_round_trip sampleCreate samplePayload sampleInput
      (sampleDeleteOn sampleState) "\x7b\"name\":\"transfer1\"\x7d"
      (stubOn_faultFree _ _ _ _) (by decide) (by decide) (by decide) sampleState_eq
      (stubOn_faultFree _ _ _ _) (by decide) (by decide)
  have hk3 : k = indexKey "auth1" "transfer1" := by
    have : CreateCompositeKey "authorization~name" ["auth1", "transfer1"] =
        Except.ok (indexKey "auth1" "transfer1") := by decide
    exact Except.ok.inj (hk.symm.trans this)
  subst hk3
  exact ⟨h1, h2, h3 rfl rfl⟩

/-- C7: when the bytes stored under the name are the encoding of a record with
that name (as `initFileTransfer` writes it), `accessFile` succeeds and leaves
the record with `HasBeenAccessed` true and all other fields as they were; a
second `accessFile` of the name on the resulting state succeeds too and leaves
the state exactly as the first call left it. -/
theorem accessFile_idempotent (stub : ChaincodeStub) (payload : Bytes)
    (input : fileAccessTransientInput) (t : fileTransfer)
    (stub2 : ChaincodeStub) (payload2 : Bytes) (input2 : fileAccessTransientInput)
    (hf : stub.faultFree)
    (hp : stub.transient.lookup "transfer_flag" = some payload)
    (hd : json.UnmarshalAccessInput payload = Except.ok input)
    (hn : input.Name ≠ "")
    (hs : stub.state "collectionFileTransfer" input.Name = some (json.MarshalTransfer t))
    (ht : t.Name = input.Name)
    (hst : stub2.state = (accessFile stub []).2.state)
    (hf2 : stub2.faultFree)
    (hp2 : stub2.transient.lookup "transfer_flag" = some payload2)
    (hd2 : json.UnmarshalAccessInput payload2 = Except.ok input2)
    (hn2 : input2.Name = input.Name) :
    (accessFile stub []).1 = shim.Success none ∧
      (accessFile stub []).2.state "collectionFileTransfer" input.Name =
        some (json.MarshalTransfer { t with HasBeenAccessed := true }) ∧
      json.UnmarshalTransfer (json.MarshalTransfer { t with HasBeenAccessed := true }) =
        Except.ok { t with HasBeenAccessed := true } ∧
      (accessFile stub2 []).1 = shim.Success none ∧
      (accessFile stub2 []).2.state = (accessFile stub []).2.state := by
  have htn : t.Name ≠ "" := by rw [ht]; exact hn
  have h1 := accessFile_ok stub payload input _ t hf hp hd hn hs
    (json.UnmarshalTransfer_MarshalTransfer _) htn
  rw [h1] at hst ⊢
  simp only at hst
  have hs2 : stub2.state "collectionFileTransfer" input2.Name =
      some (json.MarshalTransfer { t with HasBeenAccessed := true }) := by
    rw [hst, hn2, ht]
    simp [State.set]
  have h2 := accessFile_ok stub2 payload2 input2 _ { t with HasBeenAccessed := true } hf2 hp2
    hd2 (by rw [hn2]; exact hn) hs2 (json.UnmarshalTransfer_MarshalTransfer _) htn
  rw [h2]
  refine ⟨rfl, ?_, json.UnmarshalTransfer_MarshalTransfer _, rfl, ?_⟩
  · rw [ht]
    simp [State.set]
  · simp only [hst]
    funext c k
    simp only [State.set]
    split <;> rfl

set_option maxRecDepth 1000000 in
theorem accessFile_idempotent_witness :
    (accessFile (sampleAccessOn sampleState) []).1 = shim.Success none ∧
      (accessFile (sampleAccessOn (accessFile (sampleAccessOn sampleState) []).2.state) []).1 =
        shim.Success none ∧
      (accessFile (sampleAccessOn (accessFile (sampleAccessOn sampleState) []).2.state)
          []).2.state =
        (accessFile (sampleAccessOn sampleState) []).2.state := by
  have h := accessFile_idempotent (sampleAccessOn sampleState) "\x7b\"name\":\"transfer1\"\x7d"
    ⟨"transfer1", false⟩ (newTransfer sampleInput)
    (sampleAccessOn (accessFile (sampleAccessOn sampleState) []).2.state)
    "\x7b\"name\":\"transfer1\"\x7d" ⟨"transfer1", false⟩
    (stubOn_faultFree _ _ _ _) (by decide) (by decide) (by decide) (by decide) rfl rfl
    (stubOn_faultFree _ _ _ _) (by decide) (by decide) rfl
  exact ⟨h.1, h.2.2.2.1, h.2.2.2.2⟩

/-- C8: for every invocation (whatever the function name, the arguments, the
transient map, the state and the failing calls), if the bytes under a name in
`collectionFileTransfer` decode to a record with `HasBeenAccessed` true before
it, and the bytes under that name after it decode to a record, then that record
has `HasBeenAccessed` true. -/
theorem accessed_monotonic (stub : ChaincodeStub) (n : String) (b b1 : Bytes)
    (t t1 : fileTransfer)
    (hb : stub.state "collectionFileTransfer" n = some b)
    (hu : json.UnmarshalTransfer b = Except.ok t)
    (ht : t.HasBeenAccessed = true)
    (hb1 : (Invoke stub).2.state "collectionFileTransfer" n = some b1)
    (hu1 : json.UnmarshalTransfer b1 = Except.ok t1) :
    t1.HasBeenAccessed = true := by
  rcases Invoke_keepsAccessed stub n with h | h | h
  · rw [h, hb] at hb1
    have e := Option.some.inj hb1
    subst e
    rw [hu] at hu1
    have e1 := Except.ok.inj hu1
    subst e1
    exact ht
  · rcases h with h | h | ⟨t0, h, h0⟩
    · rw [h] at hb1
      exact Option.noConfusion hb1
    · rw [h] at hb1
      have e := Option.some.inj hb1
      subst e
      rw [show json.UnmarshalTransfer "\x00" =
        Except.error json.UnmarshalError.SyntaxError from by decide] at hu1
      exact Except.noConfusion hu1
    · rw [h] at hb1
      have e := Option.some.inj hb1
      subst e
      rw [json.UnmarshalTransfer_MarshalTransfer] at hu1
      have e1 := Except.ok.inj hu1
      subst e1
      exact h0
  · rw [h] at hb
    exact Option.noConfusion hb

set_option maxRecDepth 1000000 in
theorem accessed_monotonic_witness :
    ∃ b1 t1, (Invoke (sampleAccessOn accessedState)).2.state "collectionFileTransfer"
        "transfer1" = some b1 ∧
      json.UnmarshalTransfer b1 = Except.ok t1 ∧ t1.HasBeenAccessed = true :=
  ⟨json.MarshalTransfer { newTransfer sampleInput with HasBeenAccessed := true },
    { newTransfer sampleInput with HasBeenAccessed := true }, by decide,
    json.UnmarshalTransfer_MarshalTransfer _,
    accessed_monotonic (sampleAccessOn accessedState) "transfer1"
      (json.MarshalTransfer { newTransfer sampleInput with HasBeenAccessed := true })
      (json.MarshalTransfer { newTransfer sampleInput with HasBeenAccessed := true })
      { newTransfer sampleInput with HasBeenAccessed := true }
      { newTransfer sampleInput with HasBeenAccessed := true }
      (by decide) (json.UnmarshalTransfer_MarshalTransfer _) rfl (by decide)
      (json.UnmarshalTransfer_MarshalTransfer _)⟩

/-- C9: in every state reached from the empty state by successful invocations
on a peer whose calls do not fail, a record is stored under a name exactly when
a private detail is stored under it; every record has its index entry; the
entries of `collectionFileTransfer` that are not records are exactly the
composite keys of (stored authorization, name) of the stored records; and two
records never share an index key. -/
theorem record_detail_index_consistent (st : State) (h : Reachable st) :
    (∀ n, (∃ t, recordAt st n t) ↔ ∃ d, st "collectionFileTransferPrivateDetails" n = some d) ∧
    (∀ n t, recordAt st n t →
      ∃ k, CreateCompositeKey "authorization~name" [t.Authorization, n] = Except.ok k ∧
        st "collectionFileTransfer" k = some "\x00") ∧
    (∀ k, (st "collectionFileTransfer" k ≠ none ∧ ¬ ∃ t, recordAt st k t) ↔
      ∃ n t, recordAt st n t ∧
        CreateCompositeKey "authorization~name" [t.Authorization, n] = Except.ok k) ∧
    (∀ n1 n2 t1 t2 k, recordAt st n1 t1 → recordAt st n2 t2 →
      CreateCompositeKey "authorization~name" [t1.Authorization, n1] = Except.ok k →
      CreateCompositeKey "authorization~name" [t2.Authorization, n2] = Except.ok k →
      n1 = n2) := by
  have hc := reachable_consistent h
  have hrec : ∀ n t, recordAt st n t →
      st "collectionFileTransfer" n = some (json.MarshalTransfer t) ∧ t.Name = n ∧
      validateCompositeKeyAttribute t.Name = none ∧
      validateCompositeKeyAttribute t.Authorization = none ∧
      (∃ d, st "collectionFileTransferPrivateDetails" n = some d) ∧
      st "collectionFileTransfer" (indexKey t.Authorization t.Name) = some "\x00" := by
    intro n t ⟨b, hb, hu⟩
    obtain ⟨h0, h1⟩ := consistent_record hc hb hu
    subst h0
    exact ⟨hb, h1⟩
  refine ⟨?_, ?_, ?_, ?_⟩
  · intro n
    constructor
    · rintro ⟨t, ht⟩
      exact (hrec n t ht).2.2.2.2.1
    · rintro ⟨d, hd⟩
      obtain ⟨t, ht⟩ := hc.2 n d hd
      exact ⟨t, _, ht, json.UnmarshalTransfer_MarshalTransfer t⟩
  · intro n t ht
    obtain ⟨_, h1, h2, h3, _, h5⟩ := hrec n t ht
    subst h1
    exact ⟨_, CreateCompositeKey_index_ok h3 h2, h5⟩
  · intro k
    constructor
    · rintro ⟨hk, hno⟩
      cases hb : st "collectionFileTransfer" k with
      | none => exact absurd hb hk
      | some b =>
        rcases hc.1 k b hb with ⟨t0, h0, _⟩ | ⟨_, t0, h2, h3, h4, h5⟩
        · subst h0
          exact absurd ⟨t0, _, hb, json.UnmarshalTransfer_MarshalTransfer t0⟩ hno
        · subst h4
          exact ⟨t0.Name, t0, ⟨_, h5, json.UnmarshalTransfer_MarshalTransfer t0⟩,
            CreateCompositeKey_index_ok h3 h2⟩
    · rintro ⟨n, t, ht, hk⟩
      obtain ⟨_, h1, _, _, _, h5⟩ := hrec n t ht
      subst h1
      obtain ⟨_, _, hk1⟩ := CreateCompositeKey_index_inv hk
      subst hk1
      refine ⟨by rw [h5]; exact fun e => Option.noConfusion e, ?_⟩
      rintro ⟨t1, b, hb, hu⟩
      rw [h5] at hb
      have e := Option.some.inj hb
      subst e
      rw [UnmarshalTransfer_sentinel] at hu
      exact Except.noConfusion hu
  · intro n1 n2 t1 t2 k h1 h2 hk1 hk2
    obtain ⟨ha1, _, e1⟩ := CreateCompositeKey_index_inv hk1
    obtain ⟨ha2, _, e2⟩ := CreateCompositeKey_index_inv hk2
    exact (indexKey_inj ha1 ha2 (e1.symm.trans e2)).2

set_option maxRecDepth 1000000 in
theorem record_detail_index_consistent_witness :
    (∃ t, recordAt sampleState "transfer1" t) ∧
      (∃ d, sampleState "collectionFileTransferPrivateDetails" "transfer1" = some d) ∧
      sampleState "collectionFileTransfer" (indexKey "auth1" "transfer1") = some "\x00" := by
  have hr : Reachable sampleState := by
    rw [sampleState_eq]
    exact Reachable.step sampleCreate Reachable.empty (stubOn_faultFree _ _ _ _) (by decide)
  have h := record_detail_index_consistent sampleState hr
  have hrec : recordAt sampleState "transfer1" (newTransfer sampleInput) :=
    ⟨_, rfl, by decide⟩
  obtain ⟨k, hk, hk2⟩ := h.2.1 "transfer1" (newTransfer sampleInput) hrec
  have hk3 : k = indexKey "auth1" "transfer1" := by
    have : CreateCompositeKey "authorization~name" ["auth1", "transfer1"] =
        Except.ok (indexKey "auth1" "transfer1") := by decide
    exact Except.ok.inj (hk.symm.trans this)
  subst hk3
  exact ⟨⟨_, hrec⟩, (h.1 "transfer1").1 ⟨_, hrec⟩, hk2⟩


/-- C10: when the iterator of the rich query delivers the elements
(k1,v1),...,(kN,vN) without error, `getQueryResultForQueryString` returns an
opening bracket, the N elements `{"Key":"ki", "Record":vi}` in iteration
order joined by commas, and a closing bracket, with the bytes of every value
as they are stored. -/
theorem query_serialization (stub : ChaincodeStub) (queryString : String) (kvs : List KV)
    (hq : stub.richQuery (stub.state "collectionFileTransfer") queryString =
      Except.ok (kvs.map Except.ok)) :
    (getQueryResultForQueryString stub queryString).1 = Except.ok (referenceArray kvs) := by
  simp [getQueryResultForQueryString, ChaincodeStub.GetPrivateDataQueryResult, hq,
    queryLoop_reference, referenceArray]

theorem query_serialization_witness :
    (getQueryResultForQueryString sampleQuery "\x7b\"selector\":\x7b\x7d\x7d").1 = Except.ok
      "[\x7b\"Key\":\"t1\", \"Record\":\x7b\"name\":\"t1\"\x7d\x7d,\x7b\"Key\":\"t2\", \"Record\":\x7b\"name\":\"t2\",\"note\":\"a \\\"b\\\"\"\x7d\x7d]" :=
  (query_serialization sampleQuery "\x7b\"selector\":\x7b\x7d\x7d" sampleResults rfl).trans (by decide)

/-- C11: when the iterator of the rich query yields no element and no error,
`getQueryResultForQueryString` returns the two bytes `[]` and no error, and
`queryTransfers` and `queryFileTransferByOwner`, called with their query
argument, return success with that payload. -/
theorem empty_query_result (stub : ChaincodeStub) (queryString arg0 : String)
    (rest : List String)
    (hq : stub.richQuery (stub.state "collectionFileTransfer") queryString = Except.ok [])
    (ho : stub.richQuery (stub.state "collectionFileTransfer") (ownerQuery arg0) =
      Except.ok []) :
    (getQueryResultForQueryString stub queryString).1 = Except.ok "[]" ∧
      (queryTransfers stub (queryString :: rest)).1 = shim.Success (some "[]") ∧
      (queryFileTransferByOwner stub (arg0 :: rest)).1 = shim.Success (some "[]") := by
  have h1 := getQueryResultForQueryString_ok stub queryString [] hq
  have h2 := getQueryResultForQueryString_ok stub (ownerQuery arg0) [] ho
  have e : referenceArray [] = "[]" := by decide
  rw [e] at h1 h2
  rw [queryTransfers_cons, queryFileTransferByOwner_cons, h1, h2]
  exact ⟨rfl, rfl, rfl⟩

theorem empty_query_result_witness :
    (getQueryResultForQueryString emptyOwnerQuery "q").1 = Except.ok "[]" ∧
      (queryTransfers emptyOwnerQuery ["q"]).1 = shim.Success (some "[]") ∧
      (queryFileTransferByOwner emptyOwnerQuery ["alice"]).1 = shim.Success (some "[]") :=
  empty_query_result emptyOwnerQuery "q" "alice" [] rfl rfl

/-- C12: when the rich query cannot be opened, or `Next` of its iterator
returns an error after any number of elements read, then
`getQueryResultForQueryString` returns that error and no bytes, and
`queryTransfers` and `queryFileTransferByOwner` return an error response whose
message is the error of the peer, not a partial array. -/
theorem query_fails_fast (stub : ChaincodeStub) (queryString : String) (rest : List String)
    (err : String)
    (hq : stub.richQuery (stub.state "collectionFileTransfer") queryString =
        Except.error err ∨
      ∃ (kvs : List KV) (more : List (Except String KV)),
        stub.richQuery (stub.state "collectionFileTransfer") queryString =
          Except.ok (kvs.map Except.ok ++ Except.error err :: more)) :
    (getQueryResultForQueryString stub queryString).1 = Except.error err ∧
      (queryTransfers stub (queryString :: rest)).1 = shim.Error err ∧
      ∀ arg0, ownerQuery arg0 = queryString →
        (queryFileTransferByOwner stub (arg0 :: rest)).1 = shim.Error err := by
  have h : getQueryResultForQueryString stub queryString =
      (Except.error err,
        stub.issue (Call.GetPrivateDataQueryResult "collectionFileTransfer" queryString)) := by
    rcases hq with hq | ⟨kvs, more, hq⟩
    · exact getQueryResultForQueryString_open_error stub queryString err hq
    · exact getQueryResultForQueryString_next_error stub queryString kvs err more hq
  refine ⟨by rw [h], by rw [queryTransfers_cons, h], ?_⟩
  intro arg0 ha
  rw [queryFileTransferByOwner_cons, ha, h]

theorem query_fails_fast_witness :
    (getQueryResultForQueryString failingQuery "\x7b\"selector\":\x7b\x7d\x7d").1 =
        Except.error "iterator closed" ∧
      (queryTransfers failingQuery ["\x7b\"selector\":\x7b\x7d\x7d"]).1 = shim.Error "iterator closed" :=
  have h := query_fails_fast failingQuery "\x7b\"selector\":\x7b\x7d\x7d" [] "iterator closed"
    (Or.inr ⟨[⟨"t1", "\x7b\"name\":\"t1\"\x7d"⟩], [Except.ok ⟨"t2", "\x7b\"name\":\"t2\"\x7d"⟩], rfl⟩)
  ⟨h.1, h.2.1⟩


/-- C13: `readFileTransfer [n]` succeeds with exactly the bytes stored under
`n` in `collectionFileTransfer` and fails with its not-found error when nothing
is stored there; `readFileTransferPrivateDetails [n]` does the same against
`collectionFileTransferPrivateDetails`; with any other number of arguments both
fail with the incorrect-number-of-arguments error. -/
theorem read_returns_stored_bytes (stub : ChaincodeStub) (n : String)
    (hg1 : stub.getErr "collectionFileTransfer" n = none)
    (hg2 : stub.getErr "collectionFileTransferPrivateDetails" n = none) :
    (∀ b, stub.state "collectionFileTransfer" n = some b →
      (readFileTransfer stub [n]).1 = shim.Success (some b)) ∧
    (stub.state "collectionFileTransfer" n = none →
      (readFileTransfer stub [n]).1 =
        shim.Error ("\x7b\"Error\":\"Transfer does not exist: " ++ n ++ "\"\x7d")) ∧
    (∀ b, stub.state "collectionFileTransferPrivateDetails" n = some b →
      (readFileTransferPrivateDetails stub [n]).1 = shim.Success (some b)) ∧
    (stub.state "collectionFileTransferPrivateDetails" n = none →
      (readFileTransferPrivateDetails stub [n]).1 =
        shim.Error ("\x7b\"Error\":\"Marble private details does not exist: " ++ n ++ "\"\x7d")) ∧
    (∀ args : List String, args.length ≠ 1 →
      (readFileTransfer stub args).1 =
        shim.Error "Incorrect number of arguments. Expecting name of the transfer to query" ∧
      (readFileTransferPrivateDetails stub args).1 =
        shim.Error "Incorrect number of arguments. Expecting name of the transfer to query") := by
  refine ⟨?_, ?_, ?_, ?_, ?_⟩
  · intro b hb
    simp [readFileTransfer, ChaincodeStub.GetPrivateData, hg1, hb]
  · intro hb
    simp [readFileTransfer, ChaincodeStub.GetPrivateData, hg1, hb]
  · intro b hb
    simp [readFileTransferPrivateDetails, ChaincodeStub.GetPrivateData, hg2, hb]
  · intro hb
    simp [readFileTransferPrivateDetails, ChaincodeStub.GetPrivateData, hg2, hb]
  · intro args ha
    rcases args with _ | ⟨a, _ | ⟨b, rest⟩⟩
    · exact ⟨rfl, rfl⟩
    · exact absurd rfl ha
    · exact ⟨rfl, rfl⟩

set_option maxRecDepth 1000000 in
theorem read_returns_stored_bytes_witness :
    (readFileTransfer (stubOn sampleState "readFileTransfer" ["transfer1"] [])
        ["transfer1"]).1 =
      shim.Success (some
        "\x7b\"docType\":\"fileTransfer\",\"name\":\"transfer1\",\"description\":\"first transfer\",\"originator\":\"alice\",\"recipient\":\"bob\",\"authorization\":\"auth1\",\"HasBeenAccessed\":false\x7d") ∧
    (readFileTransferPrivateDetails (stubOn sampleState "readFileTransfer" ["transfer1"] [])
        ["transfer1"]).1 =
      shim.Success (some
        "\x7b\"docType\":\"fileTransferPrivateDetails\",\"name\":\"transfer1\",\"address\":\"file-is-here\",\"encryptionKey\":\"secret\"\x7d") :=
  have h := read_returns_stored_bytes (stubOn sampleState "readFileTransfer" ["transfer1"] [])
    "transfer1" rfl rfl
  ⟨h.1 _ (by decide), h.2.2.1 _ (by decide)⟩

/-- C14 (amended): for every function name that is not one of the seven
dispatched names, `Invoke` returns an error response and issues no call; its
message is the fixed text `Received unknown function invocation`, whatever the
name. -/
theorem unknown_function_rejected (stub : ChaincodeStub) (h : stub.function ∉ dispatched) :
    Invoke stub = (shim.Error "Received unknown function invocation", stub) ∧
      (Invoke stub).1.Status = shim.ERROR := by
  simp only [dispatched, List.mem_cons, List.mem_singleton, List.not_mem_nil, or_false,
    not_or] at h
  obtain ⟨h1, h2, h3, h4, h5, h6, h7⟩ := h
  have e : Invoke stub = (shim.Error "Received unknown function invocation", stub) := by
    simp [Invoke, h1, h2, h3, h4, h5, h6, h7]
  exact ⟨e, by rw [e]; rfl⟩

theorem unknown_function_rejected_witness :
    (Invoke unknownInvoke).1 = shim.Error "Received unknown function invocation" :=
  congrArg Prod.fst (unknown_function_rejected unknownInvoke (by decide)).1

/-- C14 as stated fails: `zz` is not a dispatched name, `Invoke` returns an
error response, and its message does not contain `zz`. -/
theorem unknown_function_not_named :
    unknownInvoke.function = "zz" ∧ unknownInvoke.function ∉ dispatched ∧
      (Invoke unknownInvoke).1.Status = shim.ERROR ∧
      ¬ ("zz".data <:+: (Invoke unknownInvoke).1.Message.data) := by
  refine ⟨rfl, by decide, by decide, ?_⟩
  intro h
  have hz : 'z' ∈ (Invoke unknownInvoke).1.Message.data :=
    h.subset (List.mem_cons_self _ _)
  revert hz
  decide

set_option maxRecDepth 1000000 in
/-- The failing input of C15: the write of the index entry fails at the peer,
`initFileTransfer` has issued it after the record and the detail, and returns
success with the record and the detail written and no index entry. -/
theorem create_ignores_index_put_error :
    indexFaultCreate.putErr "collectionFileTransfer" (indexKey "auth1" "transfer1") =
        some "put failed" ∧
      (initFileTransfer indexFaultCreate []).1 = shim.Success none ∧
      Call.PutPrivateData "collectionFileTransfer" (indexKey "auth1" "transfer1") "\x00" ∈
        (initFileTransfer indexFaultCreate []).2.log ∧
      (initFileTransfer indexFaultCreate []).2.state "collectionFileTransfer"
        (indexKey "auth1" "transfer1") = none ∧
      (initFileTransfer indexFaultCreate []).2.state "collectionFileTransfer" "transfer1" ≠
        none :=
  ⟨by decide, by decide, by decide, by decide, by decide⟩

/-- C17: a decoded create input with an empty field is rejected with the
message of one field `f`: `f` is empty, every field before it in the order
name, description, originator, recipient, authorization, address,
encryptionKey is non-empty, and every other create input in which `f` is empty
and the fields before it are non-empty gets the same message, whatever its
later fields hold. -/
theorem validation_names_first_empty_field (stub : ChaincodeStub) (payload : Bytes)
    (input : transferTransientInput)
    (ht : stub.transientErr = none)
    (hp : stub.transient.lookup "fileTransfer" = some payload)
    (hd : json.UnmarshalTransferInput payload = Except.ok input)
    (hinc : ¬ input.complete) :
    ∃ f before after, inputFields = before ++ f :: after ∧
      input.get f = "" ∧ (∀ g ∈ before, input.get g ≠ "") ∧
      (initFileTransfer stub []).1 = shim.Error (f ++ " field must be a non-empty string") ∧
      ∀ (stub2 : ChaincodeStub) (payload2 : Bytes) (input2 : transferTransientInput),
        stub2.transientErr = none →
        stub2.transient.lookup "fileTransfer" = some payload2 →
        json.UnmarshalTransferInput payload2 = Except.ok input2 →
        input2.get f = "" → (∀ g ∈ before, input2.get g ≠ "") →
        (initFileTransfer stub2 []).1 =
          shim.Error (f ++ " field must be a non-empty string") := by
  obtain ⟨f, hfe⟩ := firstEmptyField_of_not_complete hinc
  obtain ⟨hf, before, after, hsplit, hbefore⟩ := (firstEmptyField_iff input f).1 hfe
  refine ⟨f, before, after, hsplit, hf, hbefore, ?_, ?_⟩
  · rw [initFileTransfer_invalid stub payload input f ht hp hd hfe]
  · intro stub2 payload2 input2 ht2 hp2 hd2 hf2 hb2
    have hfe2 : firstEmptyField input2 = some f :=
      (firstEmptyField_iff input2 f).2 ⟨hf2, before, after, hsplit, hb2⟩
    rw [initFileTransfer_invalid stub2 payload2 input2 f ht2 hp2 hd2 hfe2]

set_option maxRecDepth 1000000 in
theorem validation_names_first_empty_field_witness :
    (initFileTransfer twoEmptyCreate []).1 =
      shim.Error "originator field must be a non-empty string" := by
  obtain ⟨f, before, after, hsplit, hf, hb, hmsg, _⟩ :=
    validation_names_first_empty_field twoEmptyCreate twoEmptyPayload twoEmptyInput rfl
      (by decide) (by decide) (by decide)
  have hfe : firstEmptyField twoEmptyInput = some f :=
    (firstEmptyField_iff twoEmptyInput f).2 ⟨hf, before, after, hsplit, hb⟩
  have : firstEmptyField twoEmptyInput = some "originator" := by decide
  rw [this] at hfe
  have e := Option.some.inj hfe
  subst e
  exact hmsg

/-- C19: in every state reached from the empty state by invocations, when a
decodable record is stored under the name, `delete` issues its deletes in the
order record, index entry of the stored authorization and the name, private
detail.  When the delete of the record fails, nothing else is issued; when the
index key cannot be built, only the record has been deleted; when the delete
of the index entry fails, the delete of the detail is not issued; in each
case, and when the delete of the detail fails, the response is an error.
Success is returned only when the key was built and the three deletes did not
fail, and then all three were issued in that order. -/
theorem delete_ordered_fail_fast (stub : ChaincodeStub) (payload : Bytes)
    (input : transferDeleteTransientInput) (valAsbytes : Bytes) (t : fileTransfer)
    (ht : stub.transientErr = none)
    (hp : stub.transient.lookup "transfer_delete" = some payload)
    (hd : json.UnmarshalDeleteInput payload = Except.ok input)
    (hn : input.Name ≠ "")
    (hg : stub.getErr "collectionFileTransfer" input.Name = none)
    (hs : stub.state "collectionFileTransfer" input.Name = some valAsbytes)
    (hu : json.UnmarshalTransfer valAsbytes = Except.ok t)
    (hr : ReachableByInvocations stub.state) :
    (∀ e, stub.delErr "collectionFileTransfer" input.Name = some e →
      delete stub [] =
        (shim.Error ("Failed to delete state:" ++ e),
          { stub with
            log := stub.log ++
              [Call.GetTransient, Call.GetPrivateData "collectionFileTransfer" input.Name,
                Call.DelPrivateData "collectionFileTransfer" input.Name] })) ∧
    (∀ e, stub.delErr "collectionFileTransfer" input.Name = none →
      CreateCompositeKey "authorization~name" [t.Authorization, input.Name] = Except.error e →
      delete stub [] =
        (shim.Error e,
          { stub with
            state := stub.state.set "collectionFileTransfer" input.Name none
            log := stub.log ++
              [Call.GetTransient, Call.GetPrivateData "collectionFileTransfer" input.Name,
                Call.DelPrivateData "collectionFileTransfer" input.Name] })) ∧
    (∀ k e, stub.delErr "collectionFileTransfer" input.Name = none →
      CreateCompositeKey "authorization~name" [t.Authorization, input.Name] = Except.ok k →
      stub.delErr "collectionFileTransfer" k = some e →
      delete stub [] =
        (shim.Error ("Failed to delete state:" ++ e),
          { stub with
            state := stub.state.set "collectionFileTransfer" input.Name none
            log := stub.log ++
              [Call.GetTransient, Call.GetPrivateData "collectionFileTransfer" input.Name,
                Call.DelPrivateData "collectionFileTransfer" input.Name,
                Call.DelPrivateData "collectionFileTransfer" k] })) ∧
    (∀ k e, stub.delErr "collectionFileTransfer" input.Name = none →
      CreateCompositeKey "authorization~name" [t.Authorization, input.Name] = Except.ok k →
      stub.delErr "collectionFileTransfer" k = none →
      stub.delErr "collectionFileTransferPrivateDetails" input.Name = some e →
      delete stub [] =
        (shim.Error e,
          { stub with
            state := (stub.state.set "collectionFileTransfer" input.Name none).set
              "collectionFileTransfer" k none
            log := stub.log ++
              [Call.GetTransient, Call.GetPrivateData "collectionFileTransfer" input.Name,
                Call.DelPrivateData "collectionFileTransfer" input.Name,
                Call.DelPrivateData "collectionFileTransfer" k,
                Call.DelPrivateData "collectionFileTransferPrivateDetails" input.Name] })) ∧
    ((delete stub []).1.Status = shim.OK →
      ∃ k, CreateCompositeKey "authorization~name" [t.Authorization, input.Name] = Except.ok k ∧
        stub.delErr "collectionFileTransfer" input.Name = none ∧
        stub.delErr "collectionFileTransfer" k = none ∧
        stub.delErr "collectionFileTransferPrivateDetails" input.Name = none ∧
        (delete stub []).2.log = stub.log ++
          [Call.GetTransient, Call.GetPrivateData "collectionFileTransfer" input.Name,
            Call.DelPrivateData "collectionFileTransfer" input.Name,
            Call.DelPrivateData "collectionFileTransfer" k,
            Call.DelPrivateData "collectionFileTransferPrivateDetails" input.Name]) := by
  have hname : t.Name = input.Name :=
    named_record_name (reachableByInvocations_named hr) hs hu
  have hpl := payload_ne_empty_of_delete hd
  have l1 := mt (length_eq_zero_iff _).1 hn
  have c1 : ∀ e, stub.delErr "collectionFileTransfer" input.Name = some e →
      delete stub [] =
        (shim.Error ("Failed to delete state:" ++ e),
          { stub with
            log := stub.log ++
              [Call.GetTransient, Call.GetPrivateData "collectionFileTransfer" input.Name,
                Call.DelPrivateData "collectionFileTransfer" input.Name] }) := by
    intro e h1
    simp [delete, ChaincodeStub.GetTransient, ChaincodeStub.GetPrivateData,
      ChaincodeStub.DelPrivateData, ChaincodeStub.issue, ht, hp, hpl, hd, l1, hg, hs, hu, hname, h1]
  have c2 : ∀ e, stub.delErr "collectionFileTransfer" input.Name = none →
      CreateCompositeKey "authorization~name" [t.Authorization, input.Name] = Except.error e →
      delete stub [] =
        (shim.Error e,
          { stub with
            state := stub.state.set "collectionFileTransfer" input.Name none
            log := stub.log ++
              [Call.GetTransient, Call.GetPrivateData "collectionFileTransfer" input.Name,
                Call.DelPrivateData "collectionFileTransfer" input.Name] }) := by
    intro e h1 h2
    simp [delete, ChaincodeStub.GetTransient, ChaincodeStub.GetPrivateData,
      ChaincodeStub.DelPrivateData, ChaincodeStub.issue, ht, hp, hpl, hd, l1, hg, hs, hu, hname, h1,
      h2]
  have c3 : ∀ k e, stub.delErr "collectionFileTransfer" input.Name = none →
      CreateCompositeKey "authorization~name" [t.Authorization, input.Name] = Except.ok k →
      stub.delErr "collectionFileTransfer" k = some e →
      delete stub [] =
        (shim.Error ("Failed to delete state:" ++ e),
          { stub with
            state := stub.state.set "collectionFileTransfer" input.Name none
            log := stub.log ++
              [Call.GetTransient, Call.GetPrivateData "collectionFileTransfer" input.Name,
                Call.DelPrivateData "collectionFileTransfer" input.Name,
                Call.DelPrivateData "collectionFileTransfer" k] }) := by
    intro k e h1 h2 h3
    simp [delete, ChaincodeStub.GetTransient, ChaincodeStub.GetPrivateData,
      ChaincodeStub.DelPrivateData, ChaincodeStub.issue, ht, hp, hpl, hd, l1, hg, hs, hu, hname, h1,
      h2, h3]
  have c4 : ∀ k e, stub.delErr "collectionFileTransfer" input.Name = none →
      CreateCompositeKey "authorization~name" [t.Authorization, input.Name] = Except.ok k →
      stub.delErr "collectionFileTransfer" k = none →
      stub.delErr "collectionFileTransferPrivateDetails" input.Name = some e →
      delete stub [] =
        (shim.Error e,
          { stub with
            state := (stub.state.set "collectionFileTransfer" input.Name none).set
              "collectionFileTransfer" k none
            log := stub.log ++
              [Call.GetTransient, Call.GetPrivateData "collectionFileTransfer" input.Name,
                Call.DelPrivateData "collectionFileTransfer" input.Name,
                Call.DelPrivateData "collectionFileTransfer" k,
                Call.DelPrivateData "collectionFileTransferPrivateDetails" input.Name] }) := by
    intro k e h1 h2 h3 h4
    simp [delete, ChaincodeStub.GetTransient, ChaincodeStub.GetPrivateData,
      ChaincodeStub.DelPrivateData, ChaincodeStub.issue, ht, hp, hpl, hd, l1, hg, hs, hu, hname, h1,
      h2, h3, h4]
  refine ⟨c1, c2, c3, c4, ?_⟩
  intro hok
  have hE : ∀ (m : String) (s : ChaincodeStub), delete stub [] = (shim.Error m, s) → False := by
    intro m s h
    rw [h] at hok
    simp [shim.Error, shim.OK, shim.ERROR] at hok
  cases h1 : stub.delErr "collectionFileTransfer" input.Name with
  | some e => exact (hE _ _ (c1 e h1)).elim
  | none =>
  cases h2 : CreateCompositeKey "authorization~name" [t.Authorization, input.Name] with
  | error e => exact (hE _ _ (c2 e h1 h2)).elim
  | ok k =>
  cases h3 : stub.delErr "collectionFileTransfer" k with
  | some e => exact (hE _ _ (c3 k e h1 h2 h3)).elim
  | none =>
  cases h4 : stub.delErr "collectionFileTransferPrivateDetails" input.Name with
  | some e => exact (hE _ _ (c4 k e h1 h2 h3 h4)).elim
  | none =>
  refine ⟨k, rfl, rfl, h3, ?_, ?_⟩
  · rfl
  simp [delete, ChaincodeStub.GetTransient, ChaincodeStub.GetPrivateData,
    ChaincodeStub.DelPrivateData, ChaincodeStub.issue, ht, hp, hpl, hd, l1, hg, hs, hu, hname, h1,
    h2, h3, h4]

set_option maxRecDepth 1000000 in
theorem delete_ordered_fail_fast_witness :
    delete indexFaultDelete [] =
      (shim.Error "Failed to delete state:del failed",
        { indexFaultDelete with
          state := sampleState.set "collectionFileTransfer" "transfer1" none
          log :=
            [Call.GetTransient, Call.GetPrivateData "collectionFileTransfer" "transfer1",
              Call.DelPrivateData "collectionFileTransfer" "transfer1",
              Call.DelPrivateData "collectionFileTransfer" (indexKey "auth1" "transfer1")] }) :=
  (delete_ordered_fail_fast indexFaultDelete "\x7b\"name\":\"transfer1\"\x7d" ⟨"transfer1"⟩
    (json.MarshalTransfer (newTransfer sampleInput)) (newTransfer sampleInput)
    rfl (by decide) (by decide) (by decide) rfl (by decide) (by decide)
    sampleState_reachable).2.2.1
    (indexKey "auth1" "transfer1") "del failed" (by decide) (by decide) (by decide)

/-- C20: for each of `initFileTransfer` (key `fileTransfer`), `delete` (key
`transfer_delete`) and `accessFile` (key `transfer_flag`), called without
arguments on a peer whose transient map can be read: a transient map without
the key gives the missing-key error; else an empty value gives the
non-empty-JSON error; else a value that does not decode gives the decode
error; else an empty name gives the name validation error; and in all four
cases the only call issued is the read of the transient map, so the store is
neither read nor written.  The flag of the access input is exempt: an input
that decodes with a non-empty name goes on to the read of the record whatever
its flag holds, and an object that decodes still decodes, to the same name,
when its `hasBeenAccessed` members are left out. -/
theorem transient_checks_ordered (stub : ChaincodeStub) (ht : stub.transientErr = none) :
    (∀ op key nameOf, (op, key, nameOf) ∈ transientOps →
      (stub.transient.lookup key = none →
        op stub [] =
          (shim.Error (key ++ " must be a key in the transient map"),
            stub.issue Call.GetTransient)) ∧
      (stub.transient.lookup key = some "" →
        op stub [] =
          (shim.Error (key ++ " value in the transient map must be a non-empty JSON string"),
            stub.issue Call.GetTransient)) ∧
      (∀ payload, stub.transient.lookup key = some payload → payload ≠ "" →
        nameOf payload = none →
        op stub [] =
          (shim.Error ("Failed to decode JSON of: " ++ payload),
            stub.issue Call.GetTransient)) ∧
      (∀ payload, stub.transient.lookup key = some payload → payload ≠ "" →
        nameOf payload = some "" →
        op stub [] =
          (shim.Error "name field must be a non-empty string",
            stub.issue Call.GetTransient))) ∧
    (∀ payload input, stub.transient.lookup "transfer_flag" = some payload →
      json.UnmarshalAccessInput payload = Except.ok input → input.Name ≠ "" →
      ∃ rest, (accessFile stub []).2.log =
        stub.log ++ Call.GetTransient ::
          Call.GetPrivateData "collectionFileTransfer" input.Name :: rest) ∧
    (∀ ms input,
      json.decodeMembers ["name", "hasBeenAccessed"] json.setAccessInput ms ⟨"", false⟩ =
        some input →
      json.decodeMembers ["name", "hasBeenAccessed"] json.setAccessInput
          (ms.filter fun m =>
            decide (json.findField ["name", "hasBeenAccessed"] m.1 ≠ some "hasBeenAccessed"))
          ⟨"", false⟩ =
        some ⟨input.Name, false⟩) := by
  refine ⟨?_, fun payload input hp hd hn => accessFile_checks_passed stub payload input ht hp hd hn,
    fun ms input h => decodeMembers_access_without_flag ms ⟨"", false⟩ input false h⟩
  intro op key nameOf hmem
  simp only [transientOps, List.mem_cons, Prod.mk.injEq, List.mem_singleton, List.mem_nil_iff,
    or_false] at hmem
  rcases hmem with ⟨rfl, rfl, rfl⟩ | ⟨rfl, rfl, rfl⟩ | ⟨rfl, rfl, rfl⟩
  · refine ⟨?_, ?_, ?_, ?_⟩
    · intro h
      simp [initFileTransfer, ChaincodeStub.GetTransient, ChaincodeStub.issue, ht, h]
    · intro h
      simp [initFileTransfer, ChaincodeStub.GetTransient, ChaincodeStub.issue, ht, h]
    · intro payload h hne hdec
      have l0 := mt (length_eq_zero_iff _).1 hne
      cases hd : json.UnmarshalTransferInput payload with
      | ok input => simp [hd] at hdec
      | error e =>
        simp [initFileTransfer, ChaincodeStub.GetTransient, ChaincodeStub.issue, ht, h, l0, hd]
    · intro payload h hne hdec
      have l0 := mt (length_eq_zero_iff _).1 hne
      cases hd : json.UnmarshalTransferInput payload with
      | error e => simp [hd] at hdec
      | ok input =>
        simp only [hd, Option.some.injEq] at hdec
        simp [initFileTransfer, ChaincodeStub.GetTransient, ChaincodeStub.issue, ht, h, l0, hd,
          hdec]
  · refine ⟨?_, ?_, ?_, ?_⟩
    · intro h
      simp [delete, ChaincodeStub.GetTransient, ChaincodeStub.issue, ht, h]
    · intro h
      simp [delete, ChaincodeStub.GetTransient, ChaincodeStub.issue, ht, h]
    · intro payload h hne hdec
      have l0 := mt (length_eq_zero_iff _).1 hne
      cases hd : json.UnmarshalDeleteInput payload with
      | ok input => simp [hd] at hdec
      | error e =>
        simp [delete, ChaincodeStub.GetTransient, ChaincodeStub.issue, ht, h, l0, hd]
    · intro payload h hne hdec
      have l0 := mt (length_eq_zero_iff _).1 hne
      cases hd : json.UnmarshalDeleteInput payload with
      | error e => simp [hd] at hdec
      | ok input =>
        simp only [hd, Option.some.injEq] at hdec
        simp [delete, ChaincodeStub.GetTransient, ChaincodeStub.issue, ht, h, l0, hd, hdec]
  · refine ⟨?_, ?_, ?_, ?_⟩
    · intro h
      simp [accessFile, ChaincodeStub.GetTransient, ChaincodeStub.issue, ht, h]
    · intro h
      simp [accessFile, ChaincodeStub.GetTransient, ChaincodeStub.issue, ht, h]
    · intro payload h hne hdec
      have l0 := mt (length_eq_zero_iff _).1 hne
      cases hd : json.UnmarshalAccessInput payload with
      | ok input => simp [hd] at hdec
      | error e =>
        simp [accessFile, ChaincodeStub.GetTransient, ChaincodeStub.issue, ht, h, l0, hd]
    · intro payload h hne hdec
      have l0 := mt (length_eq_zero_iff _).1 hne
      cases hd : json.UnmarshalAccessInput payload with
      | error e => simp [hd] at hdec
      | ok input =>
        simp only [hd, Option.some.injEq] at hdec
        simp [accessFile, ChaincodeStub.GetTransient, ChaincodeStub.issue, ht, h, l0, hd, hdec]

set_option maxRecDepth 1000000 in
theorem transient_checks_ordered_witness :
    delete missingKeyDelete [] =
      (shim.Error "transfer_delete must be a key in the transient map",
        missingKeyDelete.issue Call.GetTransient) :=
  ((transient_checks_ordered missingKeyDelete rfl).1 delete "transfer_delete" _
    (List.mem_cons_of_mem _ (List.mem_cons_self _ _))).1 (by decide)

/-- C18: in every state reached from the empty state by invocations, when the
bytes under the name in `collectionFileTransfer` decode to a record, a
successful `accessFile` of the name leaves
`collectionFileTransferPrivateDetails` unchanged, leaves every key other than
the name unchanged in every collection (so every other record and every index
entry, whose value is the sentinel), and leaves under the name bytes that
decode to the stored record with `HasBeenAccessed` set: docType, name,
description, originator, recipient and authorization keep their stored
values. -/
theorem accessFile_rewrites_record_only (stub : ChaincodeStub) (payload : Bytes)
    (input : fileAccessTransientInput) (transferAsBytes : Bytes) (t : fileTransfer)
    (hp : stub.transient.lookup "transfer_flag" = some payload)
    (hd : json.UnmarshalAccessInput payload = Except.ok input)
    (hs : stub.state "collectionFileTransfer" input.Name = some transferAsBytes)
    (hu : json.UnmarshalTransfer transferAsBytes = Except.ok t)
    (hr : ReachableByInvocations stub.state)
    (hok : (accessFile stub []).1.Status = shim.OK) :
    (∀ k, (accessFile stub []).2.state "collectionFileTransferPrivateDetails" k =
      stub.state "collectionFileTransferPrivateDetails" k) ∧
    (∀ c k, ¬ (c = "collectionFileTransfer" ∧ k = input.Name) →
      (accessFile stub []).2.state c k = stub.state c k) ∧
    (∀ k, stub.state "collectionFileTransfer" k = some "\x00" →
      (accessFile stub []).2.state "collectionFileTransfer" k = some "\x00") ∧
    ∃ b1 t1, (accessFile stub []).2.state "collectionFileTransfer" input.Name = some b1 ∧
      json.UnmarshalTransfer b1 = Except.ok t1 ∧
      t1.ObjectType = t.ObjectType ∧ t1.Name = t.Name ∧ t1.Description = t.Description ∧
      t1.Originator = t.Originator ∧ t1.Recipient = t.Recipient ∧
      t1.Authorization = t.Authorization ∧ t1.HasBeenAccessed = true := by
  have htn : t.Name = input.Name :=
    named_record_name (reachableByInvocations_named hr) hs hu
  obtain ⟨payload1, input1, b1, t1, -, hp1, hd1, -, hs1, hu1, -, heq⟩ := accessFile_success hok
  rw [hp] at hp1
  have e1 := Option.some.inj hp1
  subst e1
  rw [hd] at hd1
  have e2 := Except.ok.inj hd1
  subst e2
  rw [hs] at hs1
  have e3 := Option.some.inj hs1
  subst e3
  rw [hu] at hu1
  have e4 := Except.ok.inj hu1
  subst e4
  have hst : (accessFile stub []).2.state =
      stub.state.set "collectionFileTransfer" input.Name
        (some (json.MarshalTransfer { t with HasBeenAccessed := true })) := by
    rw [heq, htn]
  rw [hst]
  have hframe : ∀ c k, ¬ (c = "collectionFileTransfer" ∧ k = input.Name) →
      (stub.state.set "collectionFileTransfer" input.Name
        (some (json.MarshalTransfer { t with HasBeenAccessed := true }))) c k =
        stub.state c k := by
    intro c k hne
    simp only [State.set]
    rw [if_neg hne]
  have hself : (stub.state.set "collectionFileTransfer" input.Name
        (some (json.MarshalTransfer { t with HasBeenAccessed := true })))
        "collectionFileTransfer" input.Name =
      some (json.MarshalTransfer { t with HasBeenAccessed := true }) := by
    simp [State.set]
  refine ⟨?_, hframe, ?_, ?_⟩
  · intro k
    exact hframe _ k (fun h => collections_ne h.1)
  · intro k hk
    have hne : ¬ ("collectionFileTransfer" = "collectionFileTransfer" ∧ k = input.Name) := by
      rintro ⟨-, rfl⟩
      rw [hs] at hk
      have e5 := Option.some.inj hk
      subst e5
      rw [UnmarshalTransfer_sentinel] at hu
      exact Except.noConfusion hu
    exact (hframe _ k hne).trans hk
  · exact ⟨_, _, hself, json.UnmarshalTransfer_MarshalTransfer _, rfl, rfl, rfl, rfl, rfl, rfl,
      rfl⟩

set_option maxRecDepth 1000000 in
theorem accessFile_rewrites_record_only_witness :
    (accessFile (sampleAccessOn sampleState) []).1.Status = shim.OK ∧
    (∀ c k, ¬ (c = "collectionFileTransfer" ∧ k = "transfer1") →
      (accessFile (sampleAccessOn sampleState) []).2.state c k = sampleState c k) :=
  ⟨by decide,
    (accessFile_rewrites_record_only (sampleAccessOn sampleState) "\x7b\"name\":\"transfer1\"\x7d"
      ⟨"transfer1", false⟩ (json.MarshalTransfer (newTransfer sampleInput))
      (newTransfer sampleInput) (by decide) (by decide) (by decide) (by decide)
      sampleState_reachable (by decide)).2.1⟩

/-- C16: for every invocation whose function is not
`readFileTransferPrivateDetails` (whatever the function name, the arguments,
the transient map and the failing calls) and every store that holds in
`collectionFileTransfer` what the store of the invocation holds, whatever it
holds in `collectionFileTransferPrivateDetails`, the invocation on that store
returns the same response: status, message and payload; so does `Init`.  The
invocation issues no get and no rich query on
`collectionFileTransferPrivateDetails`, so no byte of its response is read from
there. -/
theorem private_details_noninterference (stub : ChaincodeStub) (st2 : State)
    (hfun : stub.function ≠ "readFileTransferPrivateDetails")
    (hpub : ∀ k, st2 "collectionFileTransfer" k = stub.state "collectionFileTransfer" k) :
    (Init { stub with state := st2 }).1 = (Init stub).1 ∧
      (Invoke { stub with state := st2 }).1 = (Invoke stub).1 ∧
      ∃ new, (Invoke stub).2.log = stub.log ++ new ∧
        ∀ c ∈ new, Call.readsFrom "collectionFileTransferPrivateDetails" c = false := by
  refine ⟨rfl, ?_⟩
  unfold Invoke
  simp only [hfun, if_false]
  split
  · exact initFileTransfer_noninterference stub st2 _ hpub
  split
  · exact readFileTransfer_noninterference stub st2 _ hpub
  split
  · exact delete_noninterference stub st2 _ hpub
  split
  · exact queryFileTransferByOwner_noninterference stub st2 _ hpub
  split
  · exact queryTransfers_noninterference stub st2 _ hpub
  split
  · exact accessFile_noninterference stub st2 _ hpub
  · exact ⟨rfl, [], by simp, by simp⟩

set_option maxRecDepth 1000000 in
theorem private_details_noninterference_witness :
    (Invoke (sampleDeleteOn otherDetailsState)).1 = (Invoke (sampleDeleteOn sampleState)).1 ∧
      otherDetailsState "collectionFileTransferPrivateDetails" "transfer1" ≠
        sampleState "collectionFileTransferPrivateDetails" "transfer1" :=
  ⟨(private_details_noninterference (sampleDeleteOn sampleState) otherDetailsState
      (by decide)
      (fun k => by simp [otherDetailsState, State.set, sampleDeleteOn, stubOn])).2.1,
    by decide⟩

/-- C23: called with a non-empty argument list, `initFileTransfer`, `delete`
and `accessFile` return their incorrect-number-of-arguments error and the stub
as it was: no call is issued (neither the read of the transient map nor a
store call) and the state is unchanged, whatever the transient map holds. -/
theorem sensitive_operations_refuse_arguments (stub : ChaincodeStub) (args : List String)
    (h : args ≠ []) :
    initFileTransfer stub args =
      (shim.Error
        "Incorrect number of arguments. Private transfer data must be passed in transient map.",
        stub) ∧
    delete stub args =
      (shim.Error
        "Incorrect number of arguments. Private transfer name must be passed in transient map.",
        stub) ∧
    accessFile stub args =
      (shim.Error
        "Incorrect number of arguments. Private transfer data must be passed in transient map.",
        stub) := by
  have hl : args.length ≠ 0 := fun h0 => h (List.length_eq_zero.1 h0)
  exact ⟨by simp [initFileTransfer, hl], by simp [delete, hl], by simp [accessFile, hl]⟩

theorem sensitive_operations_refuse_arguments_witness :
    initFileTransfer visibleCreate [samplePayload] =
      (shim.Error
        "Incorrect number of arguments. Private transfer data must be passed in transient map.",
        visibleCreate) :=
  (sensitive_operations_refuse_arguments visibleCreate [samplePayload] (by simp)).1

/-- C26: for every stub (state, arguments, transient map, failing calls),
`Init` returns the stub as it was; `readFileTransfer`,
`readFileTransferPrivateDetails`, `queryFileTransferByOwner` and
`queryTransfers` leave the state unchanged in both collections and issue no
put and no delete, whether they succeed or fail; an `Invoke` whose function is
none of the seven dispatched names returns the stub as it was. -/
theorem read_only_operations_stage_no_writes (stub : ChaincodeStub) (args : List String) :
    (Init stub).2 = stub ∧
    (∀ op ∈ [readFileTransfer, readFileTransferPrivateDetails, queryFileTransferByOwner,
        queryTransfers],
      (op stub args).2.state = stub.state ∧
        ∃ new, (op stub args).2.log = stub.log ++ new ∧ ∀ c ∈ new, Call.isWrite c = false) ∧
    (stub.function ∉ dispatched → (Invoke stub).2 = stub) := by
  refine ⟨rfl, ?_, ?_⟩
  · intro op hop
    simp only [List.mem_cons, List.mem_singleton, List.mem_nil_iff, or_false] at hop
    rcases hop with rfl | rfl | rfl | rfl
    · exact readFileTransfer_readOnly stub args
    · exact readFileTransferPrivateDetails_readOnly stub args
    · exact queryFileTransferByOwner_readOnly stub args
    · exact queryTransfers_readOnly stub args
  · intro hf
    simp only [dispatched, List.mem_cons, List.mem_singleton, List.mem_nil_iff, or_false,
      not_or] at hf
    obtain ⟨h1, h2, h3, h4, h5, h6, h7⟩ := hf
    simp [Invoke, h1, h2, h3, h4, h5, h6, h7]

theorem read_only_operations_stage_no_writes_witness :
    (Invoke unknownInvoke).2 = unknownInvoke :=
  (read_only_operations_stage_no_writes unknownInvoke []).2.2 (by decide)

/-- C24: for every stub (state, failing calls) and any two transient maps
whose `transfer_flag` values decode to access inputs with the same name,
whatever their `hasBeenAccessed` flags hold (true, false, or left out, which
decodes to false), `accessFile` returns the same response, leaves the same
state and issues the same calls.  When the call succeeds, the bytes it wrote
decode to the stored record with `HasBeenAccessed` true, also when the input
flag is false. -/
theorem accessFile_ignores_flag (stub : ChaincodeStub)
    (transient1 transient2 : List (String × Bytes)) (payload1 payload2 : Bytes)
    (input1 input2 : fileAccessTransientInput)
    (hp1 : transient1.lookup "transfer_flag" = some payload1)
    (hp2 : transient2.lookup "transfer_flag" = some payload2)
    (hd1 : json.UnmarshalAccessInput payload1 = Except.ok input1)
    (hd2 : json.UnmarshalAccessInput payload2 = Except.ok input2)
    (hn : input1.Name = input2.Name) :
    (accessFile { stub with transient := transient1 } []).1 =
        (accessFile { stub with transient := transient2 } []).1 ∧
      (accessFile { stub with transient := transient1 } []).2.state =
        (accessFile { stub with transient := transient2 } []).2.state ∧
      (accessFile { stub with transient := transient1 } []).2.log =
        (accessFile { stub with transient := transient2 } []).2.log ∧
      ((accessFile { stub with transient := transient1 } []).1.Status = shim.OK →
        ∃ transferAsBytes t,
          stub.state "collectionFileTransfer" input1.Name = some transferAsBytes ∧
          json.UnmarshalTransfer transferAsBytes = Except.ok t ∧
          (accessFile { stub with transient := transient1 } []).2.state
              "collectionFileTransfer" t.Name =
            some (json.MarshalTransfer { t with HasBeenAccessed := true }) ∧
          json.UnmarshalTransfer (json.MarshalTransfer { t with HasBeenAccessed := true }) =
            Except.ok { t with HasBeenAccessed := true }) := by
  obtain ⟨h1, h2, h3⟩ :=
    accessFile_flag_independent stub transient1 transient2 payload1 payload2 input1 input2
      hp1 hp2 hd1 hd2 hn
  refine ⟨h1, h2, h3, ?_⟩
  intro hok
  obtain ⟨p, i, b, t, -, hp, hd, -, hs, hu, -, heq⟩ := accessFile_success hok
  have hp3 : transient1.lookup "transfer_flag" = some p := hp
  rw [hp1] at hp3
  have e1 := Option.some.inj hp3
  subst e1
  rw [hd1] at hd
  have e2 := Except.ok.inj hd
  subst e2
  refine ⟨b, t, hs, hu, ?_, json.UnmarshalTransfer_MarshalTransfer _⟩
  have hst : (accessFile { stub with transient := transient1 } []).2.state =
      stub.state.set "collectionFileTransfer" t.Name
        (some (json.MarshalTransfer { t with HasBeenAccessed := true })) := by
    rw [heq]
  rw [hst]
  simp [State.set]

set_option maxRecDepth 1000000 in
theorem accessFile_ignores_flag_witness :
    ((accessFile (accessWith sampleState "\x7b\"name\":\"transfer1\",\"hasBeenAccessed\":false\x7d")
        []).1 =
      (accessFile (accessWith sampleState "\x7b\"name\":\"transfer1\",\"hasBeenAccessed\":true\x7d")
        []).1 ∧
    (accessFile (accessWith sampleState "\x7b\"name\":\"transfer1\",\"hasBeenAccessed\":false\x7d")
        []).2.state =
      (accessFile (accessWith sampleState "\x7b\"name\":\"transfer1\",\"hasBeenAccessed\":true\x7d")
        []).2.state) ∧
    ((accessFile (accessWith sampleState "\x7b\"name\":\"transfer1\",\"hasBeenAccessed\":false\x7d")
        []).1 =
      (accessFile (accessWith sampleState "\x7b\"name\":\"transfer1\"\x7d") []).1 ∧
    (accessFile (accessWith sampleState "\x7b\"name\":\"transfer1\",\"hasBeenAccessed\":false\x7d")
        []).2.state =
      (accessFile (accessWith sampleState "\x7b\"name\":\"transfer1\"\x7d") []).2.state) ∧
    (accessFile (accessWith sampleState "\x7b\"name\":\"transfer1\",\"hasBeenAccessed\":false\x7d")
        []).2.state "collectionFileTransfer" "transfer1" =
      some (json.MarshalTransfer { newTransfer sampleInput with HasBeenAccessed := true }) :=
  have a := accessFile_ignores_flag
    (accessWith sampleState "\x7b\"name\":\"transfer1\",\"hasBeenAccessed\":false\x7d")
    [("transfer_flag", "\x7b\"name\":\"transfer1\",\"hasBeenAccessed\":false\x7d")]
    [("transfer_flag", "\x7b\"name\":\"transfer1\",\"hasBeenAccessed\":true\x7d")]
    "\x7b\"name\":\"transfer1\",\"hasBeenAccessed\":false\x7d"
    "\x7b\"name\":\"transfer1\",\"hasBeenAccessed\":true\x7d"
    ⟨"transfer1", false⟩ ⟨"transfer1", true⟩ (by decide) (by decide) (by decide) (by decide) rfl
  have b := accessFile_ignores_flag
    (accessWith sampleState "\x7b\"name\":\"transfer1\",\"hasBeenAccessed\":false\x7d")
    [("transfer_flag", "\x7b\"name\":\"transfer1\",\"hasBeenAccessed\":false\x7d")]
    [("transfer_flag", "\x7b\"name\":\"transfer1\"\x7d")]
    "\x7b\"name\":\"transfer1\",\"hasBeenAccessed\":false\x7d"
    "\x7b\"name\":\"transfer1\"\x7d"
    ⟨"transfer1", false⟩ ⟨"transfer1", false⟩ (by decide) (by decide) (by decide) (by decide) rfl
  ⟨⟨a.1, a.2.1⟩, ⟨b.1, b.2.1⟩, by decide⟩

set_option maxRecDepth 1000000 in
/-- C21: the sample create (originator `alice`) succeeds and stores under
`transfer1` a record whose docType is `fileTransfer` and whose originator is
`alice`; the query by owner for `alice` on the resulting state hands the
executor a selector whose docType value is `transfer`, which that record does
not satisfy (with `fileTransfer` in its place it would).  The selector also
holds the lower-cased argument: for `Alice` its originator value is `alice`. -/
theorem canned_query_misses_created_records :
    (initFileTransfer sampleCreate []).1 = shim.Success none ∧
    (initFileTransfer sampleCreate []).2.state "collectionFileTransfer" "transfer1" =
      some (json.MarshalTransfer (newTransfer sampleInput)) ∧
    (newTransfer sampleInput).ObjectType = "fileTransfer" ∧
    (newTransfer sampleInput).Originator = "alice" ∧
    (queryFileTransferByOwner sampleOwnerQuery ["alice"]).2.log =
      [Call.GetPrivateDataQueryResult "collectionFileTransfer"
        "\x7b\"selector\":\x7b\"docType\":\"transfer\",\"originator\":\"alice\"\x7d\x7d"] ∧
    selectorValue "\x7b\"selector\":\x7b\"docType\":\"transfer\",\"originator\":\"alice\"\x7d\x7d"
      "docType" = some "transfer" ∧
    selectorValue "\x7b\"selector\":\x7b\"docType\":\"transfer\",\"originator\":\"alice\"\x7d\x7d"
      "originator" = some "alice" ∧
    satisfiesSelector "\x7b\"selector\":\x7b\"docType\":\"transfer\",\"originator\":\"alice\"\x7d\x7d"
      (newTransfer sampleInput) = false ∧
    satisfiesSelector "\x7b\"selector\":\x7b\"docType\":\"fileTransfer\",\"originator\":\"alice\"\x7d\x7d"
      (newTransfer sampleInput) = true ∧
    (queryFileTransferByOwner sampleOwnerQuery ["Alice"]).2.log =
      [Call.GetPrivateDataQueryResult "collectionFileTransfer"
        "\x7b\"selector\":\x7b\"docType\":\"transfer\",\"originator\":\"alice\"\x7d\x7d"] := by
  refine ⟨by decide, by decide, rfl, rfl, by decide, by decide, by decide, by decide,
    by decide, by decide⟩

/-- C25: in every state reached from the empty state by invocations of any
kind (any function, arguments, transient map and failing calls, successful or
not), every entry of `collectionFileTransfer` is the sentinel under an index
key or decodes to a record whose name field is the key, so an entry under a key
that is no index key decodes to a record of that name, and whatever decodes to
a record has the key as its name; every entry of
`collectionFileTransferPrivateDetails` is the encoding of a detail whose name
is the key.  Hence every put that `accessFile` issues on such a state goes to
the collection and key of a get it issued: it writes back to the key it
read. -/
theorem stored_name_is_key (st : State) (h : ReachableByInvocations st) :
    (∀ k b, st "collectionFileTransfer" k = some b →
      (¬ ∃ a n, CreateCompositeKey "authorization~name" [a, n] = Except.ok k) →
      ∃ t, json.UnmarshalTransfer b = Except.ok t ∧ t.Name = k) ∧
    (∀ k b t, st "collectionFileTransfer" k = some b →
      json.UnmarshalTransfer b = Except.ok t → t.Name = k) ∧
    (∀ k d, st "collectionFileTransferPrivateDetails" k = some d →
      ∃ det, d = json.MarshalPrivateDetails det ∧ det.Name = k) ∧
    (∀ (stub : ChaincodeStub) (args : List String), stub.state = st →
      ∃ new, (accessFile stub args).2.log = stub.log ++ new ∧
        ∀ c k v, Call.PutPrivateData c k v ∈ new → Call.GetPrivateData c k ∈ new) := by
  have hN := reachableByInvocations_named h
  refine ⟨?_, ?_, hN.2, ?_⟩
  · intro k b hb hno
    rcases hN.1 k b hb with ⟨-, hidx⟩ | ⟨t, h0, h1⟩
    · exact absurd hidx hno
    · exact ⟨t, by rw [h0]; exact json.UnmarshalTransfer_MarshalTransfer t, h1⟩
  · intro k b t hb hu
    rcases hN.1 k b hb with ⟨h0, -⟩ | ⟨t0, h0, h1⟩
    · rw [h0, UnmarshalTransfer_sentinel] at hu
      exact Except.noConfusion hu
    · rw [h0, json.UnmarshalTransfer_MarshalTransfer] at hu
      rw [← Except.ok.inj hu]
      exact h1
  · intro stub args hst
    exact accessFile_writes_back stub args (by rw [hst]; exact hN)

set_option maxRecDepth 1000000 in
theorem stored_name_is_key_witness :
    ReachableByInvocations sampleState ∧
      ∀ b t, sampleState "collectionFileTransfer" "transfer1" = some b →
        json.UnmarshalTransfer b = Except.ok t → t.Name = "transfer1" :=
  have hr : ReachableByInvocations sampleState := by
    rw [sampleState_eq]
    exact ReachableByInvocations.step sampleCreate ReachableByInvocations.empty
  ⟨hr, (stored_name_is_key sampleState hr).2.1 "transfer1"⟩

/-- C22 (amended): the response of `initFileTransfer`, `delete` and
`accessFile` never has a payload.  A transient value that is not empty and does
not decode is echoed: the error message is `Failed to decode JSON of: `
followed by the value.  A transient value that decodes reaches the response
only through its decoded fields: two values that decode to the same input get
the same response, leave the same state and issue the same calls. -/
theorem transient_echoed_only_on_decode_failure (stub : ChaincodeStub)
    (transient1 transient2 : List (String × Bytes)) (payload1 payload2 : Bytes) :
    ((initFileTransfer stub []).1.Payload = none ∧ (delete stub []).1.Payload = none ∧
      (accessFile stub []).1.Payload = none) ∧
    (stub.transientErr = none → payload1 ≠ "" →
      (∀ e, stub.transient.lookup "fileTransfer" = some payload1 →
        json.UnmarshalTransferInput payload1 = Except.error e →
        (initFileTransfer stub []).1 = shim.Error ("Failed to decode JSON of: " ++ payload1)) ∧
      (∀ e, stub.transient.lookup "transfer_delete" = some payload1 →
        json.UnmarshalDeleteInput payload1 = Except.error e →
        (delete stub []).1 = shim.Error ("Failed to decode JSON of: " ++ payload1)) ∧
      (∀ e, stub.transient.lookup "transfer_flag" = some payload1 →
        json.UnmarshalAccessInput payload1 = Except.error e →
        (accessFile stub []).1 = shim.Error ("Failed to decode JSON of: " ++ payload1))) ∧
    (∀ input, transient1.lookup "fileTransfer" = some payload1 →
      transient2.lookup "fileTransfer" = some payload2 →
      json.UnmarshalTransferInput payload1 = Except.ok input →
      json.UnmarshalTransferInput payload2 = Except.ok input →
      (initFileTransfer { stub with transient := transient1 } []).1 =
          (initFileTransfer { stub with transient := transient2 } []).1 ∧
        (initFileTransfer { stub with transient := transient1 } []).2.state =
          (initFileTransfer { stub with transient := transient2 } []).2.state ∧
        (initFileTransfer { stub with transient := transient1 } []).2.log =
          (initFileTransfer { stub with transient := transient2 } []).2.log) ∧
    (∀ input, transient1.lookup "transfer_delete" = some payload1 →
      transient2.lookup "transfer_delete" = some payload2 →
      json.UnmarshalDeleteInput payload1 = Except.ok input →
      json.UnmarshalDeleteInput payload2 = Except.ok input →
      (delete { stub with transient := transient1 } []).1 =
          (delete { stub with transient := transient2 } []).1 ∧
        (delete { stub with transient := transient1 } []).2.state =
          (delete { stub with transient := transient2 } []).2.state ∧
        (delete { stub with transient := transient1 } []).2.log =
          (delete { stub with transient := transient2 } []).2.log) ∧
    (∀ input, transient1.lookup "transfer_flag" = some payload1 →
      transient2.lookup "transfer_flag" = some payload2 →
      json.UnmarshalAccessInput payload1 = Except.ok input →
      json.UnmarshalAccessInput payload2 = Except.ok input →
      (accessFile { stub with transient := transient1 } []).1 =
          (accessFile { stub with transient := transient2 } []).1 ∧
        (accessFile { stub with transient := transient1 } []).2.state =
          (accessFile { stub with transient := transient2 } []).2.state ∧
        (accessFile { stub with transient := transient1 } []).2.log =
          (accessFile { stub with transient := transient2 } []).2.log) := by
  refine ⟨⟨initFileTransfer_payload_none _ _, delete_payload_none _ _,
    accessFile_payload_none _ _⟩, ?_, ?_, ?_, ?_⟩
  · intro ht hne
    have l0 := mt (length_eq_zero_iff _).1 hne
    refine ⟨?_, ?_, ?_⟩
    · intro e h hd
      simp [initFileTransfer, ChaincodeStub.GetTransient, ChaincodeStub.issue, ht, h, l0, hd]
    · intro e h hd
      simp [delete, ChaincodeStub.GetTransient, ChaincodeStub.issue, ht, h, l0, hd]
    · intro e h hd
      simp [accessFile, ChaincodeStub.GetTransient, ChaincodeStub.issue, ht, h, l0, hd]
  · intro input h1 h2 h3 h4
    exact initFileTransfer_payload_independent stub _ _ _ _ input h1 h2 h3 h4
  · intro input h1 h2 h3 h4
    exact delete_payload_independent stub _ _ _ _ input h1 h2 h3 h4
  · intro input h1 h2 h3 h4
    exact accessFile_flag_independent stub _ _ _ _ input input h1 h2 h3 h4 rfl

set_option maxRecDepth 1000000 in
theorem transient_echoed_only_on_decode_failure_witness :
    (initFileTransfer brokenCreate []).1 =
      shim.Error "Failed to decode JSON of: \x7b\"name\":\"transfer1\",\"encryptionKey\":\"secret\"" :=
  ((transient_echoed_only_on_decode_failure brokenCreate [] [] brokenPayload "").2.1 rfl
    (by decide)).1 json.UnmarshalError.SyntaxError (by decide) (by decide)

set_option maxRecDepth 1000000 in
/-- C22 as stated fails: two create requests whose transient values both fail
to parse get different error responses, each holding its transient value in
full after `Failed to decode JSON of: `. -/
theorem decode_error_echoes_transient_value :
    json.UnmarshalTransferInput brokenPayload =
      Except.error json.UnmarshalError.SyntaxError ∧
    json.UnmarshalTransferInput "secret" = Except.error json.UnmarshalError.SyntaxError ∧
    (initFileTransfer brokenCreate []).1.Message =
      "Failed to decode JSON of: " ++ brokenPayload ∧
    (initFileTransfer otherBrokenCreate []).1.Message = "Failed to decode JSON of: " ++ "secret" ∧
    (initFileTransfer brokenCreate []).1 ≠ (initFileTransfer otherBrokenCreate []).1 :=
  ⟨by decide, by decide, by decide, by decide, by decide⟩

end FileTransfer
